import Mathlib

/-!
# avx-playground: eight-lane AVX vectors

A shallow embedding of `VecBase.h`, `Vec8Int.h` and `Vec8Float.h`.

A 256-bit `ymm` register is modelled as its eight 32-bit lanes in storage
order: lane `j` is the bit range `[32*j+31 : 32*j]`, so lane 0 is the element
at the lowest address, the one `operator[]`, `begin` and `operator<<` see
first.  A lane is kept as its raw bit pattern; an `int32_t` is read off a lane
in two's complement, a `float` in IEEE-754 binary32.

The wrappers `vec8i` and `vec8f` are one-line calls of Intel intrinsics.  Each
intrinsic is transcribed from the operation pseudo-code of the Intel
Intrinsics Guide, quoted in its doc comment.
-/

namespace avx

/-! ## Lanes and registers -/

/-- Raw bit pattern of one 32-bit lane. -/
abbrev Lane := Fin 4294967296

namespace Lane

/-- Truncation of a natural number to its low 32 bits. -/
def ofNat (n : Nat) : Lane := ⟨n % 4294967296, Nat.mod_lt _ (by decide)⟩

/-- Two's complement encoding of an integer, truncated to 32 bits. -/
def ofInt (z : Int) : Lane := ⟨(z % 4294967296).toNat, by omega⟩

/-- Signed (`int32_t`) reading of a lane. -/
def toInt (x : Lane) : Int :=
  if x.val < 2147483648 then (x.val : Int) else (x.val : Int) - 4294967296

/-- Lane with all 32 bits set: `0xFFFFFFFF`, the `int32_t` value `-1`. -/
def allOnes : Lane := ⟨4294967295, by decide⟩

/-- Lane with no bit set. -/
def zero : Lane := ⟨0, by decide⟩

/-- Bit `k` of a lane (`k = 31` is the sign bit). -/
def bit (x : Lane) (k : Nat) : Bool := x.val.testBit k

/-- Bitwise AND of two lanes. -/
def and (x y : Lane) : Lane := ofNat (x.val &&& y.val)

/-- Bitwise OR of two lanes. -/
def or (x y : Lane) : Lane := ofNat (x.val ||| y.val)

/-- Bitwise XOR of two lanes. -/
def xor (x y : Lane) : Lane := ofNat (x.val ^^^ y.val)

/-- Bitwise NOT of a lane: every one of the 32 bits flipped. -/
def not (x : Lane) : Lane := ofNat (x.val ^^^ 4294967295)

end Lane

/-- The integer register type `__m256i`: eight 32-bit lanes, lane 0 lowest. -/
abbrev __m256i := Fin 8 → Lane

/-- The float register type `__m256`: eight binary32 lanes, lane 0 lowest. -/
abbrev __m256 := Fin 8 → Lane

/-- The eight lanes of a register in storage order, lane 0 first. -/
def lanes (r : Fin 8 → Lane) : List Lane :=
  [r 0, r 1, r 2, r 3, r 4, r 5, r 6, r 7]

/-- The eight lanes of a register in storage order, read as `int32_t`. -/
def intLanes (r : Fin 8 → Lane) : List Int := (lanes r).map Lane.toInt

/-! ## Memory, pointers and assertions -/

/-- Memory as the element pointers see it. A `Value*` (`std::int32_t*` or
`float*`) is an address counted in elements of four bytes, an `Int`; the
difference of two of them is the `last - first` of the source, and
`last - first == Size` is equality of integers (the conversion of the
`ptrdiff_t` to `size_t` that the comparison makes is injective). Memory gives
the 32-bit contents of every element address. -/
abbrev Memory := Int → Lane

/-- The object a member function is called on together with the memory its
pointer arguments reach. -/
structure Frame (V : Type) where
  /-- The object `*this`. -/
  self : V
  /-- The memory. -/
  mem : Memory

/-- How a call ends: it returns, leaving a final state, or a failed `assert`
aborts the program in the state reached at the assertion. -/
inductive Outcome (σ : Type) where
  /-- The call ran to its end. -/
  | returned : σ → Outcome σ
  /-- An `assert` failed; the state is the one at the assertion. -/
  | assertion_failed : σ → Outcome σ

/-- The macro `assert(cond)` of `<cassert>` followed by the rest of a function
body. With `NDEBUG` defined the macro expands to nothing and the body runs;
otherwise a false condition aborts before the body has run. -/
def assert_then {σ : Type} (NDEBUG cond : Bool) (s : σ) (body : σ → σ) : Outcome σ :=
  if NDEBUG || cond then Outcome.returned (body s) else Outcome.assertion_failed s

/-- Reading of the 256 bits `MEM[mem_addr+255:mem_addr]`: eight consecutive
elements, the one at `mem_addr` into lane 0. -/
def MEM_read (mem : Memory) (mem_addr : Int) : Fin 8 → Lane :=
  fun j => mem (mem_addr + (j.val : Int))

/-- Writing of the 256 bits `MEM[mem_addr+255:mem_addr] := a`: lane `j` goes
to the element `mem_addr + j`, every other element keeps its contents. -/
def MEM_write (mem : Memory) (mem_addr : Int) (a : Fin 8 → Lane) : Memory :=
  fun (q : Int) =>
    if h : 0 ≤ q - mem_addr ∧ q - mem_addr < 8 then
      a ⟨(q - mem_addr).toNat, by omega⟩
    else mem q

/-! ## Integer intrinsics -/

/-- Intrinsic `_mm256_undefined_si256`: a register with unspecified contents; the model
fixes them to zero. -/
def _mm256_undefined_si256 : __m256i := fun _ => Lane.zero

/-- Intrinsic `_mm256_setzero_si256`: `dst[MAX:0] := 0`. -/
def _mm256_setzero_si256 : __m256i := fun _ => Lane.zero

/-- Intrinsic `_mm256_set1_epi32 (int a)`: `FOR j := 0 to 7: dst[32*j+31:32*j] := a[31:0]`. -/
def _mm256_set1_epi32 (a : Lane) : __m256i := fun _ => a

/-- Intrinsic `_mm256_setr_epi32 (int e7, int e6, int e5, int e4, int e3, int e2, int e1, int e0)`,
"set packed 32-bit integers in dst with the supplied values in reverse order":
`dst[31:0] := e7; dst[63:32] := e6; dst[95:64] := e5; dst[127:96] := e4;
dst[159:128] := e3; dst[191:160] := e2; dst[223:192] := e1; dst[255:224] := e0`. -/
def _mm256_setr_epi32 (e7 e6 e5 e4 e3 e2 e1 e0 : Lane) : __m256i :=
  fun j => match j with
    | 0 => e7 | 1 => e6 | 2 => e5 | 3 => e4
    | 4 => e3 | 5 => e2 | 6 => e1 | 7 => e0

/-- Intrinsic `_mm256_add_epi32`: `dst[i+31:i] := a[i+31:i] + b[i+31:i]` per lane,
the sum truncated to 32 bits. -/
def _mm256_add_epi32 (a b : __m256i) : __m256i :=
  fun j => Lane.ofNat ((a j).val + (b j).val)

/-- Intrinsic `_mm256_sub_epi32`: `dst[i+31:i] := a[i+31:i] - b[i+31:i]` per lane,
the difference truncated to 32 bits. -/
def _mm256_sub_epi32 (a b : __m256i) : __m256i :=
  fun j => Lane.ofInt ((a j).val - (b j).val)

/-- The operation `SignExtend64` of a 32-bit lane, as the integer it denotes. -/
def SignExtend64 (x : Lane) : Int := x.toInt

/-- Intrinsic `_mm256_mul_epi32`, "multiply the low signed 32-bit integers from each
packed 64-bit element in a and b, and store the signed 64-bit results in dst":
`FOR j := 0 to 3: i := j*64;
dst[i+63:i] := SignExtend64(a[i+31:i]) * SignExtend64(b[i+31:i])`.
The 64-bit element `j` occupies the lanes `2*j` (bits 31:0) and `2*j+1`
(bits 63:32). -/
def _mm256_mul_epi32 (a b : __m256i) : __m256i :=
  fun l =>
    let lo : Fin 8 := ⟨2 * (l.val / 2), by omega⟩
    let prod : Int := SignExtend64 (a lo) * SignExtend64 (b lo)
    let bits64 : Nat := (prod % 18446744073709551616).toNat
    if l.val % 2 = 0 then Lane.ofNat (bits64 % 4294967296)
    else Lane.ofNat (bits64 / 4294967296)

/-- Lane `2*k`, the low half of the 64-bit element `k`. -/
def evenLane (k : Fin 4) : Fin 8 := ⟨2 * k.val, by omega⟩

/-- Lane `2*k+1`, the high half of the 64-bit element `k`. -/
def oddLane (k : Fin 4) : Fin 8 := ⟨2 * k.val + 1, by omega⟩

/-- Signed reading of the 64-bit element whose bits 31:0 are the lane `lo` and
whose bits 63:32 are the lane `hi`. -/
def signed64 (lo hi : Lane) : Int :=
  if lo.val + 4294967296 * hi.val < 9223372036854775808
  then ((lo.val + 4294967296 * hi.val : Nat) : Int)
  else ((lo.val + 4294967296 * hi.val : Nat) : Int) - 18446744073709551616

/-- Intrinsic `_mm256_or_si256`: `dst[255:0] := (a[255:0] OR b[255:0])`. -/
def _mm256_or_si256 (a b : __m256i) : __m256i := fun j => Lane.or (a j) (b j)

/-- Intrinsic `_mm256_and_si256`: `dst[255:0] := (a[255:0] AND b[255:0])`. -/
def _mm256_and_si256 (a b : __m256i) : __m256i := fun j => Lane.and (a j) (b j)

/-- Intrinsic `_mm256_xor_si256`: `dst[255:0] := (a[255:0] XOR b[255:0])`. -/
def _mm256_xor_si256 (a b : __m256i) : __m256i := fun j => Lane.xor (a j) (b j)

/-- Intrinsic `_mm256_sllv_epi32`: `FOR j := 0 to 7: i := j*32;
IF count[i+31:i] < 32 THEN dst[i+31:i] := ZeroExtend32(a[i+31:i] << count[i+31:i])
ELSE dst[i+31:i] := 0`. The count is read unsigned. -/
def _mm256_sllv_epi32 (a count : __m256i) : __m256i :=
  fun j => if (count j).val < 32 then Lane.ofNat ((a j).val <<< (count j).val)
    else Lane.zero

/-- Intrinsic `_mm256_srlv_epi32`: `FOR j := 0 to 7: i := j*32;
IF count[i+31:i] < 32 THEN dst[i+31:i] := ZeroExtend32(a[i+31:i] >> count[i+31:i])
ELSE dst[i+31:i] := 0`. The count is read unsigned. -/
def _mm256_srlv_epi32 (a count : __m256i) : __m256i :=
  fun j => if (count j).val < 32 then Lane.ofNat ((a j).val >>> (count j).val)
    else Lane.zero

/-- The bits `imm8[7:0]` of an `int` immediate, as a number below 256. -/
def imm8_low (imm8 : Int) : Nat := (imm8 % 256).toNat

/-- Intrinsic `_mm256_srli_epi32 (__m256i a, int imm8)`: `FOR j := 0 to 7: i := j*32;
IF imm8 > 31 THEN dst[i+31:i] := 0
ELSE dst[i+31:i] := ZeroExtend32(a[i+31:i] >> imm8)`. The parameter is an
`int` and the whole of it is the count, read unsigned: a count of 256 or more
and a negative count are above 31 and clear the lane, they are not cut to
their low byte. -/
def _mm256_srli_epi32 (a : __m256i) (imm8 : Int) : __m256i :=
  fun j => if imm8 < 0 ∨ imm8 > 31 then Lane.zero
    else Lane.ofNat ((a j).val >>> imm8.toNat)

/-- Intrinsic `_mm256_slli_epi32 (__m256i a, int imm8)`: `FOR j := 0 to 7: i := j*32;
IF imm8 > 31 THEN dst[i+31:i] := 0
ELSE dst[i+31:i] := ZeroExtend32(a[i+31:i] << imm8)`. The whole `int` is the
count, read unsigned, as for `_mm256_srli_epi32`. -/
def _mm256_slli_epi32 (a : __m256i) (imm8 : Int) : __m256i :=
  fun j => if imm8 < 0 ∨ imm8 > 31 then Lane.zero
    else Lane.ofNat ((a j).val <<< imm8.toNat)

/-- The operation `SignExtend32` of a `w`-bit field `x` (`x < 2^w`, `1 ≤ w ≤ 32`): when the
top bit of the field (bit `w-1`) is set, the bits `w .. 31` are filled with
ones. -/
def SignExtend32 (w : Nat) (x : Nat) : Lane :=
  if x.testBit (w - 1) then Lane.ofNat (x + (4294967296 - 2 ^ w)) else Lane.ofNat x

/-- Intrinsic `_mm256_srai_epi32 (__m256i a, int imm8)`: `FOR j := 0 to 7: i := j*32;
IF imm8 > 31 THEN dst[i+31:i] := (a[i+31] ? 0xFFFFFFFF : 0x0)
ELSE dst[i+31:i] := SignExtend32(a[i+31:i] >> imm8)`.
The shifted value is the field of the `32 - imm8` surviving bits. The whole
`int` is the count, read unsigned, as for `_mm256_srli_epi32`: a count of 256
or more and a negative count fill the lane with its sign. -/
def _mm256_srai_epi32 (a : __m256i) (imm8 : Int) : __m256i :=
  fun j => if imm8 < 0 ∨ imm8 > 31 then (if (a j).bit 31 then Lane.allOnes else Lane.zero)
    else SignExtend32 (32 - imm8.toNat) ((a j).val >>> imm8.toNat)

/-- Intrinsic `_mm256_cmpeq_epi32`: `FOR j := 0 to 7: i := j*32;
dst[i+31:i] := (a[i+31:i] == b[i+31:i]) ? 0xFFFFFFFF : 0`. -/
def _mm256_cmpeq_epi32 (a b : __m256i) : __m256i :=
  fun j => if a j = b j then Lane.allOnes else Lane.zero

/-- Intrinsic `_mm256_cmpgt_epi32`, "compare packed signed 32-bit integers in a and b
for greater-than": `FOR j := 0 to 7: i := j*32;
dst[i+31:i] := (a[i+31:i] > b[i+31:i]) ? 0xFFFFFFFF : 0`. -/
def _mm256_cmpgt_epi32 (a b : __m256i) : __m256i :=
  fun j => if (a j).toInt > (b j).toInt then Lane.allOnes else Lane.zero

/-- Intrinsic `_mm256_testz_si256`: `IF ((a[255:0] AND b[255:0]) == 0) ZF := 1 ELSE ZF := 0;
IF (((NOT a[255:0]) AND b[255:0]) == 0) CF := 1 ELSE CF := 0; RETURN ZF`. -/
def _mm256_testz_si256 (a b : __m256i) : Int :=
  if ∀ j, Lane.and (a j) (b j) = Lane.zero then 1 else 0

/-- Intrinsic `_mm256_testc_si256`: `IF ((a[255:0] AND b[255:0]) == 0) ZF := 1 ELSE ZF := 0;
IF (((NOT a[255:0]) AND b[255:0]) == 0) CF := 1 ELSE CF := 0; RETURN CF`. -/
def _mm256_testc_si256 (a b : __m256i) : Int :=
  if ∀ j, Lane.and (Lane.not (a j)) (b j) = Lane.zero then 1 else 0

/-- Intrinsic `_mm256_testnzc_si256`: with `ZF` and `CF` as in `_mm256_testz_si256`,
`IF (ZF == 0 && CF == 0) dst := 1 ELSE dst := 0`. -/
def _mm256_testnzc_si256 (a b : __m256i) : Int :=
  if _mm256_testz_si256 a b = 0 ∧ _mm256_testc_si256 a b = 0 then 1 else 0

/-- The operation `ABS` of `_mm256_abs_epi32` on one lane: a negative
`int32_t` is negated in two's complement, the result truncated to 32 bits. -/
def ABS (x : Lane) : Lane := if x.toInt < 0 then Lane.ofInt (-x.toInt) else x

/-- Intrinsic `_mm256_abs_epi32`: `FOR j := 0 to 7: i := j*32;
dst[i+31:i] := ABS(a[i+31:i])`. -/
def _mm256_abs_epi32 (a : __m256i) : __m256i := fun j => ABS (a j)

/-- Intrinsic `_mm256_min_epi32`: `FOR j := 0 to 7: i := j*32;
dst[i+31:i] := MIN(a[i+31:i], b[i+31:i])`, the lanes compared as signed. -/
def _mm256_min_epi32 (a b : __m256i) : __m256i :=
  fun j => if (a j).toInt < (b j).toInt then a j else b j

/-- Intrinsic `_mm256_max_epi32`: `FOR j := 0 to 7: i := j*32;
dst[i+31:i] := MAX(a[i+31:i], b[i+31:i])`, the lanes compared as signed. -/
def _mm256_max_epi32 (a b : __m256i) : __m256i :=
  fun j => if (a j).toInt > (b j).toInt then a j else b j

/-- Intrinsic `_mm256_blend_epi32`: `FOR j := 0 to 7: i := j*32;
IF imm8[j] dst[i+31:i] := b[i+31:i] ELSE dst[i+31:i] := a[i+31:i]`. -/
def _mm256_blend_epi32 (a b : __m256i) (imm8 : Int) : __m256i :=
  fun j => if (imm8_low imm8).testBit j.val then b j else a j

/-- The helper `INTERLEAVE_DWORDS` of `_mm256_unpacklo_epi32` on one 128-bit
half: `dst[31:0] := src1[31:0]; dst[63:32] := src2[31:0];
dst[95:64] := src1[63:32]; dst[127:96] := src2[63:32]`. -/
def INTERLEAVE_DWORDS (src1 src2 : Fin 4 → Lane) : Fin 4 → Lane :=
  fun j => match j with
    | 0 => src1 0 | 1 => src2 0 | 2 => src1 1 | 3 => src2 1

/-- The helper `INTERLEAVE_HIGH_DWORDS` of `_mm256_unpackhi_epi32` on one
128-bit half: `dst[31:0] := src1[95:64]; dst[63:32] := src2[95:64];
dst[95:64] := src1[127:96]; dst[127:96] := src2[127:96]`. -/
def INTERLEAVE_HIGH_DWORDS (src1 src2 : Fin 4 → Lane) : Fin 4 → Lane :=
  fun j => match j with
    | 0 => src1 2 | 1 => src2 2 | 2 => src1 3 | 3 => src2 3

/-- The 128-bit half `[127:0]` of a register (lanes 0..3). -/
def lowHalf (r : Fin 8 → Lane) : Fin 4 → Lane := fun j => r ⟨j.val, by omega⟩

/-- The 128-bit half `[255:128]` of a register (lanes 4..7). -/
def highHalf (r : Fin 8 → Lane) : Fin 4 → Lane := fun j => r ⟨4 + j.val, by omega⟩

/-- The register whose half `[127:0]` is `lo` and whose half `[255:128]` is `hi`. -/
def joinHalves (lo hi : Fin 4 → Lane) : Fin 8 → Lane :=
  fun l => if h : l.val < 4 then lo ⟨l.val, h⟩ else hi ⟨l.val - 4, by omega⟩

/-- Intrinsic `_mm256_unpacklo_epi32`:
`dst[127:0] := INTERLEAVE_DWORDS(a[127:0], b[127:0]);
dst[255:128] := INTERLEAVE_DWORDS(a[255:128], b[255:128])`. -/
def _mm256_unpacklo_epi32 (a b : __m256i) : __m256i :=
  joinHalves (INTERLEAVE_DWORDS (lowHalf a) (lowHalf b))
    (INTERLEAVE_DWORDS (highHalf a) (highHalf b))

/-- Intrinsic `_mm256_unpackhi_epi32`:
`dst[127:0] := INTERLEAVE_HIGH_DWORDS(a[127:0], b[127:0]);
dst[255:128] := INTERLEAVE_HIGH_DWORDS(a[255:128], b[255:128])`. -/
def _mm256_unpackhi_epi32 (a b : __m256i) : __m256i :=
  joinHalves (INTERLEAVE_HIGH_DWORDS (lowHalf a) (lowHalf b))
    (INTERLEAVE_HIGH_DWORDS (highHalf a) (highHalf b))

/-- Intrinsic `_mm256_loadu_si256 (__m256i const* mem_addr)`:
`dst[255:0] := MEM[mem_addr+255:mem_addr]`, no alignment required. -/
def _mm256_loadu_si256 (mem : Memory) (mem_addr : Int) : __m256i := MEM_read mem mem_addr

/-- Intrinsic `_mm256_load_si256 (__m256i const* mem_addr)`:
`dst[255:0] := MEM[mem_addr+255:mem_addr]`. The 32-byte alignment of
`mem_addr` is the obligation of the caller; addresses have no alignment here. -/
def _mm256_load_si256 (mem : Memory) (mem_addr : Int) : __m256i := MEM_read mem mem_addr

/-- Intrinsic `_mm256_stream_load_si256 (__m256i const* mem_addr)`:
`dst[255:0] := MEM[mem_addr+255:mem_addr]`, with a non-temporal hint that has
no effect on the value loaded. -/
def _mm256_stream_load_si256 (mem : Memory) (mem_addr : Int) : __m256i :=
  MEM_read mem mem_addr

/-- Intrinsic `_mm256_storeu_si256 (__m256i* mem_addr, __m256i a)`:
`MEM[mem_addr+255:mem_addr] := a[255:0]`, no alignment required. -/
def _mm256_storeu_si256 (mem : Memory) (mem_addr : Int) (a : __m256i) : Memory :=
  MEM_write mem mem_addr a

/-- Intrinsic `_mm256_store_si256 (__m256i* mem_addr, __m256i a)`:
`MEM[mem_addr+255:mem_addr] := a[255:0]`; alignment as for `_mm256_load_si256`. -/
def _mm256_store_si256 (mem : Memory) (mem_addr : Int) (a : __m256i) : Memory :=
  MEM_write mem mem_addr a

/-- Intrinsic `_mm256_stream_si256 (__m256i* mem_addr, __m256i a)`:
`MEM[mem_addr+255:mem_addr] := a[255:0]`, with a non-temporal hint; the order
in which other threads see the store is outside this single-threaded model. -/
def _mm256_stream_si256 (mem : Memory) (mem_addr : Int) (a : __m256i) : Memory :=
  MEM_write mem mem_addr a

/-! ## IEEE-754 binary32 arithmetic

A `float` is its binary32 encoding: sign bit 31, biased exponent bits 30:23,
fraction bits 22:0.  Arithmetic is the exact result rounded to nearest, ties to
even (the default `MXCSR` rounding mode), with the NaN rules of SSE/AVX. -/

namespace F32

/-- Sign bit of an encoding. -/
def sign (x : Lane) : Bool := x.bit 31

/-- Biased exponent field, bits 30:23. -/
def expField (x : Lane) : Nat := (x.val / 8388608) % 256

/-- Fraction field, bits 22:0. -/
def fracField (x : Lane) : Nat := x.val % 8388608

/-- NaN: exponent field all ones, fraction non-zero. -/
def isNaN (x : Lane) : Bool := expField x = 255 && fracField x != 0

/-- Infinity: exponent field all ones, fraction zero. -/
def isInf (x : Lane) : Bool := expField x = 255 && fracField x = 0

/-- Zero of either sign. -/
def isZero (x : Lane) : Bool := expField x = 0 && fracField x = 0

/-- Finite: neither an infinity nor a NaN. -/
def isFinite (x : Lane) : Bool := expField x != 255

/-- Integer significand of a finite encoding: the fraction, with the hidden
bit unless the encoding is subnormal. -/
def significand (x : Lane) : Nat :=
  if expField x = 0 then fracField x else 8388608 + fracField x

/-- Exponent of the last significand bit: the finite encoding `x` denotes
`± significand x * 2 ^ exponent x`. -/
def exponent (x : Lane) : Int :=
  if expField x = 0 then -149 else (expField x : Int) - 150

/-- Signed integer significand of a finite encoding. -/
def signedSignificand (x : Lane) : Int :=
  if sign x then -(significand x : Int) else (significand x : Int)

/-- The rational number a finite encoding denotes. -/
def toRat (x : Lane) : ℚ := (signedSignificand x : ℚ) * (2 : ℚ) ^ exponent x

/-- Positive zero, `0x00000000`. -/
def posZero : Lane := Lane.ofNat 0

/-- Negative zero, `0x80000000`. -/
def negZero : Lane := Lane.ofNat 2147483648

/-- Infinity of the given sign. -/
def inf (s : Bool) : Lane := Lane.ofNat (2139095040 + (if s then 2147483648 else 0))

/-- The default NaN ("QNaN floating-point indefinite"), `0xFFC00000`. -/
def defaultNaN : Lane := Lane.ofNat 4290772992

/-- A NaN with its quiet bit (bit 22) set. -/
def quiet (x : Lane) : Lane := Lane.ofNat (x.val ||| 4194304)

/-- Number of binary digits of `m`; the first argument bounds the recursion and
is at least the number of digits whenever it is at least `m`. -/
def bitLength : Nat → Nat → Nat
  | 0, _ => 0
  | fuel + 1, m => if m = 0 then 0 else bitLength fuel (m / 2) + 1

/-- The encoding nearest to `± m * 2 ^ e`, ties to even; overflow gives
infinity, and the result is subnormal below `2 ^ (-126)`. -/
def round (s : Bool) (m : Nat) (e : Int) : Lane :=
  let top : Int := e + (bitLength m m : Int) - 1
  let ulp : Int := max top (-126) - 23
  let mant : Nat :=
    if ulp ≤ e then m * 2 ^ (e - ulp).toNat
    else
      let sh : Nat := (ulp - e).toNat
      let kept : Nat := m / 2 ^ sh
      let rest : Nat := m % 2 ^ sh
      let half : Nat := 2 ^ (sh - 1)
      if rest > half ∨ (rest = half ∧ kept % 2 = 1) then kept + 1 else kept
  let biased : Nat := (max top (-126) + 126).toNat
  let mag : Nat := if m = 0 then 0 else min (biased * 8388608 + mant) 2139095040
  Lane.ofNat (mag + (if s then 2147483648 else 0))

/-- The significand `round` keeps of `m * 2 ^ e` when the last place of the
result is `2 ^ ulp`: `m * 2 ^ e / 2 ^ ulp` rounded to the nearest integer, ties
to even. -/
def keptSignificand (m : Nat) (e ulp : Int) : Nat :=
  if ulp ≤ e then m * 2 ^ (e - ulp).toNat
  else
    if m % 2 ^ (ulp - e).toNat > 2 ^ ((ulp - e).toNat - 1)
        ∨ (m % 2 ^ (ulp - e).toNat = 2 ^ ((ulp - e).toNat - 1)
          ∧ m / 2 ^ (ulp - e).toNat % 2 = 1)
    then m / 2 ^ (ulp - e).toNat + 1 else m / 2 ^ (ulp - e).toNat

/-- Conversion of an integer literal to `float`. -/
def ofInt (z : Int) : Lane := round (decide (z < 0)) z.natAbs 0

/-- Single-precision addition `x + y` (`ADDPS`, one lane). -/
def add (x y : Lane) : Lane :=
  if isNaN x then quiet x
  else if isNaN y then quiet y
  else if isInf x then (if isInf y && sign x != sign y then defaultNaN else x)
  else if isInf y then y
  else
    let e : Int := min (exponent x) (exponent y)
    let total : Int :=
      signedSignificand x * 2 ^ (exponent x - e).toNat
        + signedSignificand y * 2 ^ (exponent y - e).toNat
    if total = 0 then (if sign x && sign y then negZero else posZero)
    else round (decide (total < 0)) total.natAbs e

/-- Single-precision negation of the sign bit. -/
def neg (x : Lane) : Lane := Lane.xor x negZero

/-- Single-precision subtraction `x - y` (`SUBPS`, one lane). -/
def sub (x y : Lane) : Lane :=
  if isNaN x then quiet x
  else if isNaN y then quiet y
  else add x (neg y)

/-- Single-precision multiplication `x * y` (`MULPS`, one lane). -/
def mul (x y : Lane) : Lane :=
  if isNaN x then quiet x
  else if isNaN y then quiet y
  else if isInf x || isInf y then
    (if isZero x || isZero y then defaultNaN else inf (sign x != sign y))
  else round (sign x != sign y) (significand x * significand y) (exponent x + exponent y)

/-- Integer square root by bisection on the bits `k-1 .. 0`, starting from `r`. -/
def isqrtAux : Nat → Nat → Nat → Nat
  | 0, _, r => r
  | k + 1, n, r => if (r + 2 ^ k) * (r + 2 ^ k) ≤ n then isqrtAux k n (r + 2 ^ k) else isqrtAux k n r

/-- Integer square root of `n < 2 ^ 128`. -/
def isqrt (n : Nat) : Nat := isqrtAux 64 n 0

/-- Single-precision square root (`SQRTPS`, one lane), correctly rounded. -/
def sqrt (x : Lane) : Lane :=
  if isNaN x then quiet x
  else if isZero x then x
  else if sign x then defaultNaN
  else if isInf x then x
  else
    let odd : Nat := (exponent x % 2).toNat
    let n : Nat := significand x * 2 ^ (64 + odd)
    let e : Int := (exponent x - 64 - odd) / 2
    let r : Nat := isqrt n
    if r * r = n then round false r e else round false (2 * r + 1) (e - 1)

/-- Fused multiply-add `a * b + c` (`VFMADD...PS`, one lane): the exact product
plus `c`, rounded once. When several operands are NaN, which one is returned
depends on the instruction form the compiler picks; the first among `a`, `b`,
`c` is taken here. -/
def fma (a b c : Lane) : Lane :=
  if isNaN a then quiet a
  else if isNaN b then quiet b
  else if isNaN c then quiet c
  else if isInf a || isInf b then
    (if isZero a || isZero b then defaultNaN
     else if isInf c && sign c != (sign a != sign b) then defaultNaN
     else inf (sign a != sign b))
  else if isInf c then c
  else
    let e : Int := min (exponent a + exponent b) (exponent c)
    let total : Int :=
      signedSignificand a * signedSignificand b * 2 ^ (exponent a + exponent b - e).toNat
        + signedSignificand c * 2 ^ (exponent c - e).toNat
    if total = 0 then (if (sign a != sign b) && sign c then negZero else posZero)
    else round (decide (total < 0)) total.natAbs e

/-- The four mutually exclusive relations of IEEE 754 between two operands. -/
inductive Relation where
  /-- The first operand is less than the second. -/
  | less
  /-- The operands are equal (`+0` and `-0` are equal). -/
  | equal
  /-- The first operand is greater than the second. -/
  | greater
  /-- At least one operand is NaN. -/
  | unordered
  deriving DecidableEq

/-- Magnitude of an encoding, bits 30:0. -/
def magnitude (x : Lane) : Nat := x.val % 2147483648

/-- Order key of an encoding that is no NaN: binary32 values of one sign are
ordered as their magnitudes, and both zeros have key 0. -/
def orderKey (x : Lane) : Int :=
  if sign x then -(magnitude x : Int) else (magnitude x : Int)

/-- The relation between two operands. -/
def relation (x y : Lane) : Relation :=
  if isNaN x || isNaN y then Relation.unordered
  else if orderKey x < orderKey y then Relation.less
  else if orderKey x = orderKey y then Relation.equal
  else Relation.greater

/-- Truth of the comparison predicate `imm8[4:0]` of `CMPPS` under a relation
(Intel SDM, "Comparison Predicate for CMPPD and CMPPS Instructions"). The
predicates 16..31 have the truth tables of 0..15 and differ in signalling only:
0 `EQ_OQ`, 1 `LT_OS`, 2 `LE_OS`, 3 `UNORD_Q`, 4 `NEQ_UQ`, 5 `NLT_US`, 6 `NLE_US`,
7 `ORD_Q`, 8 `EQ_UQ`, 9 `NGE_US`, 10 `NGT_US`, 11 `FALSE_OQ`, 12 `NEQ_OQ`,
13 `GE_OS`, 14 `GT_OS`, 15 `TRUE_UQ`. -/
def predicate (imm5 : Nat) (r : Relation) : Bool :=
  match imm5 % 16, r with
  | 0, r => decide (r = Relation.equal)
  | 1, r => decide (r = Relation.less)
  | 2, r => decide (r = Relation.less ∨ r = Relation.equal)
  | 3, r => decide (r = Relation.unordered)
  | 4, r => decide (r ≠ Relation.equal)
  | 5, r => decide (r ≠ Relation.less)
  | 6, r => decide (r = Relation.greater ∨ r = Relation.unordered)
  | 7, r => decide (r ≠ Relation.unordered)
  | 8, r => decide (r = Relation.equal ∨ r = Relation.unordered)
  | 9, r => decide (r = Relation.less ∨ r = Relation.unordered)
  | 10, r => decide (r ≠ Relation.greater)
  | 11, _ => false
  | 12, r => decide (r = Relation.less ∨ r = Relation.greater)
  | 13, r => decide (r = Relation.greater ∨ r = Relation.equal)
  | 14, r => decide (r = Relation.greater)
  | _, _ => true

end F32

/-! ## Float intrinsics -/

/-- Intrinsic `_mm256_undefined_ps`: a register with unspecified contents; the
model fixes them to zero. -/
def _mm256_undefined_ps : __m256 := fun _ => Lane.zero

/-- Intrinsic `_mm256_setzero_ps`: `dst[MAX:0] := 0`. -/
def _mm256_setzero_ps : __m256 := fun _ => Lane.zero

/-- Intrinsic `_mm256_set1_ps (float a)`:
`FOR j := 0 to 7: dst[32*j+31:32*j] := a[31:0]`. -/
def _mm256_set1_ps (a : Lane) : __m256 := fun _ => a

/-- Intrinsic `_mm256_setr_ps (float e7, float e6, float e5, float e4, float e3,
float e2, float e1, float e0)`, "set packed single-precision elements in dst
with the supplied values in reverse order":
`dst[31:0] := e7; dst[63:32] := e6; dst[95:64] := e5; dst[127:96] := e4;
dst[159:128] := e3; dst[191:160] := e2; dst[223:192] := e1; dst[255:224] := e0`. -/
def _mm256_setr_ps (e7 e6 e5 e4 e3 e2 e1 e0 : Lane) : __m256 :=
  fun j => match j with
    | 0 => e7 | 1 => e6 | 2 => e5 | 3 => e4
    | 4 => e3 | 5 => e2 | 6 => e1 | 7 => e0

/-- Intrinsic `_mm256_add_ps`: `dst[i+31:i] := a[i+31:i] + b[i+31:i]` per lane. -/
def _mm256_add_ps (a b : __m256) : __m256 := fun j => F32.add (a j) (b j)

/-- Intrinsic `_mm256_sub_ps`: `dst[i+31:i] := a[i+31:i] - b[i+31:i]` per lane. -/
def _mm256_sub_ps (a b : __m256) : __m256 := fun j => F32.sub (a j) (b j)

/-- Intrinsic `_mm256_mul_ps`: `dst[i+31:i] := a[i+31:i] * b[i+31:i]` per lane. -/
def _mm256_mul_ps (a b : __m256) : __m256 := fun j => F32.mul (a j) (b j)

/-- Intrinsic `_mm256_or_ps`: `dst[i+31:i] := a[i+31:i] OR b[i+31:i]` per lane. -/
def _mm256_or_ps (a b : __m256) : __m256 := fun j => Lane.or (a j) (b j)

/-- Intrinsic `_mm256_and_ps`: `dst[i+31:i] := (a[i+31:i] AND b[i+31:i])` per lane. -/
def _mm256_and_ps (a b : __m256) : __m256 := fun j => Lane.and (a j) (b j)

/-- Intrinsic `_mm256_xor_ps`: `dst[i+31:i] := a[i+31:i] XOR b[i+31:i]` per lane. -/
def _mm256_xor_ps (a b : __m256) : __m256 := fun j => Lane.xor (a j) (b j)

/-- Intrinsic `_mm256_sqrt_ps`: `dst[i+31:i] := SQRT(a[i+31:i])` per lane. -/
def _mm256_sqrt_ps (a : __m256) : __m256 := fun j => F32.sqrt (a j)

/-- The helper `DP` of `_mm256_dp_ps` on one 128-bit half (four lanes), with the
additions in the order of the `DPPS` operation of the Intel SDM:
`FOR j := 0 to 3: IF imm8[4+j] temp[j] := a[j] * b[j] ELSE temp[j] := +0.0;
Temp2 := Temp1[31:0] + Temp1[63:32]; Temp3 := Temp1[95:64] + Temp1[127:96];
Temp4 := Temp2 + Temp3;
FOR j := 0 to 3: IF imm8[j] tmpdst[j] := Temp4 ELSE tmpdst[j] := +0.0`.
(The Intrinsics Guide writes the same sum as
`(temp[127:96] + temp[95:64]) + (temp[63:32] + temp[31:0])`.) -/
def DP (a b : Fin 4 → Lane) (imm8 : Int) : Fin 4 → Lane :=
  let temp : Fin 4 → Lane := fun j =>
    if (imm8_low imm8).testBit (4 + j.val) then F32.mul (a j) (b j) else F32.posZero
  let sum : Lane := F32.add (F32.add (temp 0) (temp 1)) (F32.add (temp 2) (temp 3))
  fun j => if (imm8_low imm8).testBit j.val then sum else F32.posZero

/-- Intrinsic `_mm256_dp_ps`: `dst[127:0] := DP(a[127:0], b[127:0], imm8[7:0]);
dst[255:128] := DP(a[255:128], b[255:128], imm8[7:0])`. -/
def _mm256_dp_ps (a b : __m256) (imm8 : Int) : __m256 :=
  fun l =>
    if h : l.val < 4 then
      DP (fun j => a ⟨j.val, by omega⟩) (fun j => b ⟨j.val, by omega⟩) imm8 ⟨l.val, h⟩
    else
      DP (fun j => a ⟨4 + j.val, by omega⟩) (fun j => b ⟨4 + j.val, by omega⟩) imm8
        ⟨l.val - 4, by omega⟩

/-- Intrinsic `_mm256_testz_ps`: `tmp[255:0] := a[255:0] AND b[255:0];
IF (tmp[31] == 0 && tmp[63] == 0 && tmp[95] == 0 && tmp[127] == 0 && tmp[159] == 0 &&
tmp[191] == 0 && tmp[223] == 0 && tmp[255] == 0) ZF := 1 ELSE ZF := 0;
tmp[255:0] := (NOT a[255:0]) AND b[255:0]; IF (the same eight bits of tmp are 0)
CF := 1 ELSE CF := 0; dst := ZF`. -/
def _mm256_testz_ps (a b : __m256) : Int :=
  if ∀ j, (Lane.and (a j) (b j)).bit 31 = false then 1 else 0

/-- Intrinsic `_mm256_testc_ps`: with `ZF` and `CF` as in `_mm256_testz_ps`,
`dst := CF`. -/
def _mm256_testc_ps (a b : __m256) : Int :=
  if ∀ j, (Lane.and (Lane.not (a j)) (b j)).bit 31 = false then 1 else 0

/-- Intrinsic `_mm256_testnzc_ps`: with `ZF` and `CF` as in `_mm256_testz_ps`,
`IF (ZF == 0 && CF == 0) dst := 1 ELSE dst := 0`. -/
def _mm256_testnzc_ps (a b : __m256) : Int :=
  if _mm256_testz_ps a b = 0 ∧ _mm256_testc_ps a b = 0 then 1 else 0

/-- Intrinsic `_mm256_fmadd_ps`: `FOR j := 0 to 7: i := j*32;
dst[i+31:i] := (a[i+31:i] * b[i+31:i]) + c[i+31:i]`, "multiply ..., add the
intermediate result to packed elements in c", with one rounding. -/
def _mm256_fmadd_ps (a b c : __m256) : __m256 := fun j => F32.fma (a j) (b j) (c j)

/-- Intrinsic `_mm256_cmp_ps`: `FOR j := 0 to 7: i := j*32;
dst[i+31:i] := (a[i+31:i] OP b[i+31:i]) ? 0xFFFFFFFF : 0`, with `OP` the
predicate `imm8[4:0]`. -/
def _mm256_cmp_ps (a b : __m256) (imm8 : Int) : __m256 :=
  fun j => if F32.predicate (imm8_low imm8 % 32) (F32.relation (a j) (b j))
    then Lane.allOnes else Lane.zero

/-- Intrinsic `_mm256_blend_ps`: `FOR j := 0 to 7: i := j*32;
IF imm8[j] dst[i+31:i] := b[i+31:i] ELSE dst[i+31:i] := a[i+31:i]`. -/
def _mm256_blend_ps (a b : __m256) (imm8 : Int) : __m256 :=
  fun j => if (imm8_low imm8).testBit j.val then b j else a j

/-- Intrinsic `_mm256_unpacklo_ps`:
`dst[127:0] := INTERLEAVE_DWORDS(a[127:0], b[127:0]);
dst[255:128] := INTERLEAVE_DWORDS(a[255:128], b[255:128])`. -/
def _mm256_unpacklo_ps (a b : __m256) : __m256 :=
  joinHalves (INTERLEAVE_DWORDS (lowHalf a) (lowHalf b))
    (INTERLEAVE_DWORDS (highHalf a) (highHalf b))

/-- Intrinsic `_mm256_unpackhi_ps`:
`dst[127:0] := INTERLEAVE_HIGH_DWORDS(a[127:0], b[127:0]);
dst[255:128] := INTERLEAVE_HIGH_DWORDS(a[255:128], b[255:128])`. -/
def _mm256_unpackhi_ps (a b : __m256) : __m256 :=
  joinHalves (INTERLEAVE_HIGH_DWORDS (lowHalf a) (lowHalf b))
    (INTERLEAVE_HIGH_DWORDS (highHalf a) (highHalf b))

/-- Intrinsic `_mm256_loadu_ps (float const* mem_addr)`:
`dst[255:0] := MEM[mem_addr+255:mem_addr]`, no alignment required. -/
def _mm256_loadu_ps (mem : Memory) (mem_addr : Int) : __m256 := MEM_read mem mem_addr

/-- Intrinsic `_mm256_load_ps (float const* mem_addr)`:
`dst[255:0] := MEM[mem_addr+255:mem_addr]`. The 32-byte alignment of
`mem_addr` is the obligation of the caller; addresses have no alignment here. -/
def _mm256_load_ps (mem : Memory) (mem_addr : Int) : __m256 := MEM_read mem mem_addr

/-- Intrinsic `_mm256_storeu_ps (float* mem_addr, __m256 a)`:
`MEM[mem_addr+255:mem_addr] := a[255:0]`, no alignment required. -/
def _mm256_storeu_ps (mem : Memory) (mem_addr : Int) (a : __m256) : Memory :=
  MEM_write mem mem_addr a

/-- Intrinsic `_mm256_store_ps (float* mem_addr, __m256 a)`:
`MEM[mem_addr+255:mem_addr] := a[255:0]`; alignment as for `_mm256_load_ps`. -/
def _mm256_store_ps (mem : Memory) (mem_addr : Int) (a : __m256) : Memory :=
  MEM_write mem mem_addr a

/-- Intrinsic `_mm256_stream_ps (float* mem_addr, __m256 a)`:
`MEM[mem_addr+255:mem_addr] := a[255:0]`, with a non-temporal hint; the order
in which other threads see the store is outside this single-threaded model. -/
def _mm256_stream_ps (mem : Memory) (mem_addr : Int) (a : __m256) : Memory :=
  MEM_write mem mem_addr a

/-! ## `VecBase.h`: iteration and printing

The templates of `VecBase.h` see a specialisation through its `operator[]`
only. A pointer to a lane of a vector is the offset of the lane from lane 0,
in elements; `subscript` stands for `operator[]` of the vector at hand (the
pointer to the lane, or nothing when its assertion fails) and `read` for the
dereference of such a pointer. -/

/-- Template `begin`: `return &x[0];`. -/
def begin (subscript : Nat → Option Nat) : Option Nat := subscript 0

/-- Template `end`: `return begin(x) + N;`. -/
def end_ (N : Nat) (subscript : Nat → Option Nat) : Option Nat :=
  (begin subscript).map (fun p => p + N)

/-- The loop `for (p = first; p != last; ++p) visit(*p)` over a pointer range:
the elements visited, in the order visited. -/
def visit_range {α : Type} (read : Nat → Option α) (first last : Nat) : Option (List α) :=
  (List.range' first (last - first)).mapM read

/-- The algorithm `std::copy_n(first, count, result)`: `count` times
`*result++ = *first++`; `put` is the assignment through the output iterator. -/
def copy_n {α σ : Type} (read : Nat → Option α) (put : σ → α → σ) : Nat → Nat → σ → Option σ
  | _, 0, o => some o
  | first, count + 1, o =>
    (read first).bind (fun value => copy_n read put (first + 1) count (put o value))

/-- Assignment through `std::ostream_iterator<T>(o, " ")`: `o << value << " "`.
A stream is the text written to it so far; `format` is `operator<<` of `T`. -/
def ostream_iterator_put {α : Type} (format : α → String) (o : String) (value : α) : String :=
  o ++ format value ++ " "

/-- Template `operator<<`:
`std::copy_n(begin(v), N, std::ostream_iterator<T>(o, " ")); return o;`. -/
def operator_shl_stream {α : Type} (N : Nat) (subscript : Nat → Option Nat)
    (read : Nat → Option α) (format : α → String) (o : String) : Option String :=
  (begin subscript).bind (fun first => copy_n read (ostream_iterator_put format) first N o)

/-! ## `Vec8Int.h`: the integer vector -/

/-- The specialisation `vec<std::int32_t, 8u>`: its only state is the register
`ymm`. A `Value` (`std::int32_t`) is carried as its two's complement lane. -/
structure vec8i where
  /-- The member `__m256i ymm`. -/
  ymm : __m256i

namespace vec8i

/-- The constant `Size = 8u`. -/
def Size : Nat := 8

/-- Constructor `vec() : ymm(_mm256_undefined_si256()) {}`. -/
def vec_default : vec8i := ⟨_mm256_undefined_si256⟩

/-- Member `void load(Value scalar) { ymm = _mm256_set1_epi32(scalar); }`. -/
def load_scalar (_self : vec8i) (scalar : Lane) : vec8i :=
  ⟨_mm256_set1_epi32 scalar⟩

/-- Member `void load(Value e7, ..., Value e0)
{ ymm = _mm256_setr_epi32(e7, e6, e5, e4, e3, e2, e1, e0); }`. -/
def load_values (_self : vec8i) (e7 e6 e5 e4 e3 e2 e1 e0 : Lane) : vec8i :=
  ⟨_mm256_setr_epi32 e7 e6 e5 e4 e3 e2 e1 e0⟩

/-- Constructor `vec(Value scalar) { load(scalar); }`, also the implicit
conversion of a scalar operand. -/
def vec_scalar (scalar : Lane) : vec8i := load_scalar vec_default scalar

/-- Constructor `vec(Value e7, ..., Value e0) { load(e7, e6, e5, e4, e3, e2, e1, e0); }`. -/
def vec_values (e7 e6 e5 e4 e3 e2 e1 e0 : Lane) : vec8i :=
  load_values vec_default e7 e6 e5 e4 e3 e2 e1 e0

/-- The braced list `vec8i{x0, ..., x7}` of `int` literals, as `Example.cc`
writes it: the constructor above applied to the literals in the order written. -/
def vec_literals (x0 x1 x2 x3 x4 x5 x6 x7 : Int) : vec8i :=
  vec_values (Lane.ofInt x0) (Lane.ofInt x1) (Lane.ofInt x2) (Lane.ofInt x3)
    (Lane.ofInt x4) (Lane.ofInt x5) (Lane.ofInt x6) (Lane.ofInt x7)

/-- Member `void zero() { ymm = _mm256_setzero_si256(); }`. -/
def zero (_self : vec8i) : vec8i := ⟨_mm256_setzero_si256⟩

/-- Member `operator+=`: `ymm = _mm256_add_epi32(ymm, rhs.ymm); return *this;`.
The result is the receiver after the call. -/
def operator_plus_assign (self rhs : vec8i) : vec8i :=
  { self with ymm := _mm256_add_epi32 self.ymm rhs.ymm }

/-- Member `operator-=`: `ymm = _mm256_sub_epi32(ymm, rhs.ymm); return *this;`. -/
def operator_minus_assign (self rhs : vec8i) : vec8i :=
  { self with ymm := _mm256_sub_epi32 self.ymm rhs.ymm }

/-- Member `operator*=`: `ymm = _mm256_mul_epi32(ymm, rhs.ymm); return *this;`. -/
def operator_star_assign (self rhs : vec8i) : vec8i :=
  { self with ymm := _mm256_mul_epi32 self.ymm rhs.ymm }

/-- Member `operator|=`: `ymm = _mm256_or_si256(ymm, rhs.ymm); return *this;`. -/
def operator_or_assign (self rhs : vec8i) : vec8i :=
  { self with ymm := _mm256_or_si256 self.ymm rhs.ymm }

/-- Member `operator&=`: `ymm = _mm256_and_si256(ymm, rhs.ymm); return *this;`. -/
def operator_and_assign (self rhs : vec8i) : vec8i :=
  { self with ymm := _mm256_and_si256 self.ymm rhs.ymm }

/-- Member `operator^=`: `ymm = _mm256_xor_si256(ymm, rhs.ymm); return *this;`. -/
def operator_xor_assign (self rhs : vec8i) : vec8i :=
  { self with ymm := _mm256_xor_si256 self.ymm rhs.ymm }

/-- Member `operator<<=`: `ymm = _mm256_sllv_epi32(ymm, rhs.ymm); return *this;`. -/
def operator_shl_assign (self rhs : vec8i) : vec8i :=
  { self with ymm := _mm256_sllv_epi32 self.ymm rhs.ymm }

/-- Member `operator>>=`: `ymm = _mm256_srlv_epi32(ymm, rhs.ymm); return *this;`. -/
def operator_shr_assign (self rhs : vec8i) : vec8i :=
  { self with ymm := _mm256_srlv_epi32 self.ymm rhs.ymm }

/-- Free `operator+`: `return {_mm256_add_epi32(lhs.ymm, rhs.ymm)};`. -/
def operator_plus (lhs rhs : vec8i) : vec8i := ⟨_mm256_add_epi32 lhs.ymm rhs.ymm⟩

/-- Free binary `operator-`: `return {_mm256_sub_epi32(lhs.ymm, rhs.ymm)};`. -/
def operator_minus (lhs rhs : vec8i) : vec8i := ⟨_mm256_sub_epi32 lhs.ymm rhs.ymm⟩

/-- Free `operator*`: `return {_mm256_mul_epi32(lhs.ymm, rhs.ymm)};`. -/
def operator_star (lhs rhs : vec8i) : vec8i := ⟨_mm256_mul_epi32 lhs.ymm rhs.ymm⟩

/-- Free `operator|`: `return {_mm256_or_si256(lhs.ymm, rhs.ymm)};`. -/
def operator_or (lhs rhs : vec8i) : vec8i := ⟨_mm256_or_si256 lhs.ymm rhs.ymm⟩

/-- Free `operator&`: `return {_mm256_and_si256(lhs.ymm, rhs.ymm)};`. -/
def operator_and (lhs rhs : vec8i) : vec8i := ⟨_mm256_and_si256 lhs.ymm rhs.ymm⟩

/-- Free `operator^`: `return {_mm256_xor_si256(lhs.ymm, rhs.ymm)};`. -/
def operator_xor (lhs rhs : vec8i) : vec8i := ⟨_mm256_xor_si256 lhs.ymm rhs.ymm⟩

/-- Unary `operator~`: `return {_mm256_xor_si256(x.ymm, _mm256_set1_epi32(-1))};`. -/
def operator_tilde (x : vec8i) : vec8i :=
  ⟨_mm256_xor_si256 x.ymm (_mm256_set1_epi32 (Lane.ofInt (-1)))⟩

/-- Unary `operator-`: `return {_mm256_sub_epi32(_mm256_set1_epi32(0), x.ymm)};`. -/
def operator_neg (x : vec8i) : vec8i :=
  ⟨_mm256_sub_epi32 (_mm256_set1_epi32 (Lane.ofInt 0)) x.ymm⟩

/-- Free `operator<<`: `return {_mm256_sllv_epi32(lhs.ymm, rhs.ymm)};`. -/
def operator_shl (lhs rhs : vec8i) : vec8i := ⟨_mm256_sllv_epi32 lhs.ymm rhs.ymm⟩

/-- Free `operator>>`: `return {_mm256_srlv_epi32(lhs.ymm, rhs.ymm)};`. -/
def operator_shr (lhs rhs : vec8i) : vec8i := ⟨_mm256_srlv_epi32 lhs.ymm rhs.ymm⟩

/-- Free `operator==`: `return {_mm256_cmpeq_epi32(lhs.ymm, rhs.ymm)};`. -/
def operator_eq (lhs rhs : vec8i) : vec8i := ⟨_mm256_cmpeq_epi32 lhs.ymm rhs.ymm⟩

/-- Free `operator>`: `return {_mm256_cmpgt_epi32(lhs.ymm, rhs.ymm)};`. -/
def operator_gt (lhs rhs : vec8i) : vec8i := ⟨_mm256_cmpgt_epi32 lhs.ymm rhs.ymm⟩

/-- Free `operator!=`: `return ~(lhs == rhs);`. -/
def operator_ne (lhs rhs : vec8i) : vec8i := operator_tilde (operator_eq lhs rhs)

/-- Free `operator<`: `return rhs > lhs;`. -/
def operator_lt (lhs rhs : vec8i) : vec8i := operator_gt rhs lhs

/-- Free `operator>=`: `return ~(lhs < rhs);`. -/
def operator_ge (lhs rhs : vec8i) : vec8i := operator_tilde (operator_lt lhs rhs)

/-- Free `operator<=`: `return ~(lhs > rhs);`. -/
def operator_le (lhs rhs : vec8i) : vec8i := operator_tilde (operator_gt lhs rhs)

/-- Template `shiftRightZeroExtend<ShiftMask8Bit>`:
`return {_mm256_srli_epi32(x.ymm, ShiftMask8Bit)};`. -/
def shiftRightZeroExtend (ShiftMask8Bit : Int) (x : vec8i) : vec8i :=
  ⟨_mm256_srli_epi32 x.ymm ShiftMask8Bit⟩

/-- Template `shiftLeftZeroExtend<ShiftMask8Bit>`:
`return {_mm256_slli_epi32(x.ymm, ShiftMask8Bit)};`. -/
def shiftLeftZeroExtend (ShiftMask8Bit : Int) (x : vec8i) : vec8i :=
  ⟨_mm256_slli_epi32 x.ymm ShiftMask8Bit⟩

/-- Template `shiftRightSignExtend<ShiftMask8Bit>`:
`return {_mm256_srai_epi32(x.ymm, ShiftMask8Bit)};`. -/
def shiftRightSignExtend (ShiftMask8Bit : Int) (x : vec8i) : vec8i :=
  ⟨_mm256_srai_epi32 x.ymm ShiftMask8Bit⟩

/-- Test `isZFlagSet`: `return _mm256_testz_si256(lhs.ymm, rhs.ymm) != 0;`. -/
def isZFlagSet (lhs rhs : vec8i) : Bool := _mm256_testz_si256 lhs.ymm rhs.ymm != 0

/-- Test `isCFlagSet`: `return _mm256_testc_si256(lhs.ymm, rhs.ymm) != 0;`. -/
def isCFlagSet (lhs rhs : vec8i) : Bool := _mm256_testc_si256 lhs.ymm rhs.ymm != 0

/-- Test `isZAndCFlagClear`: `return _mm256_testnzc_si256(lhs.ymm, rhs.ymm) != 0;`. -/
def isZAndCFlagClear (lhs rhs : vec8i) : Bool :=
  _mm256_testnzc_si256 lhs.ymm rhs.ymm != 0

/-- Constructor `vec(const Value* first, const Value* last) { load(first, last); }`
and member `void load(const Value* first, const Value* last)`:
`assert(last - first == Size); ymm = _mm256_loadu_si256(first);`. -/
def load_range (NDEBUG : Bool) (s : Frame vec8i) (first last : Int) : Outcome (Frame vec8i) :=
  assert_then NDEBUG (decide (last - first = (Size : Int))) s
    (fun s => { s with self := ⟨_mm256_loadu_si256 s.mem first⟩ })

/-- Constructor `vec(const Value* first, const Value* last) { load(first, last); }`. -/
def vec_range (NDEBUG : Bool) (mem : Memory) (first last : Int) : Outcome (Frame vec8i) :=
  load_range NDEBUG ⟨vec_default, mem⟩ first last

/-- Member `load_aligned`:
`assert(last - first == Size); ymm = _mm256_load_si256(first);`. -/
def load_aligned (NDEBUG : Bool) (s : Frame vec8i) (first last : Int) :
    Outcome (Frame vec8i) :=
  assert_then NDEBUG (decide (last - first = (Size : Int))) s
    (fun s => { s with self := ⟨_mm256_load_si256 s.mem first⟩ })

/-- Member `load_aligned_stream`:
`assert(last - first == Size); ymm = _mm256_stream_load_si256(first);`. -/
def load_aligned_stream (NDEBUG : Bool) (s : Frame vec8i) (first last : Int) :
    Outcome (Frame vec8i) :=
  assert_then NDEBUG (decide (last - first = (Size : Int))) s
    (fun s => { s with self := ⟨_mm256_stream_load_si256 s.mem first⟩ })

/-- Member `store`:
`assert(last - first == Size); _mm256_storeu_si256(first, ymm);`. -/
def store (NDEBUG : Bool) (s : Frame vec8i) (first last : Int) : Outcome (Frame vec8i) :=
  assert_then NDEBUG (decide (last - first = (Size : Int))) s
    (fun s => { s with mem := _mm256_storeu_si256 s.mem first s.self.ymm })

/-- Member `store_aligned`:
`assert(last - first == Size); _mm256_store_si256(first, ymm);`. -/
def store_aligned (NDEBUG : Bool) (s : Frame vec8i) (first last : Int) :
    Outcome (Frame vec8i) :=
  assert_then NDEBUG (decide (last - first = (Size : Int))) s
    (fun s => { s with mem := _mm256_store_si256 s.mem first s.self.ymm })

/-- Member `stream_aligned`:
`assert(last - first == Size); _mm256_stream_si256(first, ymm);`. -/
def stream_aligned (NDEBUG : Bool) (s : Frame vec8i) (first last : Int) :
    Outcome (Frame vec8i) :=
  assert_then NDEBUG (decide (last - first = (Size : Int))) s
    (fun s => { s with mem := _mm256_stream_si256 s.mem first s.self.ymm })

/-- Member `operator[]`: `assert(index < Size);
return *(reinterpret_cast<Value*>(&ymm) + index);`. The reference returned is
the pointer to the lane, its offset from lane 0; a failed assertion gives
nothing. -/
def operator_index (NDEBUG : Bool) (_x : vec8i) (index : Nat) : Option Nat :=
  if NDEBUG || decide (index < Size) then some index else none

/-- Dereference of a pointer into the storage of `x`: the lane at that offset,
nothing outside the eight lanes. -/
def read (x : vec8i) (p : Nat) : Option Lane :=
  if h : p < 8 then some (x.ymm ⟨p, h⟩) else none

/-- Template `blend<BlendMask8Bit>`:
`return {_mm256_blend_epi32(lhs.ymm, rhs.ymm, BlendMask8Bit)};`. -/
def blend (BlendMask8Bit : Int) (lhs rhs : vec8i) : vec8i :=
  ⟨_mm256_blend_epi32 lhs.ymm rhs.ymm BlendMask8Bit⟩

/-- Function `unpackHigh`: `return {_mm256_unpackhi_epi32(lhs.ymm, rhs.ymm)};`. -/
def unpackHigh (lhs rhs : vec8i) : vec8i := ⟨_mm256_unpackhi_epi32 lhs.ymm rhs.ymm⟩

/-- Function `unpackLow`: `return {_mm256_unpacklo_epi32(lhs.ymm, rhs.ymm)};`. -/
def unpackLow (lhs rhs : vec8i) : vec8i := ⟨_mm256_unpacklo_epi32 lhs.ymm rhs.ymm⟩

/-- Function `min`: `return {_mm256_min_epi32(lhs.ymm, rhs.ymm)};`. -/
def min (lhs rhs : vec8i) : vec8i := ⟨_mm256_min_epi32 lhs.ymm rhs.ymm⟩

/-- Function `max`: `return {_mm256_max_epi32(lhs.ymm, rhs.ymm)};`. -/
def max (lhs rhs : vec8i) : vec8i := ⟨_mm256_max_epi32 lhs.ymm rhs.ymm⟩

/-- Function `abs`: `return {_mm256_abs_epi32(x.ymm)};`. -/
def abs (x : vec8i) : vec8i := ⟨_mm256_abs_epi32 x.ymm⟩

/-! ### Operators called on objects

The operands of a call are objects: `objects` gives the value held by every
`vec8i` object of the program, and a reference (`*this`, `const vec8i& rhs`,
the `vec8i&` returned) is the name of an object. Two references may name the
same object. A compound operator reads `ymm` and `rhs.ymm`, assigns `ymm` of
`*this` and returns `*this`: the result is the objects after the call and the
object the returned reference names. A free operator reads `lhs.ymm` and
`rhs.ymm` through references to `const` and returns a new value: the result is
the objects after the call and that value. -/

/-- Member `vec8i& operator+=(const vec8i& rhs)` called on the object `self`
with `rhs` bound to the object `rhs`:
`ymm = _mm256_add_epi32(ymm, rhs.ymm); return *this;`. -/
def operator_plus_assign_call {ι : Type} [DecidableEq ι] (objects : ι → vec8i)
    (self rhs : ι) : (ι → vec8i) × ι :=
  (Function.update objects self ⟨_mm256_add_epi32 (objects self).ymm (objects rhs).ymm⟩, self)

/-- Member `vec8i& operator-=(const vec8i& rhs)` called on the object `self`
with `rhs` bound to the object `rhs`:
`ymm = _mm256_sub_epi32(ymm, rhs.ymm); return *this;`. -/
def operator_minus_assign_call {ι : Type} [DecidableEq ι] (objects : ι → vec8i)
    (self rhs : ι) : (ι → vec8i) × ι :=
  (Function.update objects self ⟨_mm256_sub_epi32 (objects self).ymm (objects rhs).ymm⟩, self)

/-- Member `vec8i& operator*=(const vec8i& rhs)` called on the object `self`
with `rhs` bound to the object `rhs`:
`ymm = _mm256_mul_epi32(ymm, rhs.ymm); return *this;`. -/
def operator_star_assign_call {ι : Type} [DecidableEq ι] (objects : ι → vec8i)
    (self rhs : ι) : (ι → vec8i) × ι :=
  (Function.update objects self ⟨_mm256_mul_epi32 (objects self).ymm (objects rhs).ymm⟩, self)

/-- Member `vec8i& operator|=(const vec8i& rhs)` called on the object `self`
with `rhs` bound to the object `rhs`:
`ymm = _mm256_or_si256(ymm, rhs.ymm); return *this;`. -/
def operator_or_assign_call {ι : Type} [DecidableEq ι] (objects : ι → vec8i)
    (self rhs : ι) : (ι → vec8i) × ι :=
  (Function.update objects self ⟨_mm256_or_si256 (objects self).ymm (objects rhs).ymm⟩, self)

/-- Member `vec8i& operator&=(const vec8i& rhs)` called on the object `self`
with `rhs` bound to the object `rhs`:
`ymm = _mm256_and_si256(ymm, rhs.ymm); return *this;`. -/
def operator_and_assign_call {ι : Type} [DecidableEq ι] (objects : ι → vec8i)
    (self rhs : ι) : (ι → vec8i) × ι :=
  (Function.update objects self ⟨_mm256_and_si256 (objects self).ymm (objects rhs).ymm⟩, self)

/-- Member `vec8i& operator^=(const vec8i& rhs)` called on the object `self`
with `rhs` bound to the object `rhs`:
`ymm = _mm256_xor_si256(ymm, rhs.ymm); return *this;`. -/
def operator_xor_assign_call {ι : Type} [DecidableEq ι] (objects : ι → vec8i)
    (self rhs : ι) : (ι → vec8i) × ι :=
  (Function.update objects self ⟨_mm256_xor_si256 (objects self).ymm (objects rhs).ymm⟩, self)

/-- Member `vec8i& operator<<=(const vec8i& rhs)` called on the object `self`
with `rhs` bound to the object `rhs`:
`ymm = _mm256_sllv_epi32(ymm, rhs.ymm); return *this;`. -/
def operator_shl_assign_call {ι : Type} [DecidableEq ι] (objects : ι → vec8i)
    (self rhs : ι) : (ι → vec8i) × ι :=
  (Function.update objects self ⟨_mm256_sllv_epi32 (objects self).ymm (objects rhs).ymm⟩, self)

/-- Member `vec8i& operator>>=(const vec8i& rhs)` called on the object `self`
with `rhs` bound to the object `rhs`:
`ymm = _mm256_srlv_epi32(ymm, rhs.ymm); return *this;`. -/
def operator_shr_assign_call {ι : Type} [DecidableEq ι] (objects : ι → vec8i)
    (self rhs : ι) : (ι → vec8i) × ι :=
  (Function.update objects self ⟨_mm256_srlv_epi32 (objects self).ymm (objects rhs).ymm⟩, self)

/-- Free `vec8i operator+(const vec8i& lhs, const vec8i& rhs)` called with the
references bound to the objects `lhs` and `rhs`:
`return {_mm256_add_epi32(lhs.ymm, rhs.ymm)};`. -/
def operator_plus_call {ι : Type} (objects : ι → vec8i) (lhs rhs : ι) :
    (ι → vec8i) × vec8i :=
  (objects, ⟨_mm256_add_epi32 (objects lhs).ymm (objects rhs).ymm⟩)

/-- Free binary `vec8i operator-(const vec8i& lhs, const vec8i& rhs)` called with the
references bound to the objects `lhs` and `rhs`:
`return {_mm256_sub_epi32(lhs.ymm, rhs.ymm)};`. -/
def operator_minus_call {ι : Type} (objects : ι → vec8i) (lhs rhs : ι) :
    (ι → vec8i) × vec8i :=
  (objects, ⟨_mm256_sub_epi32 (objects lhs).ymm (objects rhs).ymm⟩)

/-- Free `vec8i operator*(const vec8i& lhs, const vec8i& rhs)` called with the
references bound to the objects `lhs` and `rhs`:
`return {_mm256_mul_epi32(lhs.ymm, rhs.ymm)};`. -/
def operator_star_call {ι : Type} (objects : ι → vec8i) (lhs rhs : ι) :
    (ι → vec8i) × vec8i :=
  (objects, ⟨_mm256_mul_epi32 (objects lhs).ymm (objects rhs).ymm⟩)

/-- Free `vec8i operator|(const vec8i& lhs, const vec8i& rhs)` called with the
references bound to the objects `lhs` and `rhs`:
`return {_mm256_or_si256(lhs.ymm, rhs.ymm)};`. -/
def operator_or_call {ι : Type} (objects : ι → vec8i) (lhs rhs : ι) :
    (ι → vec8i) × vec8i :=
  (objects, ⟨_mm256_or_si256 (objects lhs).ymm (objects rhs).ymm⟩)

/-- Free `vec8i operator&(const vec8i& lhs, const vec8i& rhs)` called with the
references bound to the objects `lhs` and `rhs`:
`return {_mm256_and_si256(lhs.ymm, rhs.ymm)};`. -/
def operator_and_call {ι : Type} (objects : ι → vec8i) (lhs rhs : ι) :
    (ι → vec8i) × vec8i :=
  (objects, ⟨_mm256_and_si256 (objects lhs).ymm (objects rhs).ymm⟩)

/-- Free `vec8i operator^(const vec8i& lhs, const vec8i& rhs)` called with the
references bound to the objects `lhs` and `rhs`:
`return {_mm256_xor_si256(lhs.ymm, rhs.ymm)};`. -/
def operator_xor_call {ι : Type} (objects : ι → vec8i) (lhs rhs : ι) :
    (ι → vec8i) × vec8i :=
  (objects, ⟨_mm256_xor_si256 (objects lhs).ymm (objects rhs).ymm⟩)

/-- Free `vec8i operator<<(const vec8i& lhs, const vec8i& rhs)` called with the
references bound to the objects `lhs` and `rhs`:
`return {_mm256_sllv_epi32(lhs.ymm, rhs.ymm)};`. -/
def operator_shl_call {ι : Type} (objects : ι → vec8i) (lhs rhs : ι) :
    (ι → vec8i) × vec8i :=
  (objects, ⟨_mm256_sllv_epi32 (objects lhs).ymm (objects rhs).ymm⟩)

/-- Free `vec8i operator>>(const vec8i& lhs, const vec8i& rhs)` called with the
references bound to the objects `lhs` and `rhs`:
`return {_mm256_srlv_epi32(lhs.ymm, rhs.ymm)};`. -/
def operator_shr_call {ι : Type} (objects : ι → vec8i) (lhs rhs : ι) :
    (ι → vec8i) × vec8i :=
  (objects, ⟨_mm256_srlv_epi32 (objects lhs).ymm (objects rhs).ymm⟩)

/-- Assignment through a pointer into the storage of `x`: the lane at that
offset takes the value and the other lanes keep theirs; nothing outside the
eight lanes. -/
def write (x : vec8i) (p : Nat) (value : Lane) : Option vec8i :=
  if h : p < 8 then some ⟨Function.update x.ymm ⟨p, h⟩ value⟩ else none

/-- The expression `x[index]` read as a value: `operator[]` and a read through
the reference it returns. -/
def read_at (NDEBUG : Bool) (x : vec8i) (index : Nat) : Option Lane :=
  (operator_index NDEBUG x index).bind (read x)

/-- The statement `x[index] = value;`: `operator[]` and an assignment through
the reference it returns; the result is `x` after the statement. -/
def assign_at (NDEBUG : Bool) (x : vec8i) (index : Nat) (value : Lane) : Option vec8i :=
  (operator_index NDEBUG x index).bind (fun p => write x p value)

end vec8i

/-! ## `Vec8Float.h`: the float vector -/

/-- The specialisation `vec<float, 8u>`: its only state is the register `ymm`.
A `Value` (`float`) is carried as its binary32 lane. -/
structure vec8f where
  /-- The member `__m256 ymm`. -/
  ymm : __m256

namespace vec8f

/-- The constant `Size = 8u`. -/
def Size : Nat := 8

/-- Constructor `vec() : ymm(_mm256_undefined_ps()) {}`. -/
def vec_default : vec8f := ⟨_mm256_undefined_ps⟩

/-- Member `void load(Value scalar) { ymm = _mm256_set1_ps(scalar); }`. -/
def load_scalar (_self : vec8f) (scalar : Lane) : vec8f := ⟨_mm256_set1_ps scalar⟩

/-- Member `void load(Value e7, ..., Value e0)
{ ymm = _mm256_setr_ps(e7, e6, e5, e4, e3, e2, e1, e0); }`. -/
def load_values (_self : vec8f) (e7 e6 e5 e4 e3 e2 e1 e0 : Lane) : vec8f :=
  ⟨_mm256_setr_ps e7 e6 e5 e4 e3 e2 e1 e0⟩

/-- Constructor `vec(Value scalar) { load(scalar); }`, also the implicit
conversion of a scalar operand. -/
def vec_scalar (scalar : Lane) : vec8f := load_scalar vec_default scalar

/-- Constructor `vec(Value e7, ..., Value e0) { load(e7, e6, e5, e4, e3, e2, e1, e0); }`. -/
def vec_values (e7 e6 e5 e4 e3 e2 e1 e0 : Lane) : vec8f :=
  load_values vec_default e7 e6 e5 e4 e3 e2 e1 e0

/-- The braced list `vec8f{x0, ..., x7}` of integer literals, as `Example.cc`
writes it: each literal is converted to `float` and the constructor above is
applied to them in the order written. -/
def vec_literals (x0 x1 x2 x3 x4 x5 x6 x7 : Int) : vec8f :=
  vec_values (F32.ofInt x0) (F32.ofInt x1) (F32.ofInt x2) (F32.ofInt x3)
    (F32.ofInt x4) (F32.ofInt x5) (F32.ofInt x6) (F32.ofInt x7)

/-- Member `void zero() { ymm = _mm256_setzero_ps(); }`. -/
def zero (_self : vec8f) : vec8f := ⟨_mm256_setzero_ps⟩

/-- Member `operator+=`: `ymm = _mm256_add_ps(ymm, rhs.ymm); return *this;`. -/
def operator_plus_assign (self rhs : vec8f) : vec8f :=
  { self with ymm := _mm256_add_ps self.ymm rhs.ymm }

/-- Member `operator-=`: `ymm = _mm256_sub_ps(ymm, rhs.ymm); return *this;`. -/
def operator_minus_assign (self rhs : vec8f) : vec8f :=
  { self with ymm := _mm256_sub_ps self.ymm rhs.ymm }

/-- Member `operator*=`: `ymm = _mm256_mul_ps(ymm, rhs.ymm); return *this;`. -/
def operator_star_assign (self rhs : vec8f) : vec8f :=
  { self with ymm := _mm256_mul_ps self.ymm rhs.ymm }

/-- Member `operator|=`: `ymm = _mm256_or_ps(ymm, rhs.ymm); return *this;`. -/
def operator_or_assign (self rhs : vec8f) : vec8f :=
  { self with ymm := _mm256_or_ps self.ymm rhs.ymm }

/-- Member `operator&=`: `ymm = _mm256_and_ps(ymm, rhs.ymm); return *this;`. -/
def operator_and_assign (self rhs : vec8f) : vec8f :=
  { self with ymm := _mm256_and_ps self.ymm rhs.ymm }

/-- Member `operator^=`: `ymm = _mm256_xor_ps(ymm, rhs.ymm); return *this;`. -/
def operator_xor_assign (self rhs : vec8f) : vec8f :=
  { self with ymm := _mm256_xor_ps self.ymm rhs.ymm }

/-- Free `operator+`: `return {_mm256_add_ps(lhs.ymm, rhs.ymm)};`. -/
def operator_plus (lhs rhs : vec8f) : vec8f := ⟨_mm256_add_ps lhs.ymm rhs.ymm⟩

/-- Free binary `operator-`: `return {_mm256_sub_ps(lhs.ymm, rhs.ymm)};`. -/
def operator_minus (lhs rhs : vec8f) : vec8f := ⟨_mm256_sub_ps lhs.ymm rhs.ymm⟩

/-- Free `operator*`: `return {_mm256_mul_ps(lhs.ymm, rhs.ymm)};`. -/
def operator_star (lhs rhs : vec8f) : vec8f := ⟨_mm256_mul_ps lhs.ymm rhs.ymm⟩

/-- Free `operator|`: `return {_mm256_or_ps(lhs.ymm, rhs.ymm)};`. -/
def operator_or (lhs rhs : vec8f) : vec8f := ⟨_mm256_or_ps lhs.ymm rhs.ymm⟩

/-- Free `operator&`: `return {_mm256_and_ps(lhs.ymm, rhs.ymm)};`. -/
def operator_and (lhs rhs : vec8f) : vec8f := ⟨_mm256_and_ps lhs.ymm rhs.ymm⟩

/-- Free `operator^`: `return {_mm256_xor_ps(lhs.ymm, rhs.ymm)};`. -/
def operator_xor (lhs rhs : vec8f) : vec8f := ⟨_mm256_xor_ps lhs.ymm rhs.ymm⟩

/-- Unary `operator~`: `return {_mm256_xor_ps(x.ymm, _mm256_set1_ps(-1.f))};`.
The mask is the `float` constant `-1.f`. -/
def operator_tilde (x : vec8f) : vec8f :=
  ⟨_mm256_xor_ps x.ymm (_mm256_set1_ps (F32.ofInt (-1)))⟩

/-- Unary `operator-`: `return {_mm256_sub_ps(_mm256_set1_ps(0.f), x.ymm)};`. -/
def operator_neg (x : vec8f) : vec8f :=
  ⟨_mm256_sub_ps (_mm256_set1_ps (F32.ofInt 0)) x.ymm⟩

/-- Function `sqrt`: `return {_mm256_sqrt_ps(x.ymm)};`. -/
def sqrt (x : vec8f) : vec8f := ⟨_mm256_sqrt_ps x.ymm⟩

/-- Function `reciprocalSqrt`, under the comment "maximum relative error for
this approximation is less than 1.5*2^-12": `return {_mm256_sqrt_ps(x.ymm)};`. -/
def reciprocalSqrt (x : vec8f) : vec8f := ⟨_mm256_sqrt_ps x.ymm⟩

/-- Template `dot<MultiplyMask8Bit, StoreMask8Bit>`:
`return {_mm256_dp_ps(lhs.ymm, rhs.ymm, MultiplyMask8Bit | StoreMask8Bit)};`. -/
def dot (MultiplyMask8Bit StoreMask8Bit : Int) (lhs rhs : vec8f) : vec8f :=
  ⟨_mm256_dp_ps lhs.ymm rhs.ymm (Int.lor MultiplyMask8Bit StoreMask8Bit)⟩

/-- The call `dot(lhs, rhs)` with the default template arguments
`MultiplyMask8Bit = 0xF0`, `StoreMask8Bit = 0x0F`. -/
def dot_default (lhs rhs : vec8f) : vec8f := dot 0xF0 0x0F lhs rhs

/-- Test `isZFlagSet`: `return _mm256_testz_ps(lhs.ymm, rhs.ymm) != 0;`. -/
def isZFlagSet (lhs rhs : vec8f) : Bool := _mm256_testz_ps lhs.ymm rhs.ymm != 0

/-- Test `isCFlagSet`: `return _mm256_testc_ps(lhs.ymm, rhs.ymm) != 0;`. -/
def isCFlagSet (lhs rhs : vec8f) : Bool := _mm256_testc_ps lhs.ymm rhs.ymm != 0

/-- Test `isZAndCFlagClear`: `return _mm256_testnzc_ps(lhs.ymm, rhs.ymm) != 0;`. -/
def isZAndCFlagClear (lhs rhs : vec8f) : Bool :=
  _mm256_testnzc_ps lhs.ymm rhs.ymm != 0

/-- Member `void load(const Value* first, const Value* last)`:
`assert(last - first == Size); ymm = _mm256_loadu_ps(first);`. -/
def load_range (NDEBUG : Bool) (s : Frame vec8f) (first last : Int) : Outcome (Frame vec8f) :=
  assert_then NDEBUG (decide (last - first = (Size : Int))) s
    (fun s => { s with self := ⟨_mm256_loadu_ps s.mem first⟩ })

/-- Constructor `vec(const Value* first, const Value* last) { load(first, last); }`. -/
def vec_range (NDEBUG : Bool) (mem : Memory) (first last : Int) : Outcome (Frame vec8f) :=
  load_range NDEBUG ⟨vec_default, mem⟩ first last

/-- Member `load_aligned`:
`assert(last - first == Size); ymm = _mm256_load_ps(first);`. -/
def load_aligned (NDEBUG : Bool) (s : Frame vec8f) (first last : Int) :
    Outcome (Frame vec8f) :=
  assert_then NDEBUG (decide (last - first = (Size : Int))) s
    (fun s => { s with self := ⟨_mm256_load_ps s.mem first⟩ })

/-- Member `store`:
`assert(last - first == Size); _mm256_storeu_ps(first, ymm);`. -/
def store (NDEBUG : Bool) (s : Frame vec8f) (first last : Int) : Outcome (Frame vec8f) :=
  assert_then NDEBUG (decide (last - first = (Size : Int))) s
    (fun s => { s with mem := _mm256_storeu_ps s.mem first s.self.ymm })

/-- Member `store_aligned`:
`assert(last - first == Size); _mm256_store_ps(first, ymm);`. -/
def store_aligned (NDEBUG : Bool) (s : Frame vec8f) (first last : Int) :
    Outcome (Frame vec8f) :=
  assert_then NDEBUG (decide (last - first = (Size : Int))) s
    (fun s => { s with mem := _mm256_store_ps s.mem first s.self.ymm })

/-- Member `store_aligned_stream`:
`assert(last - first == Size); _mm256_stream_ps(first, ymm);`. -/
def store_aligned_stream (NDEBUG : Bool) (s : Frame vec8f) (first last : Int) :
    Outcome (Frame vec8f) :=
  assert_then NDEBUG (decide (last - first = (Size : Int))) s
    (fun s => { s with mem := _mm256_stream_ps s.mem first s.self.ymm })

/-- Member `operator[]`: `assert(index < Size); return ymm[index];`. The
reference returned is the pointer to the lane, its offset from lane 0; a failed
assertion gives nothing. -/
def operator_index (NDEBUG : Bool) (_x : vec8f) (index : Nat) : Option Nat :=
  if NDEBUG || decide (index < Size) then some index else none

/-- Dereference of a pointer into the storage of `x`: the lane at that offset,
nothing outside the eight lanes. -/
def read (x : vec8f) (p : Nat) : Option Lane :=
  if h : p < 8 then some (x.ymm ⟨p, h⟩) else none

/-- Template `compare<ComparisonMask8Bit>`:
`return _mm256_cmp_ps(lhs.ymm, rhs.ymm, ComparisonMask8Bit);`. -/
def compare (ComparisonMask8Bit : Int) (lhs rhs : vec8f) : vec8f :=
  ⟨_mm256_cmp_ps lhs.ymm rhs.ymm ComparisonMask8Bit⟩

/-- Free `operator==`: `return compare<0>(lhs, rhs);` (`CMP_EQ_OQ`). -/
def operator_eq (lhs rhs : vec8f) : vec8f := compare 0 lhs rhs

/-- Free `operator!=`: `return compare<4>(lhs, rhs);` (`CMP_NEQ_UQ`). -/
def operator_ne (lhs rhs : vec8f) : vec8f := compare 4 lhs rhs

/-- Free `operator<`: `return compare<1>(lhs, rhs);` (`CMP_LT_OS`). -/
def operator_lt (lhs rhs : vec8f) : vec8f := compare 1 lhs rhs

/-- Free `operator>`: `return compare<14>(lhs, rhs);` (`CMP_GT_OS`). -/
def operator_gt (lhs rhs : vec8f) : vec8f := compare 14 lhs rhs

/-- Free `operator<=`: `return compare<2>(lhs, rhs);` (`CMP_LE_OS`). -/
def operator_le (lhs rhs : vec8f) : vec8f := compare 2 lhs rhs

/-- Free `operator>=`: `return compare<13>(lhs, rhs);` (`CMP_GE_OS`). -/
def operator_ge (lhs rhs : vec8f) : vec8f := compare 13 lhs rhs

/-- Template `blend<BlendMask8Bit>`:
`return {_mm256_blend_ps(lhs.ymm, rhs.ymm, BlendMask8Bit)};`. -/
def blend (BlendMask8Bit : Int) (lhs rhs : vec8f) : vec8f :=
  ⟨_mm256_blend_ps lhs.ymm rhs.ymm BlendMask8Bit⟩

/-- Function `unpackHigh`: `return {_mm256_unpackhi_ps(lhs.ymm, rhs.ymm)};`. -/
def unpackHigh (lhs rhs : vec8f) : vec8f := ⟨_mm256_unpackhi_ps lhs.ymm rhs.ymm⟩

/-- Function `unpackLow`: `return {_mm256_unpacklo_ps(lhs.ymm, rhs.ymm)};`. -/
def unpackLow (lhs rhs : vec8f) : vec8f := ⟨_mm256_unpacklo_ps lhs.ymm rhs.ymm⟩

/-- Function `fusedMulAdd`, "(a * b) + c":
`return {_mm256_fmadd_ps(a.ymm, b.ymm, c.ymm)};`. -/
def fusedMulAdd (a b c : vec8f) : vec8f := ⟨_mm256_fmadd_ps a.ymm b.ymm c.ymm⟩

/-- Assignment through a pointer into the storage of `x`: the lane at that
offset takes the value and the other lanes keep theirs; nothing outside the
eight lanes. -/
def write (x : vec8f) (p : Nat) (value : Lane) : Option vec8f :=
  if h : p < 8 then some ⟨Function.update x.ymm ⟨p, h⟩ value⟩ else none

/-- The expression `x[index]` read as a value: `operator[]` and a read through
the reference it returns. -/
def read_at (NDEBUG : Bool) (x : vec8f) (index : Nat) : Option Lane :=
  (operator_index NDEBUG x index).bind (read x)

/-- The statement `x[index] = value;`: `operator[]` and an assignment through
the reference it returns; the result is `x` after the statement. -/
def assign_at (NDEBUG : Bool) (x : vec8f) (index : Nat) (value : Lane) : Option vec8f :=
  (operator_index NDEBUG x index).bind (fun p => write x p value)

end vec8f

end avx

/-! ## Lane arithmetic lemmas -/

namespace avx

theorem Lane.toInt_inj (x y : Lane) : x.toInt = y.toInt ↔ x = y := by
  constructor
  · intro h
    unfold Lane.toInt at h
    apply Fin.ext
    split at h <;> split at h <;> omega
  · intro h
    rw [h]

theorem Lane.xor_allOnes_mask : Lane.xor Lane.allOnes (Lane.ofInt (-1)) = Lane.zero := by
  decide

theorem Lane.xor_zero_mask : Lane.xor Lane.zero (Lane.ofInt (-1)) = Lane.allOnes := by
  decide

/-! ## Comparison operators of `vec8i` -/

/-- C1: every one of the six `vec8i` comparison operators returns, in lane `i`,
the all-ones pattern (the `int32_t` value `-1`) when the signed relation holds
between `a[i]` and `b[i]` and the all-zero pattern otherwise, for all lanes
whatsoever, the extreme values included: `INT32_MIN < INT32_MAX` is all-ones
and `INT32_MIN >= INT32_MAX` is all-zero in every lane. -/
theorem vec8i_comparisons_exact (a b : vec8i) (i : Fin 8) :
    (vec8i.operator_eq a b).ymm i
        = (if (a.ymm i).toInt = (b.ymm i).toInt then Lane.allOnes else Lane.zero)
    ∧ (vec8i.operator_ne a b).ymm i
        = (if (a.ymm i).toInt ≠ (b.ymm i).toInt then Lane.allOnes else Lane.zero)
    ∧ (vec8i.operator_lt a b).ymm i
        = (if (a.ymm i).toInt < (b.ymm i).toInt then Lane.allOnes else Lane.zero)
    ∧ (vec8i.operator_gt a b).ymm i
        = (if (a.ymm i).toInt > (b.ymm i).toInt then Lane.allOnes else Lane.zero)
    ∧ (vec8i.operator_le a b).ymm i
        = (if (a.ymm i).toInt ≤ (b.ymm i).toInt then Lane.allOnes else Lane.zero)
    ∧ (vec8i.operator_ge a b).ymm i
        = (if (a.ymm i).toInt ≥ (b.ymm i).toInt then Lane.allOnes else Lane.zero)
    ∧ Lane.allOnes.toInt = -1 ∧ Lane.allOnes.val = 0xFFFFFFFF ∧ Lane.zero.val = 0
    ∧ intLanes (vec8i.operator_lt (vec8i.vec_scalar (Lane.ofInt (-2147483648)))
          (vec8i.vec_scalar (Lane.ofInt 2147483647))).ymm = List.replicate 8 (-1)
    ∧ intLanes (vec8i.operator_ge (vec8i.vec_scalar (Lane.ofInt (-2147483648)))
          (vec8i.vec_scalar (Lane.ofInt 2147483647))).ymm = List.replicate 8 0 := by
  refine ⟨?_, ?_, ?_, ?_, ?_, ?_, by decide, by decide, by decide, by decide, by decide⟩
  · simp only [vec8i.operator_eq, _mm256_cmpeq_epi32, Lane.toInt_inj]
  · simp only [vec8i.operator_ne, vec8i.operator_tilde, vec8i.operator_eq, _mm256_xor_si256,
      _mm256_cmpeq_epi32, _mm256_set1_epi32, Lane.toInt_inj]
    by_cases h : a.ymm i = b.ymm i
    · simp only [h, if_true, ne_eq, not_true_eq_false, if_false, Lane.xor_allOnes_mask]
    · have h2 : ¬ (a.ymm i).toInt = (b.ymm i).toInt := fun hc => h ((Lane.toInt_inj _ _).mp hc)
      simp only [h, h2, if_false, ne_eq, not_false_eq_true, if_true, Lane.xor_zero_mask]
  · simp only [vec8i.operator_lt, vec8i.operator_gt, _mm256_cmpgt_epi32, gt_iff_lt]
  · simp only [vec8i.operator_gt, _mm256_cmpgt_epi32]
  · simp only [vec8i.operator_le, vec8i.operator_tilde, vec8i.operator_gt, _mm256_xor_si256,
      _mm256_cmpgt_epi32, _mm256_set1_epi32]
    by_cases h : (a.ymm i).toInt > (b.ymm i).toInt
    · have h2 : ¬ (a.ymm i).toInt ≤ (b.ymm i).toInt := by omega
      simp only [h, h2, if_true, if_false, Lane.xor_allOnes_mask]
    · have h2 : (a.ymm i).toInt ≤ (b.ymm i).toInt := by omega
      simp only [h, h2, if_true, if_false, Lane.xor_zero_mask]
  · simp only [vec8i.operator_ge, vec8i.operator_tilde, vec8i.operator_lt, vec8i.operator_gt,
      _mm256_xor_si256, _mm256_cmpgt_epi32, _mm256_set1_epi32]
    by_cases h : (b.ymm i).toInt > (a.ymm i).toInt
    · have h2 : ¬ (a.ymm i).toInt ≥ (b.ymm i).toInt := by omega
      simp only [h, h2, if_true, if_false, Lane.xor_allOnes_mask]
    · have h2 : (a.ymm i).toInt ≥ (b.ymm i).toInt := by omega
      simp only [h, h2, if_true, if_false, Lane.xor_zero_mask]


/-! ## The eight-value constructor -/

/-- C2 (as the code has it): the eight-value constructor of `vec8i` and of
`vec8f` stores its arguments in the order they are written. Lane 0 holds the
first argument, the one named `e7`, and lane 7 holds the last argument, the
one named `e0`: lane `k` holds the argument named `e(7-k)`. -/
theorem vec_values_storage_order (e7 e6 e5 e4 e3 e2 e1 e0 : Lane) :
    lanes (vec8i.vec_values e7 e6 e5 e4 e3 e2 e1 e0).ymm = [e7, e6, e5, e4, e3, e2, e1, e0]
    ∧ lanes (vec8f.vec_values e7 e6 e5 e4 e3 e2 e1 e0).ymm = [e7, e6, e5, e4, e3, e2, e1, e0]
    ∧ (vec8i.vec_values e7 e6 e5 e4 e3 e2 e1 e0).ymm 0 = e7
    ∧ (vec8i.vec_values e7 e6 e5 e4 e3 e2 e1 e0).ymm 7 = e0
    ∧ (vec8f.vec_values e7 e6 e5 e4 e3 e2 e1 e0).ymm 0 = e7
    ∧ (vec8f.vec_values e7 e6 e5 e4 e3 e2 e1 e0).ymm 7 = e0 :=
  ⟨rfl, rfl, rfl, rfl, rfl, rfl⟩

/-- C2 fails as stated: for `vec(1, 2, 3, 4, 5, 6, 7, 8)`, that is `e7 = 1` and
`e0 = 8`, lane 0 holds `1` and not the last argument `8`, and lane 7 holds `8`
and not the first argument `1`, for `vec8i` and for `vec8f` alike. -/
theorem vec_values_reverse_order_counterexample :
    (vec8i.vec_literals 1 2 3 4 5 6 7 8).ymm 0 = Lane.ofInt 1
    ∧ (vec8i.vec_literals 1 2 3 4 5 6 7 8).ymm 0 ≠ Lane.ofInt 8
    ∧ (vec8i.vec_literals 1 2 3 4 5 6 7 8).ymm 7 = Lane.ofInt 8
    ∧ (vec8i.vec_literals 1 2 3 4 5 6 7 8).ymm 7 ≠ Lane.ofInt 1
    ∧ (vec8f.vec_literals 1 2 3 4 5 6 7 8).ymm 0 = F32.ofInt 1
    ∧ (vec8f.vec_literals 1 2 3 4 5 6 7 8).ymm 0 ≠ F32.ofInt 8
    ∧ (vec8f.vec_literals 1 2 3 4 5 6 7 8).ymm 7 = F32.ofInt 8
    ∧ (vec8f.vec_literals 1 2 3 4 5 6 7 8).ymm 7 ≠ F32.ofInt 1 := by
  decide

/-! ## Integer multiplication -/

theorem Lane.toInt_bounds (x : Lane) : -2147483648 ≤ x.toInt ∧ x.toInt < 2147483648 := by
  unfold Lane.toInt
  split <;> omega

theorem int32_product_bounds (x y : Int) (hx : -2147483648 ≤ x ∧ x < 2147483648)
    (hy : -2147483648 ≤ y ∧ y < 2147483648) :
    -4611686018427387904 < x * y ∧ x * y ≤ 4611686018427387904 := by
  constructor <;> nlinarith [hx.1, hx.2, hy.1, hy.2]

theorem mul_epi32_even (a b : __m256i) (k : Fin 4) :
    _mm256_mul_epi32 a b (evenLane k)
      = Lane.ofInt ((a (evenLane k)).toInt * (b (evenLane k)).toInt) := by
  have hdiv : 2 * ((evenLane k).val / 2) = (evenLane k).val := by
    simp only [evenLane]; omega
  have hlo : (⟨2 * ((evenLane k).val / 2), by omega⟩ : Fin 8) = evenLane k := Fin.ext hdiv
  have hmod : (evenLane k).val % 2 = 0 := by simp only [evenLane]; omega
  simp only [_mm256_mul_epi32, SignExtend64, hlo, hmod, if_true]
  generalize (a (evenLane k)).toInt * (b (evenLane k)).toInt = p
  apply Fin.ext
  simp only [Lane.ofNat, Lane.ofInt]
  omega

theorem mul_epi32_odd (a b : __m256i) (k : Fin 4) :
    _mm256_mul_epi32 a b (oddLane k)
      = Lane.ofInt ((a (evenLane k)).toInt * (b (evenLane k)).toInt / 4294967296) := by
  have hdiv : 2 * ((oddLane k).val / 2) = (evenLane k).val := by
    simp only [evenLane, oddLane]; omega
  have hlo : (⟨2 * ((oddLane k).val / 2), by omega⟩ : Fin 8) = evenLane k := Fin.ext hdiv
  have hmod : ¬ (oddLane k).val % 2 = 0 := by simp only [oddLane]; omega
  simp only [_mm256_mul_epi32, SignExtend64, hlo, hmod, if_false]
  generalize (a (evenLane k)).toInt * (b (evenLane k)).toInt = p
  apply Fin.ext
  simp only [Lane.ofNat, Lane.ofInt]
  omega

theorem signed64_ofInt (p : Int)
    (hp : -4611686018427387904 < p ∧ p ≤ 4611686018427387904) :
    signed64 (Lane.ofInt p) (Lane.ofInt (p / 4294967296)) = p := by
  simp only [signed64, Lane.ofInt]
  split <;> omega

theorem lane_even_or_odd (l : Fin 8) : ∃ k : Fin 4, l = evenLane k ∨ l = oddLane k := by
  refine ⟨⟨l.val / 2, by omega⟩, ?_⟩
  rcases Nat.mod_two_eq_zero_or_one l.val with h | h
  · left; apply Fin.ext; simp only [evenLane]; omega
  · right; apply Fin.ext; simp only [oddLane]; omega

/-- C3: `operator*` and `operator*=` of `vec8i` multiply the even-indexed lanes
only. For `k` in 0..3 the exact signed product of `a[2k]` and `b[2k]` is a
64-bit value whose low 32 bits are result lane `2k` and whose high 32 bits are
result lane `2k+1`; vectors that agree with `a` and `b` on the even lanes give
the same result, whatever their odd lanes hold; `broadcast(2) * broadcast(3)`
is `[6,0,6,0,6,0,6,0]`. -/
theorem mul_even_lanes_only (a b a2 b2 : vec8i)
    (h : ∀ k : Fin 4, a2.ymm (evenLane k) = a.ymm (evenLane k)
      ∧ b2.ymm (evenLane k) = b.ymm (evenLane k)) :
    (∀ k : Fin 4,
      (vec8i.operator_star a b).ymm (evenLane k)
          = Lane.ofInt ((a.ymm (evenLane k)).toInt * (b.ymm (evenLane k)).toInt)
      ∧ (vec8i.operator_star a b).ymm (oddLane k)
          = Lane.ofInt ((a.ymm (evenLane k)).toInt * (b.ymm (evenLane k)).toInt / 4294967296)
      ∧ signed64 ((vec8i.operator_star a b).ymm (evenLane k))
            ((vec8i.operator_star a b).ymm (oddLane k))
          = (a.ymm (evenLane k)).toInt * (b.ymm (evenLane k)).toInt)
    ∧ vec8i.operator_star_assign a b = vec8i.operator_star a b
    ∧ vec8i.operator_star a2 b2 = vec8i.operator_star a b
    ∧ intLanes (vec8i.operator_star (vec8i.vec_scalar (Lane.ofInt 2))
          (vec8i.vec_scalar (Lane.ofInt 3))).ymm = [6, 0, 6, 0, 6, 0, 6, 0] := by
  refine ⟨?_, rfl, ?_, by decide⟩
  · intro k
    have he := mul_epi32_even a.ymm b.ymm k
    have ho := mul_epi32_odd a.ymm b.ymm k
    refine ⟨he, ho, ?_⟩
    simp only [vec8i.operator_star, he, ho]
    exact signed64_ofInt _
      (int32_product_bounds _ _ (Lane.toInt_bounds _) (Lane.toInt_bounds _))
  · simp only [vec8i.operator_star]
    congr 1
    funext l
    obtain ⟨k, hk | hk⟩ := lane_even_or_odd l
    · rw [hk, mul_epi32_even, mul_epi32_even, (h k).1, (h k).2]
    · rw [hk, mul_epi32_odd, mul_epi32_odd, (h k).1, (h k).2]

/-- C3 at a concrete input: `[2,9,2,9,2,9,2,9]` and `[3,7,3,7,3,7,3,7]` agree
with `broadcast(2)` and `broadcast(3)` on the even lanes, and their odd lanes 9
and 7 leave no trace in the product `[6,0,6,0,6,0,6,0]`. -/
theorem mul_even_lanes_only_witness :
    (∀ k : Fin 4,
      (vec8i.vec_literals 2 9 2 9 2 9 2 9).ymm (evenLane k)
          = (vec8i.vec_scalar (Lane.ofInt 2)).ymm (evenLane k)
      ∧ (vec8i.vec_literals 3 7 3 7 3 7 3 7).ymm (evenLane k)
          = (vec8i.vec_scalar (Lane.ofInt 3)).ymm (evenLane k))
    ∧ intLanes (vec8i.operator_star (vec8i.vec_literals 2 9 2 9 2 9 2 9)
        (vec8i.vec_literals 3 7 3 7 3 7 3 7)).ymm = [6, 0, 6, 0, 6, 0, 6, 0] := by
  refine ⟨by decide, ?_⟩
  have h := (mul_even_lanes_only (vec8i.vec_scalar (Lane.ofInt 2))
    (vec8i.vec_scalar (Lane.ofInt 3)) (vec8i.vec_literals 2 9 2 9 2 9 2 9)
    (vec8i.vec_literals 3 7 3 7 3 7 3 7) (by decide)).2.2
  rw [h.1]
  exact h.2


/-! ## Bit-level lemmas -/

theorem Lane.bit_ofNat (n k : Nat) :
    (Lane.ofNat n).bit k = (decide (k < 32) && n.testBit k) := by
  have h : (4294967296 : Nat) = 2 ^ 32 := by norm_num
  simp only [Lane.bit, Lane.ofNat, h, Nat.testBit_mod_two_pow]

theorem Lane.bit_high (x : Lane) (k : Nat) (hk : 32 ≤ k) : x.bit k = false := by
  apply Nat.testBit_lt_two_pow
  have h1 : x.val < 2 ^ 32 := by have := x.isLt; omega
  have h2 : 2 ^ 32 ≤ 2 ^ k := Nat.pow_le_pow_right (by decide) hk
  omega

theorem Lane.ext_bits (x y : Lane) (h : ∀ k : Fin 32, x.bit k = y.bit k) : x = y := by
  apply Fin.ext
  apply Nat.eq_of_testBit_eq
  intro i
  by_cases hi : i < 32
  · exact h ⟨i, hi⟩
  · have h1 := Lane.bit_high x i (by omega)
    have h2 := Lane.bit_high y i (by omega)
    simp only [Lane.bit] at h1 h2
    rw [h1, h2]

theorem Lane.bit_zero (k : Nat) : Lane.zero.bit k = false := by
  simp only [Lane.bit, Lane.zero, Nat.zero_testBit]

theorem Lane.bit_and (x y : Lane) (k : Nat) :
    (Lane.and x y).bit k = (x.bit k && y.bit k) := by
  by_cases hk : k < 32
  · rw [Lane.and, Lane.bit_ofNat]
    simp only [hk, decide_True, Bool.true_and, Nat.testBit_and, Lane.bit]
  · rw [Lane.bit_high _ k (by omega), Lane.bit_high x k (by omega)]
    rfl

theorem Lane.bit_or (x y : Lane) (k : Nat) :
    (Lane.or x y).bit k = (x.bit k || y.bit k) := by
  by_cases hk : k < 32
  · rw [Lane.or, Lane.bit_ofNat]
    simp only [hk, decide_True, Bool.true_and, Nat.testBit_or, Lane.bit]
  · rw [Lane.bit_high _ k (by omega), Lane.bit_high x k (by omega),
      Lane.bit_high y k (by omega)]
    rfl

theorem Lane.bit_xor (x y : Lane) (k : Nat) :
    (Lane.xor x y).bit k = Bool.xor (x.bit k) (y.bit k) := by
  by_cases hk : k < 32
  · rw [Lane.xor, Lane.bit_ofNat]
    simp only [hk, decide_True, Bool.true_and, Nat.testBit_xor, Lane.bit]
  · rw [Lane.bit_high _ k (by omega), Lane.bit_high x k (by omega),
      Lane.bit_high y k (by omega)]
    rfl

theorem Lane.bit_not (x : Lane) (k : Fin 32) : (Lane.not x).bit k = !(x.bit k) := by
  have h : (4294967295 : Nat) = 2 ^ 32 - 1 := by norm_num
  rw [Lane.not, Lane.bit_ofNat]
  simp only [k.isLt, decide_True, Bool.true_and, Nat.testBit_xor, h,
    Nat.testBit_two_pow_sub_one, Lane.bit, Bool.xor_true]

theorem Lane.eq_zero_iff (x : Lane) : x = Lane.zero ↔ ∀ k : Fin 32, x.bit k = false := by
  constructor
  · intro h k
    rw [h, Lane.bit_zero]
  · intro h
    apply Lane.ext_bits
    intro k
    rw [h k, Lane.bit_zero]


/-! ## Bitwise complement and flag tests -/

theorem flag_ne_zero (P : Prop) [Decidable P] :
    ((if P then (1 : Int) else 0) != 0) = true ↔ P := by
  by_cases h : P
  · simp only [h, if_true, iff_true]
    decide
  · simp only [h, if_false, iff_false]
    decide

theorem minus_one_float_bits (k : Fin 32) :
    (F32.ofInt (-1)).bit k = decide (k.val = 31 ∨ (23 ≤ k.val ∧ k.val ≤ 29)) := by
  revert k
  decide

/-- C4 (what the code does): `operator~` of `vec8f` XORs every lane with the
encoding `0xBF800000` of the `float` constant `-1.f`, so it flips the bits 31 and
29..23 of a lane and leaves the bits 30 and 22..0 as they were. For
`x = broadcast(0.f)` every lane of `~x` is `0xBF800000` (the float `-1`), not
`0xFFFFFFFF`, and `(~x) | x` is `0xBF800000` in every lane, not all-ones; for a
vector `w` of all-ones lanes `(~w) & w` is `0x407FFFFF` in every lane, not zero. -/
theorem vec8f_tilde_xors_minus_one :
    (∀ (x : vec8f) (j : Fin 8),
      (vec8f.operator_tilde x).ymm j = Lane.xor (x.ymm j) (Lane.ofNat 0xBF800000))
    ∧ (∀ (x : vec8f) (j : Fin 8) (k : Fin 32),
      ((vec8f.operator_tilde x).ymm j).bit k
        = Bool.xor ((x.ymm j).bit k) (decide (k.val = 31 ∨ (23 ≤ k.val ∧ k.val ≤ 29))))
    ∧ lanes (vec8f.operator_tilde (vec8f.vec_scalar (F32.ofInt 0))).ymm
        = List.replicate 8 (Lane.ofNat 0xBF800000)
    ∧ Lane.ofNat 0xBF800000 ≠ Lane.allOnes
    ∧ lanes (vec8f.operator_or (vec8f.operator_tilde (vec8f.vec_scalar (F32.ofInt 0)))
          (vec8f.vec_scalar (F32.ofInt 0))).ymm
        = List.replicate 8 (Lane.ofNat 0xBF800000)
    ∧ lanes (vec8f.operator_and (vec8f.operator_tilde (vec8f.vec_scalar Lane.allOnes))
          (vec8f.vec_scalar Lane.allOnes)).ymm
        = List.replicate 8 (Lane.ofNat 0x407FFFFF)
    ∧ Lane.ofNat 0x407FFFFF ≠ Lane.zero := by
  refine ⟨?_, ?_, by decide, by decide, by decide, by decide, by decide⟩
  · intro x j
    have h : F32.ofInt (-1) = Lane.ofNat 0xBF800000 := by decide
    simp only [vec8f.operator_tilde, _mm256_xor_ps, _mm256_set1_ps, h]
  · intro x j k
    simp only [vec8f.operator_tilde, _mm256_xor_ps, _mm256_set1_ps, Lane.bit_xor,
      minus_one_float_bits]

/-- C5 (as the code has it): `isZFlagSet` of `vec8f` returns true if and only
if the bitwise AND of the operands has a clear sign bit (bit 31) in every one
of the eight lanes, that is no lane where both operands have the sign bit set.
The other 31 bits of a lane do not enter. -/
theorem vec8f_isZFlagSet_sign_bits (lhs rhs : vec8f) :
    (vec8f.isZFlagSet lhs rhs = true
      ↔ ∀ j : Fin 8, ((vec8f.operator_and lhs rhs).ymm j).bit 31 = false)
    ∧ (vec8f.isZFlagSet lhs rhs = true
      ↔ ∀ j : Fin 8, ((lhs.ymm j).bit 31 && (rhs.ymm j).bit 31) = false) := by
  constructor
  · simp only [vec8f.isZFlagSet, _mm256_testz_ps, flag_ne_zero, vec8f.operator_and,
      _mm256_and_ps]
  · simp only [vec8f.isZFlagSet, _mm256_testz_ps, flag_ne_zero, Lane.bit_and]

/-- C5 fails as stated: for `lhs = rhs = broadcast(1.f)` the bitwise AND is
`0x3F800000` in every lane, so the operands share set bits, yet `isZFlagSet`
returns true. -/
theorem vec8f_isZFlagSet_all_bits_counterexample :
    vec8f.isZFlagSet (vec8f.vec_scalar (F32.ofInt 1)) (vec8f.vec_scalar (F32.ofInt 1)) = true
    ∧ lanes (vec8f.operator_and (vec8f.vec_scalar (F32.ofInt 1))
          (vec8f.vec_scalar (F32.ofInt 1))).ymm
        = List.replicate 8 (Lane.ofNat 0x3F800000)
    ∧ Lane.ofNat 0x3F800000 ≠ Lane.zero
    ∧ ((vec8f.vec_scalar (F32.ofInt 1)).ymm 0).bit 23 = true := by
  decide

/-- C6 (as the code has it): `isCFlagSet` of `vec8i` returns true if and only
if the bitwise AND of the complement of `lhs` with `rhs` is entirely zero, that
is every set bit of `rhs` is also set in `lhs`. -/
theorem vec8i_isCFlagSet_rhs_within_lhs (lhs rhs : vec8i) :
    (vec8i.isCFlagSet lhs rhs = true
      ↔ ∀ j : Fin 8, (vec8i.operator_and (vec8i.operator_tilde lhs) rhs).ymm j = Lane.zero)
    ∧ (vec8i.isCFlagSet lhs rhs = true
      ↔ ∀ (j : Fin 8) (k : Fin 32), (rhs.ymm j).bit k = true → (lhs.ymm j).bit k = true) := by
  have hmask : Lane.ofInt (-1) = Lane.allOnes := by decide
  have hnot : ∀ x : Lane, Lane.xor x Lane.allOnes = Lane.not x := fun x => rfl
  constructor
  · simp only [vec8i.isCFlagSet, _mm256_testc_si256, flag_ne_zero, vec8i.operator_and,
      vec8i.operator_tilde, _mm256_and_si256, _mm256_xor_si256, _mm256_set1_epi32, hmask, hnot]
  · simp only [vec8i.isCFlagSet, _mm256_testc_si256, flag_ne_zero, Lane.eq_zero_iff,
      Lane.bit_and, Lane.bit_not]
    constructor
    · intro h j k hr
      have := h j k
      rw [hr] at this
      simpa using this
    · intro h j k
      cases hr : (rhs.ymm j).bit k
      · simp
      · simp [h j k hr]

/-- C6 fails as stated, in both directions. For `lhs = broadcast(-1)` and
`rhs = broadcast(0)` the AND of `lhs` with the complement of `rhs` is all-ones
in every lane, not zero, yet `isCFlagSet` returns true; for
`lhs = broadcast(0)` and `rhs = broadcast(-1)` that AND is zero in every lane,
every set bit of `lhs` being set in `rhs`, yet `isCFlagSet` returns false. -/
theorem vec8i_isCFlagSet_lhs_within_rhs_counterexample :
    vec8i.isCFlagSet (vec8i.vec_scalar (Lane.ofInt (-1))) (vec8i.vec_scalar (Lane.ofInt 0)) = true
    ∧ lanes (vec8i.operator_and (vec8i.vec_scalar (Lane.ofInt (-1)))
          (vec8i.operator_tilde (vec8i.vec_scalar (Lane.ofInt 0)))).ymm
        = List.replicate 8 Lane.allOnes
    ∧ vec8i.isCFlagSet (vec8i.vec_scalar (Lane.ofInt 0)) (vec8i.vec_scalar (Lane.ofInt (-1)))
        = false
    ∧ lanes (vec8i.operator_and (vec8i.vec_scalar (Lane.ofInt 0))
          (vec8i.operator_tilde (vec8i.vec_scalar (Lane.ofInt (-1))))).ymm
        = List.replicate 8 Lane.zero := by
  decide


/-! ## Square root and dot product of `vec8f` -/

theorem F32.toRat_of_parts (x : Lane) (m e : Int) (hm : F32.signedSignificand x = m)
    (he : F32.exponent x = e) : F32.toRat x = (m : ℚ) * (2 : ℚ) ^ e := by
  rw [F32.toRat, hm, he]

theorem F32.toRat_two : F32.toRat (F32.ofInt 2) = 2 := by
  rw [F32.toRat_of_parts (F32.ofInt 2) 8388608 (-22) (by decide) (by decide)]
  norm_num

theorem F32.toRat_four : F32.toRat (F32.ofInt 4) = 4 := by
  rw [F32.toRat_of_parts (F32.ofInt 4) 8388608 (-21) (by decide) (by decide)]
  norm_num

theorem F32.toRat_eight : F32.toRat (F32.ofInt 8) = 8 := by
  rw [F32.toRat_of_parts (F32.ofInt 8) 8388608 (-20) (by decide) (by decide)]
  norm_num

theorem F32.toRat_twenty_four : F32.toRat (F32.ofInt 24) = 24 := by
  rw [F32.toRat_of_parts (F32.ofInt 24) 12582912 (-19) (by decide) (by decide)]
  norm_num

/-- C7 (what the code does): `reciprocalSqrt` is the same function as `sqrt`,
both being `_mm256_sqrt_ps`. For `x = broadcast(4.0)` every lane of
`reciprocalSqrt(x)` is the float `2.0`, the square root, whose distance from
`1/sqrt(4) = 0.5` is `1.5`, far above the relative bound `1.5 * 2^-12`. -/
theorem reciprocalSqrt_is_sqrt :
    (∀ x : vec8f, vec8f.reciprocalSqrt x = vec8f.sqrt x)
    ∧ lanes (vec8f.reciprocalSqrt (vec8f.vec_scalar (F32.ofInt 4))).ymm
        = List.replicate 8 (F32.ofInt 2)
    ∧ F32.toRat (F32.ofInt 4) = 4
    ∧ F32.toRat (F32.ofInt 2) = 2
    ∧ |F32.toRat (F32.ofInt 2) - 1 / 2| > (3 / 2) * (1 / 2 ^ 12) * (1 / 2) := by
  refine ⟨fun _ => rfl, by decide, F32.toRat_four, F32.toRat_two, ?_⟩
  rw [F32.toRat_two]
  norm_num [abs_of_pos]

/-- C8: `dot` with its default masks computes two independent four-lane dot
products in single precision. The result lanes 0..3 all hold
`(a[0]*b[0] + a[1]*b[1]) + (a[2]*b[2] + a[3]*b[3])` and the result lanes 4..7
all hold `(a[4]*b[4] + a[5]*b[5]) + (a[6]*b[6] + a[7]*b[7])`, every product
and sum being a `float` operation; for `a = [1,1,1,1,2,2,2,2]` and
`b = [2,2,2,2,3,3,3,3]` the result is `[8,8,8,8,24,24,24,24]`. -/
theorem dot_two_independent_halves (a b : vec8f) :
    lanes (vec8f.dot_default a b).ymm
      = [ F32.add (F32.add (F32.mul (a.ymm 0) (b.ymm 0)) (F32.mul (a.ymm 1) (b.ymm 1)))
            (F32.add (F32.mul (a.ymm 2) (b.ymm 2)) (F32.mul (a.ymm 3) (b.ymm 3))),
          F32.add (F32.add (F32.mul (a.ymm 0) (b.ymm 0)) (F32.mul (a.ymm 1) (b.ymm 1)))
            (F32.add (F32.mul (a.ymm 2) (b.ymm 2)) (F32.mul (a.ymm 3) (b.ymm 3))),
          F32.add (F32.add (F32.mul (a.ymm 0) (b.ymm 0)) (F32.mul (a.ymm 1) (b.ymm 1)))
            (F32.add (F32.mul (a.ymm 2) (b.ymm 2)) (F32.mul (a.ymm 3) (b.ymm 3))),
          F32.add (F32.add (F32.mul (a.ymm 0) (b.ymm 0)) (F32.mul (a.ymm 1) (b.ymm 1)))
            (F32.add (F32.mul (a.ymm 2) (b.ymm 2)) (F32.mul (a.ymm 3) (b.ymm 3))),
          F32.add (F32.add (F32.mul (a.ymm 4) (b.ymm 4)) (F32.mul (a.ymm 5) (b.ymm 5)))
            (F32.add (F32.mul (a.ymm 6) (b.ymm 6)) (F32.mul (a.ymm 7) (b.ymm 7))),
          F32.add (F32.add (F32.mul (a.ymm 4) (b.ymm 4)) (F32.mul (a.ymm 5) (b.ymm 5)))
            (F32.add (F32.mul (a.ymm 6) (b.ymm 6)) (F32.mul (a.ymm 7) (b.ymm 7))),
          F32.add (F32.add (F32.mul (a.ymm 4) (b.ymm 4)) (F32.mul (a.ymm 5) (b.ymm 5)))
            (F32.add (F32.mul (a.ymm 6) (b.ymm 6)) (F32.mul (a.ymm 7) (b.ymm 7))),
          F32.add (F32.add (F32.mul (a.ymm 4) (b.ymm 4)) (F32.mul (a.ymm 5) (b.ymm 5)))
            (F32.add (F32.mul (a.ymm 6) (b.ymm 6)) (F32.mul (a.ymm 7) (b.ymm 7))) ]
    ∧ lanes (vec8f.dot_default (vec8f.vec_literals 1 1 1 1 2 2 2 2)
          (vec8f.vec_literals 2 2 2 2 3 3 3 3)).ymm
        = [F32.ofInt 8, F32.ofInt 8, F32.ofInt 8, F32.ofInt 8,
           F32.ofInt 24, F32.ofInt 24, F32.ofInt 24, F32.ofInt 24]
    ∧ F32.toRat (F32.ofInt 8) = 8
    ∧ F32.toRat (F32.ofInt 24) = 24 := by
  refine ⟨rfl, by decide, F32.toRat_eight, F32.toRat_twenty_four⟩


/-! ## Shifts of `vec8i` -/

theorem Lane.ofNat_mul_eq_ofInt (x : Lane) (m : Nat) :
    Lane.ofNat (x.val * m) = Lane.ofInt (x.toInt * (m : Int)) := by
  apply Fin.ext
  simp only [Lane.ofNat, Lane.ofInt, Lane.toInt]
  have hx := x.isLt
  split
  · have h : ((x.val : Int) * (m : Int)) = ((x.val * m : Nat) : Int) := by push_cast; ring
    rw [h]
    omega
  · have h : (((x.val : Int) - 4294967296) * (m : Int))
        = ((x.val * m : Nat) : Int) - 4294967296 * (m : Int) := by push_cast; ring
    rw [h]
    omega

theorem Lane.shr_val (x : Lane) (c : Nat) :
    (Lane.ofNat (x.val >>> c)).val = x.val / 2 ^ c := by
  simp only [Lane.ofNat, Nat.shiftRight_eq_div_pow]
  have h1 : x.val / 2 ^ c ≤ x.val := Nat.div_le_self _ _
  have h2 := x.isLt
  exact Nat.mod_eq_of_lt (by omega)

theorem Lane.shr_nonneg (x : Lane) (c : Nat) (hc : 1 ≤ c) :
    0 ≤ (Lane.ofNat (x.val >>> c)).toInt := by
  have hv := Lane.shr_val x c
  have h2 : 2 ^ 1 ≤ 2 ^ c := Nat.pow_le_pow_right (by decide) hc
  have h3 : x.val / 2 ^ c ≤ x.val / 2 ^ 1 := Nat.div_le_div_left h2 (by decide)
  have hx := x.isLt
  have h4 : x.val / 2 ^ 1 < 2147483648 := by omega
  have h5 : (Lane.ofNat (x.val >>> c)).val < 2147483648 := by omega
  unfold Lane.toInt
  rw [if_pos h5]
  omega

/-- C9: the free and the compound `<<` and `>>` of `vec8i` are per-lane logical
shifts. With the count lane `c[i]` in 0..31, lane `i` of `v << c` is
`v[i] * 2^c[i]` modulo `2^32` and lane `i` of `v >> c`, read unsigned, is the
unsigned `v[i]` divided by `2^c[i]` rounded down, which is never negative once
`c[i] ≥ 1`; with the count read unsigned above 31 the lane is 0. So `v << 2`
multiplies every lane by 4 modulo `2^32`, and for `v = [1,2,3,4,5,6,7,8]`
`v << 2` is `[4,8,12,16,20,24,28,32]` and `v >> 2` is `[0,0,0,1,1,1,1,2]`. -/
theorem vec8i_shifts_logical (v c : vec8i) (i : Fin 8) :
    ((c.ymm i).val ≤ 31 ↔ 0 ≤ (c.ymm i).toInt ∧ (c.ymm i).toInt ≤ 31)
    ∧ (vec8i.operator_shl v c).ymm i
        = (if (c.ymm i).val ≤ 31 then Lane.ofInt ((v.ymm i).toInt * 2 ^ (c.ymm i).val)
           else Lane.zero)
    ∧ ((vec8i.operator_shr v c).ymm i).val
        = (if (c.ymm i).val ≤ 31 then (v.ymm i).val / 2 ^ (c.ymm i).val else 0)
    ∧ ((c.ymm i).val = 0 ∨ 0 ≤ ((vec8i.operator_shr v c).ymm i).toInt)
    ∧ vec8i.operator_shl_assign v c = vec8i.operator_shl v c
    ∧ vec8i.operator_shr_assign v c = vec8i.operator_shr v c
    ∧ (vec8i.operator_shl v (vec8i.vec_scalar (Lane.ofInt 2))).ymm i
        = Lane.ofInt ((v.ymm i).toInt * 4)
    ∧ intLanes (vec8i.operator_shl (vec8i.vec_literals 1 2 3 4 5 6 7 8)
          (vec8i.vec_scalar (Lane.ofInt 2))).ymm = [4, 8, 12, 16, 20, 24, 28, 32]
    ∧ intLanes (vec8i.operator_shr (vec8i.vec_literals 1 2 3 4 5 6 7 8)
          (vec8i.vec_scalar (Lane.ofInt 2))).ymm = [0, 0, 0, 1, 1, 1, 1, 2] := by
  refine ⟨?_, ?_, ?_, ?_, rfl, rfl, ?_, by decide, by decide⟩
  · have hc := (c.ymm i).isLt
    unfold Lane.toInt
    split <;> omega
  · simp only [vec8i.operator_shl, _mm256_sllv_epi32]
    by_cases h : (c.ymm i).val ≤ 31
    · have h2 : (c.ymm i).val < 32 := by omega
      simp only [h, h2, if_true, Nat.shiftLeft_eq]
      rw [Lane.ofNat_mul_eq_ofInt]
      norm_cast
    · have h2 : ¬ (c.ymm i).val < 32 := by omega
      simp only [h, h2, if_false]
  · simp only [vec8i.operator_shr, _mm256_srlv_epi32]
    by_cases h : (c.ymm i).val ≤ 31
    · have h2 : (c.ymm i).val < 32 := by omega
      simp only [h, h2, if_true, Lane.shr_val]
    · have h2 : ¬ (c.ymm i).val < 32 := by omega
      simp only [h, h2, if_false]
      rfl
  · simp only [vec8i.operator_shr, _mm256_srlv_epi32]
    by_cases h0 : (c.ymm i).val = 0
    · exact Or.inl h0
    · right
      by_cases h : (c.ymm i).val < 32
      · simp only [h, if_true]
        exact Lane.shr_nonneg _ _ (by omega)
      · simp only [h, if_false]
        decide
  · have h2 : (Lane.ofInt 2).val = 2 := by decide
    simp only [vec8i.operator_shl, _mm256_sllv_epi32, vec8i.vec_scalar, vec8i.load_scalar,
      _mm256_set1_epi32, h2, Nat.shiftLeft_eq]
    have h3 : (2 : Nat) < 32 := by decide
    simp only [h3, if_true]
    rw [Lane.ofNat_mul_eq_ofInt]
    norm_num


/-! ## Constant shifts of `vec8i` -/

theorem SignExtend32_shr (x : Lane) (k : Nat) (hk : k ≤ 31) :
    (SignExtend32 (32 - k) (x.val >>> k)).toInt = x.toInt / 2 ^ k := by
  have hx := x.isLt
  have hPW : 2 ^ k * 2 ^ (31 - k) = 2147483648 := by
    rw [← Nat.pow_add]
    have : k + (31 - k) = 31 := by omega
    rw [this]
  have h2W : 2 ^ (32 - k) = 2 * 2 ^ (31 - k) := by
    have : 32 - k = (31 - k) + 1 := by omega
    rw [this, Nat.pow_succ]
    omega
  have hw : 32 - k - 1 = 31 - k := by omega
  have hPpos : 0 < 2 ^ k := Nat.pow_pos (by decide)
  have hWpos : 0 < 2 ^ (31 - k) := Nat.pow_pos (by decide)
  have hqW : x.val / 2 ^ k / 2 ^ (31 - k) = x.val / 2147483648 := by
    rw [Nat.div_div_eq_div_mul, hPW]
  have hq_lt : x.val / 2 ^ k < 2 * 2 ^ (31 - k) := by
    rw [Nat.div_lt_iff_lt_mul hPpos]
    have : 2 * 2 ^ (31 - k) * 2 ^ k = 4294967296 := by
      rw [Nat.mul_assoc, Nat.mul_comm (2 ^ (31 - k)), hPW]
    omega
  have hW_le : 2 ^ (31 - k) ≤ 2147483648 := by
    have := Nat.le_mul_of_pos_left (2 ^ (31 - k)) hPpos
    omega
  have hq_le : x.val / 2 ^ k ≤ x.val := Nat.div_le_self _ _
  simp only [SignExtend32, Nat.testBit_to_div_mod, Nat.shiftRight_eq_div_pow, hw, hqW, h2W,
    decide_eq_true_eq]
  by_cases hneg : x.val < 2147483648
  · have h1 : ¬ x.val / 2147483648 % 2 = 1 := by omega
    have hval : (Lane.ofNat (x.val / 2 ^ k)).val = x.val / 2 ^ k := by
      simp only [Lane.ofNat]
      exact Nat.mod_eq_of_lt (by omega)
    have hres : (Lane.ofNat (x.val / 2 ^ k)).val < 2147483648 := by omega
    rw [if_neg h1]
    unfold Lane.toInt
    rw [if_pos hres, if_pos hneg, hval]
    norm_cast
  · have h1 : x.val / 2147483648 % 2 = 1 := by omega
    have hWq : 2 ^ (31 - k) ≤ x.val / 2 ^ k := by
      rw [Nat.le_div_iff_mul_le hPpos, Nat.mul_comm, hPW]
      omega
    have hval : (Lane.ofNat (x.val / 2 ^ k + (4294967296 - 2 * 2 ^ (31 - k)))).val
        = x.val / 2 ^ k + (4294967296 - 2 * 2 ^ (31 - k)) := by
      simp only [Lane.ofNat]
      exact Nat.mod_eq_of_lt (by omega)
    have hres : ¬ (Lane.ofNat (x.val / 2 ^ k + (4294967296 - 2 * 2 ^ (31 - k)))).val
        < 2147483648 := by omega
    have hrhs : ((x.val : Int) - 4294967296) / 2 ^ k
        = ((x.val / 2 ^ k : Nat) : Int) - 2 * ((2 ^ (31 - k) : Nat) : Int) := by
      have hsplit : ((x.val : Int) - 4294967296)
          = (x.val : Int) + (-(2 * ((2 ^ (31 - k) : Nat) : Int))) * ((2 ^ k : Nat) : Int) := by
        have : ((2 ^ k * 2 ^ (31 - k) : Nat) : Int) = 2147483648 := by rw [hPW]; rfl
        push_cast at this ⊢
        linarith
      have hP0 : ((2 ^ k : Nat) : Int) ≠ 0 := by positivity
      have hcast : ((2 : Int) ^ k) = ((2 ^ k : Nat) : Int) := by push_cast; rfl
      rw [hcast, hsplit, Int.add_mul_ediv_right _ _ hP0]
      push_cast
      ring
    rw [if_pos h1]
    unfold Lane.toInt
    rw [if_neg hres, if_neg hneg, hval, hrhs]
    omega

/-- C10: for a constant amount `k` in 0..31, `shiftRightSignExtend<k>` yields in
every lane the signed value divided by `2^k` rounded down, so a negative lane
stays negative, and `shiftRightZeroExtend<k>` yields the unsigned value divided
by `2^k` rounded down. On the all-ones vector `shiftRightSignExtend<2>` yields
all-ones in every lane and `shiftRightZeroExtend<2>` yields `0x3FFFFFFF`, a
positive value. -/
theorem vec8i_constant_right_shifts (x : vec8i) (k : Int) (hk : 0 ≤ k ∧ k ≤ 31) (i : Fin 8) :
    ((vec8i.shiftRightSignExtend k x).ymm i).toInt = Int.fdiv (x.ymm i).toInt (2 ^ k.toNat)
    ∧ (((vec8i.shiftRightSignExtend k x).ymm i).toInt < 0 ↔ (x.ymm i).toInt < 0)
    ∧ ((vec8i.shiftRightZeroExtend k x).ymm i).val = (x.ymm i).val / 2 ^ k.toNat
    ∧ lanes (vec8i.shiftRightSignExtend 2 (vec8i.vec_scalar (Lane.ofInt (-1)))).ymm
        = List.replicate 8 Lane.allOnes
    ∧ lanes (vec8i.shiftRightZeroExtend 2 (vec8i.vec_scalar (Lane.ofInt (-1)))).ymm
        = List.replicate 8 (Lane.ofNat 0x3FFFFFFF)
    ∧ (Lane.ofNat 0x3FFFFFFF).toInt = 1073741823 := by
  have hle : k.toNat ≤ 31 := by omega
  have hnot : ¬ (k < 0 ∨ k > 31) := by omega
  have hpos : (0 : Int) < 2 ^ k.toNat := by positivity
  have hsigned : ((vec8i.shiftRightSignExtend k x).ymm i).toInt
      = (x.ymm i).toInt / 2 ^ k.toNat := by
    simp only [vec8i.shiftRightSignExtend, _mm256_srai_epi32, hnot, if_false]
    exact SignExtend32_shr _ _ hle
  refine ⟨?_, ?_, ?_, by decide, by decide, by decide⟩
  · rw [hsigned, Int.fdiv_eq_ediv _ (le_of_lt hpos)]
  · rw [hsigned]
    constructor
    · intro h
      by_contra hn
      have : 0 ≤ (x.ymm i).toInt / 2 ^ k.toNat := Int.ediv_nonneg (by omega) (le_of_lt hpos)
      omega
    · intro h
      exact Int.ediv_neg' h hpos
  · simp only [vec8i.shiftRightZeroExtend, _mm256_srli_epi32, hnot, if_false,
      Lane.shr_val]

/-- C10 at a concrete input: the amount `k = 1` lies in 0..31, and shifting the
lanes `-7` right by it with sign extension gives `-4`, the quotient rounded
down. -/
theorem vec8i_constant_right_shifts_witness :
    ((0 : Int) ≤ 1 ∧ (1 : Int) ≤ 31)
    ∧ ((vec8i.shiftRightSignExtend 1 (vec8i.vec_scalar (Lane.ofInt (-7)))).ymm 0).toInt
        = Int.fdiv (-7) 2 := by
  refine ⟨by decide, ?_⟩
  have h := (vec8i_constant_right_shifts (vec8i.vec_scalar (Lane.ofInt (-7))) 1
    (by decide) 0).1
  rw [h]
  decide

end avx

namespace avx

/-! ## Absolute value and complement of `vec8i` -/

theorem ABS_toInt (x : Lane) :
    (ABS x).toInt = (if x.toInt = -2147483648 then -2147483648 else |x.toInt|) := by
  have hb := Lane.toInt_bounds x
  unfold ABS
  by_cases hneg : x.toInt < 0
  · rw [if_pos hneg, abs_of_neg hneg]
    by_cases hmin : x.toInt = -2147483648
    · rw [if_pos hmin, hmin]
      decide
    · rw [if_neg hmin]
      generalize x.toInt = z at *
      simp only [Lane.toInt, Lane.ofInt]
      split <;> omega
  · have h0 : 0 ≤ x.toInt := by omega
    have hmin : ¬ x.toInt = -2147483648 := by omega
    rw [if_neg hneg, if_neg hmin, abs_of_nonneg h0]

/-- C11: lane `i` of `abs(x)` is the absolute value of `x[i]`, hence not
negative, whenever `x[i]` is not `INT32_MIN`, and it is `INT32_MIN` itself, still
negative, when `x[i]` is `INT32_MIN`. -/
theorem vec8i_abs_wraps_at_min (x : vec8i) (i : Fin 8) :
    ((vec8i.abs x).ymm i).toInt
        = (if (x.ymm i).toInt = -2147483648 then -2147483648 else |(x.ymm i).toInt|)
    ∧ ((x.ymm i).toInt = -2147483648 ∨ 0 ≤ ((vec8i.abs x).ymm i).toInt)
    ∧ intLanes (vec8i.abs (vec8i.vec_scalar (Lane.ofInt (-2147483648)))).ymm
        = List.replicate 8 (-2147483648)
    ∧ intLanes (vec8i.abs (vec8i.vec_literals (-1) 2 (-3) 0 2147483647 (-2147483647)
          (-2147483648) 16777215)).ymm
        = [1, 2, 3, 0, 2147483647, 2147483647, -2147483648, 16777215] := by
  have h : ((vec8i.abs x).ymm i).toInt
      = (if (x.ymm i).toInt = -2147483648 then -2147483648 else |(x.ymm i).toInt|) := by
    simp only [vec8i.abs, _mm256_abs_epi32]
    exact ABS_toInt _
  refine ⟨h, ?_, by decide, by decide⟩
  by_cases hmin : (x.ymm i).toInt = -2147483648
  · exact Or.inl hmin
  · right
    rw [h, if_neg hmin]
    exact abs_nonneg _

theorem Lane.not_val (x : Lane) : (Lane.not x).val = 4294967295 - x.val := by
  have hx := x.isLt
  have hlt : 4294967295 - x.val < 4294967296 := by omega
  have key : Lane.not x = ⟨4294967295 - x.val, hlt⟩ := by
    apply Lane.ext_bits
    intro k
    rw [Lane.bit_not]
    have h32 : x.val < 2 ^ 32 := by omega
    have hsub : 4294967295 - x.val = 2 ^ 32 - (x.val + 1) := by omega
    simp only [Lane.bit, hsub, Nat.testBit_two_pow_sub_succ h32, k.isLt, decide_True,
      Bool.true_and]
  rw [key]

/-- C12: `~x` of `vec8i` flips every bit of every lane: lane `i` is `x[i]` XOR
`0xFFFFFFFF`, which is `-x[i] - 1` as an `int32_t`, so `~(~x)` is `x`; and
`~broadcast(0xFFFFFF)` is `0xFF000000` in every lane. -/
theorem vec8i_tilde_flips_every_bit (x : vec8i) (i : Fin 8) :
    (vec8i.operator_tilde x).ymm i = Lane.xor (x.ymm i) (Lane.ofNat 0xFFFFFFFF)
    ∧ (∀ k : Fin 32, ((vec8i.operator_tilde x).ymm i).bit k = !((x.ymm i).bit k))
    ∧ ((vec8i.operator_tilde x).ymm i).val = 0xFFFFFFFF - (x.ymm i).val
    ∧ ((vec8i.operator_tilde x).ymm i).toInt = -(x.ymm i).toInt - 1
    ∧ vec8i.operator_tilde (vec8i.operator_tilde x) = x
    ∧ lanes (vec8i.operator_tilde (vec8i.vec_scalar (Lane.ofInt 0xFFFFFF))).ymm
        = List.replicate 8 (Lane.ofNat 0xFF000000) := by
  have hmask : Lane.ofInt (-1) = Lane.ofNat 0xFFFFFFFF := by decide
  have hnot : ∀ y : vec8i, ∀ j : Fin 8,
      (vec8i.operator_tilde y).ymm j = Lane.not (y.ymm j) := fun _ _ => rfl
  have hval := Lane.not_val (x.ymm i)
  refine ⟨?_, ?_, ?_, ?_, ?_, by decide⟩
  · simp only [vec8i.operator_tilde, _mm256_xor_si256, _mm256_set1_epi32, hmask]
  · intro k
    rw [hnot, Lane.bit_not]
  · rw [hnot, hval]
  · rw [hnot]
    have hx := (x.ymm i).isLt
    unfold Lane.toInt
    rw [hval]
    split <;> split <;> omega
  · have hfun : (vec8i.operator_tilde (vec8i.operator_tilde x)).ymm = x.ymm := by
      funext j
      apply Fin.ext
      rw [hnot, Lane.not_val, hnot, Lane.not_val]
      have := (x.ymm j).isLt
      omega
    exact congrArg vec8i.mk hfun

end avx

namespace avx

/-! ## Blend and unpack -/

theorem imm8_low_byte (M : Fin 256) : imm8_low (M.val : Int) = M.val := by
  have h := M.isLt
  unfold imm8_low
  omega

theorem testBit_255 (i : Fin 8) : (255 : Nat).testBit i.val = true := by
  revert i
  decide

/-- C13: for every 8-bit mask `M`, lane `i` of `blend<M>(a, b)` is `b[i]` when
bit `i` of `M` is set and `a[i]` otherwise, for `vec8i` and for `vec8f`; so
`blend<0x00>(a, b)` is `a` and `blend<0xFF>(a, b)` is `b`. -/
theorem blend_selects_by_mask_bit (M : Fin 256) (a b : vec8i) (fa fb : vec8f) (i : Fin 8) :
    (vec8i.blend (M.val : Int) a b).ymm i
        = (if M.val.testBit i.val then b.ymm i else a.ymm i)
    ∧ (vec8f.blend (M.val : Int) fa fb).ymm i
        = (if M.val.testBit i.val then fb.ymm i else fa.ymm i)
    ∧ vec8i.blend 0x00 a b = a
    ∧ vec8i.blend 0xFF a b = b
    ∧ vec8f.blend 0x00 fa fb = fa
    ∧ vec8f.blend 0xFF fa fb = fb := by
  have h0 : imm8_low 0 = 0 := by decide
  have h255 : imm8_low 255 = 255 := by decide
  refine ⟨?_, ?_, ?_, ?_, ?_, ?_⟩
  · simp only [vec8i.blend, _mm256_blend_epi32, imm8_low_byte]
  · simp only [vec8f.blend, _mm256_blend_ps, imm8_low_byte]
  · have hfun : (vec8i.blend 0x00 a b).ymm = a.ymm := by
      funext j
      simp only [vec8i.blend, _mm256_blend_epi32, h0, Nat.zero_testBit, Bool.false_eq_true,
        if_false]
    exact congrArg vec8i.mk hfun
  · have hfun : (vec8i.blend 0xFF a b).ymm = b.ymm := by
      funext j
      simp only [vec8i.blend, _mm256_blend_epi32, h255, testBit_255, if_true]
    exact congrArg vec8i.mk hfun
  · have hfun : (vec8f.blend 0x00 fa fb).ymm = fa.ymm := by
      funext j
      simp only [vec8f.blend, _mm256_blend_ps, h0, Nat.zero_testBit, Bool.false_eq_true,
        if_false]
    exact congrArg vec8f.mk hfun
  · have hfun : (vec8f.blend 0xFF fa fb).ymm = fb.ymm := by
      funext j
      simp only [vec8f.blend, _mm256_blend_ps, h255, testBit_255, if_true]
    exact congrArg vec8f.mk hfun

theorem perm_sixteen {α : Type} (x0 x1 x2 x3 x4 x5 x6 x7 y0 y1 y2 y3 y4 y5 y6 y7 : α) :
    List.Perm
      ([x0, y0, x1, y1, x4, y4, x5, y5] ++ [x2, y2, x3, y3, x6, y6, x7, y7])
      ([x0, x1, x2, x3, x4, x5, x6, x7] ++ [y0, y1, y2, y3, y4, y5, y6, y7]) := by
  rw [← Multiset.coe_eq_coe]
  simp only [List.cons_append, List.nil_append, ← Multiset.cons_coe, ← Multiset.singleton_add]
  ac_rfl

/-- C19: `unpackLow(x, y)` is `[x0, y0, x1, y1, x4, y4, x5, y5]` and
`unpackHigh(x, y)` is `[x2, y2, x3, y3, x6, y6, x7, y7]` in storage order, for
`vec8i` and for `vec8f`, so the two results together hold every lane of `x` and
of `y` exactly once. For `x = [10,20,30,40,50,60,70,80]` and
`y = [11,21,31,41,51,61,71,81]` they are `[10,11,20,21,50,51,60,61]` and
`[30,31,40,41,70,71,80,81]`. -/
theorem unpack_interleaves_halves (x y : vec8i) (fx fy : vec8f) :
    lanes (vec8i.unpackLow x y).ymm
        = [x.ymm 0, y.ymm 0, x.ymm 1, y.ymm 1, x.ymm 4, y.ymm 4, x.ymm 5, y.ymm 5]
    ∧ lanes (vec8i.unpackHigh x y).ymm
        = [x.ymm 2, y.ymm 2, x.ymm 3, y.ymm 3, x.ymm 6, y.ymm 6, x.ymm 7, y.ymm 7]
    ∧ lanes (vec8f.unpackLow fx fy).ymm
        = [fx.ymm 0, fy.ymm 0, fx.ymm 1, fy.ymm 1, fx.ymm 4, fy.ymm 4, fx.ymm 5, fy.ymm 5]
    ∧ lanes (vec8f.unpackHigh fx fy).ymm
        = [fx.ymm 2, fy.ymm 2, fx.ymm 3, fy.ymm 3, fx.ymm 6, fy.ymm 6, fx.ymm 7, fy.ymm 7]
    ∧ List.Perm (lanes (vec8i.unpackLow x y).ymm ++ lanes (vec8i.unpackHigh x y).ymm)
        (lanes x.ymm ++ lanes y.ymm)
    ∧ List.Perm (lanes (vec8f.unpackLow fx fy).ymm ++ lanes (vec8f.unpackHigh fx fy).ymm)
        (lanes fx.ymm ++ lanes fy.ymm)
    ∧ intLanes (vec8i.unpackLow (vec8i.vec_literals 10 20 30 40 50 60 70 80)
          (vec8i.vec_literals 11 21 31 41 51 61 71 81)).ymm
        = [10, 11, 20, 21, 50, 51, 60, 61]
    ∧ intLanes (vec8i.unpackHigh (vec8i.vec_literals 10 20 30 40 50 60 70 80)
          (vec8i.vec_literals 11 21 31 41 51 61 71 81)).ymm
        = [30, 31, 40, 41, 70, 71, 80, 81]
    ∧ lanes (vec8f.unpackLow (vec8f.vec_literals 10 20 30 40 50 60 70 80)
          (vec8f.vec_literals 11 21 31 41 51 61 71 81)).ymm
        = [F32.ofInt 10, F32.ofInt 11, F32.ofInt 20, F32.ofInt 21,
           F32.ofInt 50, F32.ofInt 51, F32.ofInt 60, F32.ofInt 61]
    ∧ lanes (vec8f.unpackHigh (vec8f.vec_literals 10 20 30 40 50 60 70 80)
          (vec8f.vec_literals 11 21 31 41 51 61 71 81)).ymm
        = [F32.ofInt 30, F32.ofInt 31, F32.ofInt 40, F32.ofInt 41,
           F32.ofInt 70, F32.ofInt 71, F32.ofInt 80, F32.ofInt 81] := by
  refine ⟨rfl, rfl, rfl, rfl, ?_, ?_, by decide, by decide, by decide, by decide⟩
  · exact perm_sixteen _ _ _ _ _ _ _ _ _ _ _ _ _ _ _ _
  · exact perm_sixteen _ _ _ _ _ _ _ _ _ _ _ _ _ _ _ _

end avx

namespace avx

/-! ## Compound assignment and free operators of `vec8i` -/

/-- C20, amended: for objects `a` and `b` and each operator of
`+ - * | & ^ << >>`, the compound form `a op= b` leaves `a` equal, lane for
lane, to the value the free form `a op b` returns on the original objects,
returns a reference to `a` itself, and leaves `b` unchanged when `b` is another
object than `a`; the free form leaves every object, both operands among them,
unchanged. The compound operators on values are the free operators. With `a`
holding `[1..8]` and `b` holding `[10, 20, .., 80]`, `a += b` leaves
`[11, 22, .., 88]` in `a` and `[10, 20, .., 80]` in `b`. -/
theorem compound_assigns_left_operand_only {ι : Type} [DecidableEq ι]
    (objects : ι → vec8i) (a b : ι) :
    ((vec8i.operator_plus_assign_call objects a b).1 a = (vec8i.operator_plus_call objects a b).2
      ∧ (vec8i.operator_plus_assign_call objects a b).2 = a
      ∧ (b ≠ a → (vec8i.operator_plus_assign_call objects a b).1 b = objects b)
      ∧ (vec8i.operator_plus_call objects a b).1 = objects)
    ∧ ((vec8i.operator_minus_assign_call objects a b).1 a = (vec8i.operator_minus_call objects a b).2
      ∧ (vec8i.operator_minus_assign_call objects a b).2 = a
      ∧ (b ≠ a → (vec8i.operator_minus_assign_call objects a b).1 b = objects b)
      ∧ (vec8i.operator_minus_call objects a b).1 = objects)
    ∧ ((vec8i.operator_star_assign_call objects a b).1 a = (vec8i.operator_star_call objects a b).2
      ∧ (vec8i.operator_star_assign_call objects a b).2 = a
      ∧ (b ≠ a → (vec8i.operator_star_assign_call objects a b).1 b = objects b)
      ∧ (vec8i.operator_star_call objects a b).1 = objects)
    ∧ ((vec8i.operator_or_assign_call objects a b).1 a = (vec8i.operator_or_call objects a b).2
      ∧ (vec8i.operator_or_assign_call objects a b).2 = a
      ∧ (b ≠ a → (vec8i.operator_or_assign_call objects a b).1 b = objects b)
      ∧ (vec8i.operator_or_call objects a b).1 = objects)
    ∧ ((vec8i.operator_and_assign_call objects a b).1 a = (vec8i.operator_and_call objects a b).2
      ∧ (vec8i.operator_and_assign_call objects a b).2 = a
      ∧ (b ≠ a → (vec8i.operator_and_assign_call objects a b).1 b = objects b)
      ∧ (vec8i.operator_and_call objects a b).1 = objects)
    ∧ ((vec8i.operator_xor_assign_call objects a b).1 a = (vec8i.operator_xor_call objects a b).2
      ∧ (vec8i.operator_xor_assign_call objects a b).2 = a
      ∧ (b ≠ a → (vec8i.operator_xor_assign_call objects a b).1 b = objects b)
      ∧ (vec8i.operator_xor_call objects a b).1 = objects)
    ∧ ((vec8i.operator_shl_assign_call objects a b).1 a = (vec8i.operator_shl_call objects a b).2
      ∧ (vec8i.operator_shl_assign_call objects a b).2 = a
      ∧ (b ≠ a → (vec8i.operator_shl_assign_call objects a b).1 b = objects b)
      ∧ (vec8i.operator_shl_call objects a b).1 = objects)
    ∧ ((vec8i.operator_shr_assign_call objects a b).1 a = (vec8i.operator_shr_call objects a b).2
      ∧ (vec8i.operator_shr_assign_call objects a b).2 = a
      ∧ (b ≠ a → (vec8i.operator_shr_assign_call objects a b).1 b = objects b)
      ∧ (vec8i.operator_shr_call objects a b).1 = objects)
    ∧ (vec8i.operator_plus_assign = vec8i.operator_plus
      ∧ vec8i.operator_minus_assign = vec8i.operator_minus
      ∧ vec8i.operator_star_assign = vec8i.operator_star
      ∧ vec8i.operator_or_assign = vec8i.operator_or
      ∧ vec8i.operator_and_assign = vec8i.operator_and
      ∧ vec8i.operator_xor_assign = vec8i.operator_xor
      ∧ vec8i.operator_shl_assign = vec8i.operator_shl
      ∧ vec8i.operator_shr_assign = vec8i.operator_shr)
    ∧ intLanes ((vec8i.operator_plus_assign_call
          (fun t : Bool => if t then vec8i.vec_literals 1 2 3 4 5 6 7 8
            else vec8i.vec_literals 10 20 30 40 50 60 70 80) true false).1 true).ymm
        = [11, 22, 33, 44, 55, 66, 77, 88]
    ∧ intLanes ((vec8i.operator_plus_assign_call
          (fun t : Bool => if t then vec8i.vec_literals 1 2 3 4 5 6 7 8
            else vec8i.vec_literals 10 20 30 40 50 60 70 80) true false).1 false).ymm
        = [10, 20, 30, 40, 50, 60, 70, 80] := by
  have hupd : ∀ (v : vec8i), b ≠ a → Function.update objects a v b = objects b :=
    fun v h => Function.update_noteq h v objects
  refine ⟨⟨?_, rfl, ?_, rfl⟩, ⟨?_, rfl, ?_, rfl⟩, ⟨?_, rfl, ?_, rfl⟩, ⟨?_, rfl, ?_, rfl⟩,
    ⟨?_, rfl, ?_, rfl⟩, ⟨?_, rfl, ?_, rfl⟩, ⟨?_, rfl, ?_, rfl⟩, ⟨?_, rfl, ?_, rfl⟩,
    ⟨rfl, rfl, rfl, rfl, rfl, rfl, rfl, rfl⟩, by decide, by decide⟩
  all_goals first
    | exact Function.update_same a _ objects
    | exact hupd _

/-- C20 fails as stated when both operands are the same object. With `a`
holding `[1..8]`, the call `a += a` leaves `a` equal to what `a + a` returns on
the original, `[2, 4, .., 16]`, and returns a reference to `a`; the right
operand is `a`, held `[1..8]` before the call and holds `[2, 4, .., 16]` after
it: it is not left unchanged. -/
theorem compound_same_object_changes_right_operand_counterexample :
    intLanes ((fun t : Bool => if t then vec8i.vec_literals 1 2 3 4 5 6 7 8
        else vec8i.vec_literals 0 0 0 0 0 0 0 0) true).ymm
      = [1, 2, 3, 4, 5, 6, 7, 8]
    ∧ intLanes ((vec8i.operator_plus_assign_call
          (fun t : Bool => if t then vec8i.vec_literals 1 2 3 4 5 6 7 8
            else vec8i.vec_literals 0 0 0 0 0 0 0 0) true true).1 true).ymm
        = [2, 4, 6, 8, 10, 12, 14, 16]
    ∧ intLanes (vec8i.operator_plus_call
          (fun t : Bool => if t then vec8i.vec_literals 1 2 3 4 5 6 7 8
            else vec8i.vec_literals 0 0 0 0 0 0 0 0) true true).2.ymm
        = [2, 4, 6, 8, 10, 12, 14, 16]
    ∧ (vec8i.operator_plus_assign_call
          (fun t : Bool => if t then vec8i.vec_literals 1 2 3 4 5 6 7 8
            else vec8i.vec_literals 0 0 0 0 0 0 0 0) true true).2 = true
    ∧ ¬ (∀ (objects : Bool → vec8i) (a b : Bool),
          (vec8i.operator_plus_assign_call objects a b).1 b = objects b) := by
  refine ⟨by decide, by decide, by decide, rfl, ?_⟩
  intro h
  have h1 := congrArg (fun v : vec8i => intLanes v.ymm)
    (h (fun t : Bool => if t then vec8i.vec_literals 1 2 3 4 5 6 7 8
      else vec8i.vec_literals 0 0 0 0 0 0 0 0) true true)
  revert h1
  decide

end avx

namespace avx

/-! ## Loads, stores and their range assertion -/

theorem MEM_read_write (mem : Memory) (p : Int) (a : Fin 8 → Lane) :
    MEM_read (MEM_write mem p a) p = a := by
  funext j
  have hj := j.isLt
  have hc : 0 ≤ p + (j.val : Int) - p ∧ p + (j.val : Int) - p < 8 := by omega
  simp only [MEM_read, MEM_write, dif_pos hc]
  congr 1
  apply Fin.ext
  simp only
  omega

theorem MEM_write_at (mem : Memory) (p : Int) (a : Fin 8 → Lane) (j : Fin 8) :
    MEM_write mem p a (p + (j.val : Int)) = a j := by
  have h := congrFun (MEM_read_write mem p a) j
  simpa only [MEM_read] using h

theorem MEM_write_outside (mem : Memory) (p : Int) (a : Fin 8 → Lane) (q : Int)
    (hq : q < p ∨ p + 8 ≤ q) : MEM_write mem p a q = mem q := by
  have hc : ¬ (0 ≤ q - p ∧ q - p < 8) := by omega
  simp only [MEM_write, dif_neg hc]

theorem assert_then_checked {σ : Type} (cond : Prop) [Decidable cond] (s : σ) (body : σ → σ) :
    assert_then false (decide cond) s body
      = (if cond then Outcome.returned (body s) else Outcome.assertion_failed s) := by
  by_cases h : cond <;> simp [assert_then, h]

theorem assert_then_holds {σ : Type} (NDEBUG : Bool) (cond : Prop) [Decidable cond] (h : cond)
    (s : σ) (body : σ → σ) :
    assert_then NDEBUG (decide cond) s body = Outcome.returned (body s) := by
  simp [assert_then, h]

/-- C14: round trip. For a range of exactly 8 elements, `store(first, last)`
returns and writes lane `i` of `v` to buffer element `i`, touching no other
element, and `load(first, last)` from the same range right after it returns
and leaves the loading vector, whatever it held, equal to `v`; for `vec8i` and
for `vec8f`, with assertions enabled or not. -/
theorem store_load_round_trip (NDEBUG : Bool) (v w : vec8i) (fv fw : vec8f) (mem : Memory)
    (first last : Int) (h : last - first = 8) :
    vec8i.store NDEBUG ⟨v, mem⟩ first last
        = Outcome.returned ⟨v, MEM_write mem first v.ymm⟩
    ∧ vec8i.load_range NDEBUG ⟨w, MEM_write mem first v.ymm⟩ first last
        = Outcome.returned ⟨v, MEM_write mem first v.ymm⟩
    ∧ (∀ i : Fin 8, MEM_write mem first v.ymm (first + (i.val : Int)) = v.ymm i)
    ∧ vec8f.store NDEBUG ⟨fv, mem⟩ first last
        = Outcome.returned ⟨fv, MEM_write mem first fv.ymm⟩
    ∧ vec8f.load_range NDEBUG ⟨fw, MEM_write mem first fv.ymm⟩ first last
        = Outcome.returned ⟨fv, MEM_write mem first fv.ymm⟩
    ∧ (∀ i : Fin 8, MEM_write mem first fv.ymm (first + (i.val : Int)) = fv.ymm i)
    ∧ (∀ (a : Fin 8 → Lane) (q : Int), q < first ∨ last ≤ q → MEM_write mem first a q = mem q) := by
  have hi : last - first = (vec8i.Size : Int) := by rw [h]; rfl
  have hf : last - first = (vec8f.Size : Int) := by rw [h]; rfl
  refine ⟨?_, ?_, MEM_write_at mem first v.ymm, ?_, ?_, MEM_write_at mem first fv.ymm, ?_⟩
  · rw [vec8i.store, assert_then_holds NDEBUG _ hi]
    rfl
  · rw [vec8i.load_range, assert_then_holds NDEBUG _ hi]
    simp only [_mm256_loadu_si256, MEM_read_write]
  · rw [vec8f.store, assert_then_holds NDEBUG _ hf]
    rfl
  · rw [vec8f.load_range, assert_then_holds NDEBUG _ hf]
    simp only [_mm256_loadu_ps, MEM_read_write]
  · intro a q hq
    exact MEM_write_outside mem first a q (by omega)

/-- C14 at a concrete input: the range `[0, 8)` has 8 elements; storing
`[1,2,3,4,5,6,7,8]` there and loading it back into a zero vector gives
`[1,2,3,4,5,6,7,8]`. -/
theorem store_load_round_trip_witness :
    ((8 : Int) - 0 = 8)
    ∧ vec8i.load_range false
        ⟨vec8i.vec_scalar (Lane.ofInt 0),
          MEM_write (fun _ => Lane.zero) 0 (vec8i.vec_literals 1 2 3 4 5 6 7 8).ymm⟩ 0 8
      = Outcome.returned
        ⟨vec8i.vec_literals 1 2 3 4 5 6 7 8,
          MEM_write (fun _ => Lane.zero) 0 (vec8i.vec_literals 1 2 3 4 5 6 7 8).ymm⟩ :=
  ⟨by decide,
    (store_load_round_trip false (vec8i.vec_literals 1 2 3 4 5 6 7 8)
      (vec8i.vec_scalar (Lane.ofInt 0)) (vec8f.vec_scalar (F32.ofInt 0))
      (vec8f.vec_scalar (F32.ofInt 0)) (fun _ => Lane.zero) 0 8 (by decide)).2.1⟩

/-- C17: with assertions enabled, every pointer-range load and store form of
`vec8i` and of `vec8f`, the range constructor included, returns if and only
if `last - first == 8`; it then has loaded the eight elements at `first` or
stored the eight lanes there. For any other length, shorter, longer or
reversed, the assertion fails with the vector and the memory as they were. -/
theorem range_forms_check_length (s : Frame vec8i) (fs : Frame vec8f) (mem : Memory)
    (first last : Int) :
    vec8i.load_range false s first last
        = (if last - first = 8 then Outcome.returned ⟨⟨MEM_read s.mem first⟩, s.mem⟩
           else Outcome.assertion_failed s)
    ∧ vec8i.load_aligned false s first last
        = (if last - first = 8 then Outcome.returned ⟨⟨MEM_read s.mem first⟩, s.mem⟩
           else Outcome.assertion_failed s)
    ∧ vec8i.load_aligned_stream false s first last
        = (if last - first = 8 then Outcome.returned ⟨⟨MEM_read s.mem first⟩, s.mem⟩
           else Outcome.assertion_failed s)
    ∧ vec8i.vec_range false mem first last
        = (if last - first = 8 then Outcome.returned ⟨⟨MEM_read mem first⟩, mem⟩
           else Outcome.assertion_failed ⟨vec8i.vec_default, mem⟩)
    ∧ vec8i.store false s first last
        = (if last - first = 8
           then Outcome.returned ⟨s.self, MEM_write s.mem first s.self.ymm⟩
           else Outcome.assertion_failed s)
    ∧ vec8i.store_aligned false s first last
        = (if last - first = 8
           then Outcome.returned ⟨s.self, MEM_write s.mem first s.self.ymm⟩
           else Outcome.assertion_failed s)
    ∧ vec8i.stream_aligned false s first last
        = (if last - first = 8
           then Outcome.returned ⟨s.self, MEM_write s.mem first s.self.ymm⟩
           else Outcome.assertion_failed s)
    ∧ vec8f.load_range false fs first last
        = (if last - first = 8 then Outcome.returned ⟨⟨MEM_read fs.mem first⟩, fs.mem⟩
           else Outcome.assertion_failed fs)
    ∧ vec8f.load_aligned false fs first last
        = (if last - first = 8 then Outcome.returned ⟨⟨MEM_read fs.mem first⟩, fs.mem⟩
           else Outcome.assertion_failed fs)
    ∧ vec8f.vec_range false mem first last
        = (if last - first = 8 then Outcome.returned ⟨⟨MEM_read mem first⟩, mem⟩
           else Outcome.assertion_failed ⟨vec8f.vec_default, mem⟩)
    ∧ vec8f.store false fs first last
        = (if last - first = 8
           then Outcome.returned ⟨fs.self, MEM_write fs.mem first fs.self.ymm⟩
           else Outcome.assertion_failed fs)
    ∧ vec8f.store_aligned false fs first last
        = (if last - first = 8
           then Outcome.returned ⟨fs.self, MEM_write fs.mem first fs.self.ymm⟩
           else Outcome.assertion_failed fs)
    ∧ vec8f.store_aligned_stream false fs first last
        = (if last - first = 8
           then Outcome.returned ⟨fs.self, MEM_write fs.mem first fs.self.ymm⟩
           else Outcome.assertion_failed fs)
    ∧ vec8i.store false
        ⟨vec8i.vec_literals 1 2 3 4 5 6 7 8, fun _ => Lane.zero⟩ 0 7
        = Outcome.assertion_failed ⟨vec8i.vec_literals 1 2 3 4 5 6 7 8, fun _ => Lane.zero⟩
    ∧ vec8i.load_range false
        ⟨vec8i.vec_literals 1 2 3 4 5 6 7 8, fun _ => Lane.zero⟩ 8 0
        = Outcome.assertion_failed ⟨vec8i.vec_literals 1 2 3 4 5 6 7 8, fun _ => Lane.zero⟩ := by
  have hi : (vec8i.Size : Int) = 8 := rfl
  have hf : (vec8f.Size : Int) = 8 := rfl
  refine ⟨?_, ?_, ?_, ?_, ?_, ?_, ?_, ?_, ?_, ?_, ?_, ?_, ?_, ?_, ?_⟩
  · rw [vec8i.load_range, assert_then_checked, hi]; rfl
  · rw [vec8i.load_aligned, assert_then_checked, hi]; rfl
  · rw [vec8i.load_aligned_stream, assert_then_checked, hi]; rfl
  · rw [vec8i.vec_range, vec8i.load_range, assert_then_checked, hi]; rfl
  · rw [vec8i.store, assert_then_checked, hi]; rfl
  · rw [vec8i.store_aligned, assert_then_checked, hi]; rfl
  · rw [vec8i.stream_aligned, assert_then_checked, hi]; rfl
  · rw [vec8f.load_range, assert_then_checked, hf]; rfl
  · rw [vec8f.load_aligned, assert_then_checked, hf]; rfl
  · rw [vec8f.vec_range, vec8f.load_range, assert_then_checked, hf]; rfl
  · rw [vec8f.store, assert_then_checked, hf]; rfl
  · rw [vec8f.store_aligned, assert_then_checked, hf]; rfl
  · rw [vec8f.store_aligned_stream, assert_then_checked, hf]; rfl
  · rfl
  · rfl

end avx

namespace avx

/-! ## Iteration and stream formatting -/

/-- C15: `operator<<` writes exactly the eight lanes in storage order, the text
of lane 0 first and that of lane 7 last, each followed by one space, and
iteration from `begin(v)` to `end(v)` visits exactly those eight lanes in the
same order; for `vec8i` and for `vec8f`, whatever the formatting of an element
is and whatever the stream held before. The decimal text of
`vec8i{1,2,3,4,5,6,7,8}` is `1 2 3 4 5 6 7 8 `. -/
theorem stream_prints_lanes_in_storage_order (NDEBUG : Bool) (v : vec8i) (fv : vec8f)
    (format : Lane → String) (o : String) :
    operator_shl_stream vec8i.Size (vec8i.operator_index NDEBUG v) (vec8i.read v) format o
        = some (o ++ format (v.ymm 0) ++ " " ++ format (v.ymm 1) ++ " "
            ++ format (v.ymm 2) ++ " " ++ format (v.ymm 3) ++ " "
            ++ format (v.ymm 4) ++ " " ++ format (v.ymm 5) ++ " "
            ++ format (v.ymm 6) ++ " " ++ format (v.ymm 7) ++ " ")
    ∧ operator_shl_stream vec8f.Size (vec8f.operator_index NDEBUG fv) (vec8f.read fv) format o
        = some (o ++ format (fv.ymm 0) ++ " " ++ format (fv.ymm 1) ++ " "
            ++ format (fv.ymm 2) ++ " " ++ format (fv.ymm 3) ++ " "
            ++ format (fv.ymm 4) ++ " " ++ format (fv.ymm 5) ++ " "
            ++ format (fv.ymm 6) ++ " " ++ format (fv.ymm 7) ++ " ")
    ∧ begin (vec8i.operator_index NDEBUG v) = some 0
    ∧ end_ vec8i.Size (vec8i.operator_index NDEBUG v) = some 8
    ∧ visit_range (vec8i.read v) 0 8 = some (lanes v.ymm)
    ∧ begin (vec8f.operator_index NDEBUG fv) = some 0
    ∧ end_ vec8f.Size (vec8f.operator_index NDEBUG fv) = some 8
    ∧ visit_range (vec8f.read fv) 0 8 = some (lanes fv.ymm)
    ∧ operator_shl_stream vec8i.Size
          (vec8i.operator_index false (vec8i.vec_literals 1 2 3 4 5 6 7 8))
          (vec8i.read (vec8i.vec_literals 1 2 3 4 5 6 7 8))
          (fun l => toString l.toInt) ""
        = some "1 2 3 4 5 6 7 8 " := by
  have hi : vec8i.operator_index NDEBUG v 0 = some 0 := by
    cases NDEBUG <;> rfl
  have hf : vec8f.operator_index NDEBUG fv 0 = some 0 := by
    cases NDEBUG <;> rfl
  refine ⟨?_, ?_, hi, ?_, rfl, hf, ?_, rfl, ?_⟩
  · simp only [operator_shl_stream, begin, hi]
    rfl
  · simp only [operator_shl_stream, begin, hf]
    rfl
  · simp only [end_, begin, hi]
    rfl
  · simp only [end_, begin, hf]
    rfl
  · decide

end avx

namespace avx

/-! ## Comparisons of `vec8f` -/

theorem F32.relation_self (x : Lane) :
    F32.relation x x = (if F32.isNaN x then F32.Relation.unordered else F32.Relation.equal) := by
  unfold F32.relation
  cases h : F32.isNaN x <;> simp

theorem cmp_ps_mask (a b : __m256) (imm8 : Int) (i : Fin 8) :
    _mm256_cmp_ps a b imm8 i = Lane.allOnes ∨ _mm256_cmp_ps a b imm8 i = Lane.zero := by
  unfold _mm256_cmp_ps
  split
  · exact Or.inl rfl
  · exact Or.inr rfl

/-- C18: in lane `i`, `a == a` is all-ones and `a != a` all-zero when `a[i]` is
no NaN; when `a[i]` is a NaN, `a == a`, `a < a`, `a > a`, `a <= a` and `a >= a`
are all-zero and `a != a` is all-ones (`a < a` and `a > a` are all-zero in
either case). Every lane of every `vec8f` comparison, whatever the operands
and the predicate, is all-ones or all-zero. -/
theorem vec8f_self_comparisons (a b : vec8f) (M : Int) (i : Fin 8) :
    (vec8f.operator_eq a a).ymm i
        = (if F32.isNaN (a.ymm i) then Lane.zero else Lane.allOnes)
    ∧ (vec8f.operator_ne a a).ymm i
        = (if F32.isNaN (a.ymm i) then Lane.allOnes else Lane.zero)
    ∧ (vec8f.operator_lt a a).ymm i = Lane.zero
    ∧ (vec8f.operator_gt a a).ymm i = Lane.zero
    ∧ (vec8f.operator_le a a).ymm i
        = (if F32.isNaN (a.ymm i) then Lane.zero else Lane.allOnes)
    ∧ (vec8f.operator_ge a a).ymm i
        = (if F32.isNaN (a.ymm i) then Lane.zero else Lane.allOnes)
    ∧ ((vec8f.compare M a b).ymm i = Lane.allOnes ∨ (vec8f.compare M a b).ymm i = Lane.zero)
    ∧ ((vec8f.operator_eq a b).ymm i = Lane.allOnes ∨ (vec8f.operator_eq a b).ymm i = Lane.zero)
    ∧ ((vec8f.operator_ne a b).ymm i = Lane.allOnes ∨ (vec8f.operator_ne a b).ymm i = Lane.zero)
    ∧ ((vec8f.operator_lt a b).ymm i = Lane.allOnes ∨ (vec8f.operator_lt a b).ymm i = Lane.zero)
    ∧ ((vec8f.operator_gt a b).ymm i = Lane.allOnes ∨ (vec8f.operator_gt a b).ymm i = Lane.zero)
    ∧ ((vec8f.operator_le a b).ymm i = Lane.allOnes ∨ (vec8f.operator_le a b).ymm i = Lane.zero)
    ∧ ((vec8f.operator_ge a b).ymm i = Lane.allOnes ∨ (vec8f.operator_ge a b).ymm i = Lane.zero)
    ∧ lanes (vec8f.operator_eq (vec8f.vec_scalar F32.defaultNaN)
          (vec8f.vec_scalar F32.defaultNaN)).ymm = List.replicate 8 Lane.zero
    ∧ lanes (vec8f.operator_ne (vec8f.vec_scalar F32.defaultNaN)
          (vec8f.vec_scalar F32.defaultNaN)).ymm = List.replicate 8 Lane.allOnes
    ∧ lanes (vec8f.operator_eq (vec8f.vec_scalar F32.posZero)
          (vec8f.vec_scalar F32.negZero)).ymm = List.replicate 8 Lane.allOnes
    ∧ lanes (vec8f.operator_lt (vec8f.vec_literals (-2) (-1) 0 1 2 3 4 5)
          (vec8f.vec_literals (-1) (-2) 0 2 1 3 5 4)).ymm
        = [Lane.allOnes, Lane.zero, Lane.zero, Lane.allOnes,
           Lane.zero, Lane.zero, Lane.allOnes, Lane.zero] := by
  have h0 : imm8_low 0 % 32 = 0 := by decide
  have h4 : imm8_low 4 % 32 = 4 := by decide
  have h1 : imm8_low 1 % 32 = 1 := by decide
  have h14 : imm8_low 14 % 32 = 14 := by decide
  have h2 : imm8_low 2 % 32 = 2 := by decide
  have h13 : imm8_low 13 % 32 = 13 := by decide
  refine ⟨?_, ?_, ?_, ?_, ?_, ?_, cmp_ps_mask _ _ _ _, cmp_ps_mask _ _ _ _,
    cmp_ps_mask _ _ _ _, cmp_ps_mask _ _ _ _, cmp_ps_mask _ _ _ _, cmp_ps_mask _ _ _ _,
    cmp_ps_mask _ _ _ _, by decide, by decide, by decide, by decide⟩
  · simp only [vec8f.operator_eq, vec8f.compare, _mm256_cmp_ps, h0, F32.relation_self]
    cases F32.isNaN (a.ymm i) <;> decide
  · simp only [vec8f.operator_ne, vec8f.compare, _mm256_cmp_ps, h4, F32.relation_self]
    cases F32.isNaN (a.ymm i) <;> decide
  · simp only [vec8f.operator_lt, vec8f.compare, _mm256_cmp_ps, h1, F32.relation_self]
    cases F32.isNaN (a.ymm i) <;> decide
  · simp only [vec8f.operator_gt, vec8f.compare, _mm256_cmp_ps, h14, F32.relation_self]
    cases F32.isNaN (a.ymm i) <;> decide
  · simp only [vec8f.operator_le, vec8f.compare, _mm256_cmp_ps, h2, F32.relation_self]
    cases F32.isNaN (a.ymm i) <;> decide
  · simp only [vec8f.operator_ge, vec8f.compare, _mm256_cmp_ps, h13, F32.relation_self]
    cases F32.isNaN (a.ymm i) <;> decide

end avx

namespace avx

/-! ## Rounding: scaling and representable values -/

theorem F32.bitLength_zero (fuel : Nat) : F32.bitLength fuel 0 = 0 := by
  cases fuel <;> simp [F32.bitLength]

theorem F32.bitLength_succ (fuel m : Nat) (hm : m ≠ 0) :
    F32.bitLength (fuel + 1) m = F32.bitLength fuel (m / 2) + 1 := by
  simp [F32.bitLength, hm]

theorem F32.bitLength_spec (fuel : Nat) : ∀ m : Nat, m ≤ fuel → m ≠ 0 →
    2 ^ (F32.bitLength fuel m - 1) ≤ m ∧ m < 2 ^ F32.bitLength fuel m
      ∧ 1 ≤ F32.bitLength fuel m := by
  induction fuel with
  | zero =>
    intro m h hm
    omega
  | succ f ih =>
    intro m h hm
    rw [F32.bitLength_succ f m hm]
    by_cases h2 : m / 2 = 0
    · rw [h2, F32.bitLength_zero]
      have : m = 1 := by omega
      subst this
      decide
    · have hle : m / 2 ≤ f := by omega
      obtain ⟨h1, h3, h4⟩ := ih (m / 2) hle h2
      refine ⟨?_, ?_, by omega⟩
      · have : F32.bitLength f (m / 2) + 1 - 1 = (F32.bitLength f (m / 2) - 1) + 1 := by omega
        rw [this, Nat.pow_succ]
        omega
      · rw [Nat.pow_succ]
        omega

theorem F32.bitLength_unique (m a : Nat) (hm : m ≠ 0) (h1 : 2 ^ (a - 1) ≤ m)
    (h2 : m < 2 ^ a) (ha : 1 ≤ a) : F32.bitLength m m = a := by
  obtain ⟨s1, s2, s3⟩ := F32.bitLength_spec m m (le_refl m) hm
  have hlt1 : 2 ^ (a - 1) < 2 ^ F32.bitLength m m := lt_of_le_of_lt h1 s2
  have hlt2 : 2 ^ (F32.bitLength m m - 1) < 2 ^ a := lt_of_le_of_lt s1 h2
  have e1 := (Nat.pow_lt_pow_iff_right (by decide : 1 < 2)).mp hlt1
  have e2 := (Nat.pow_lt_pow_iff_right (by decide : 1 < 2)).mp hlt2
  omega

theorem F32.bitLength_scale (m k : Nat) (hm : m ≠ 0) :
    F32.bitLength (m * 2 ^ k) (m * 2 ^ k) = F32.bitLength m m + k := by
  obtain ⟨s1, s2, s3⟩ := F32.bitLength_spec m m (le_refl m) hm
  have hpos : 0 < 2 ^ k := Nat.pow_pos (by decide)
  apply F32.bitLength_unique
  · exact Nat.mul_ne_zero hm (by omega)
  · have : F32.bitLength m m + k - 1 = (F32.bitLength m m - 1) + k := by omega
    rw [this, Nat.pow_add]
    exact Nat.mul_le_mul_right _ s1
  · rw [Nat.pow_add]
    exact Nat.mul_lt_mul_of_pos_right s2 hpos
  · omega

end avx

namespace avx

theorem F32.round_eq (s : Bool) (m : Nat) (e : Int) :
    F32.round s m e
      = Lane.ofNat
          ((if m = 0 then 0 else
              min ((max (e + (F32.bitLength m m : Int) - 1) (-126) + 126).toNat * 8388608
                + F32.keptSignificand m e (max (e + (F32.bitLength m m : Int) - 1) (-126) - 23))
                2139095040)
            + (if s then 2147483648 else 0)) := rfl

theorem F32.keptSignificand_scale (m k : Nat) (e u : Int) :
    F32.keptSignificand (m * 2 ^ k) (e - (k : Int)) u = F32.keptSignificand m e u := by
  have hkpos : 0 < 2 ^ k := Nat.pow_pos (by decide)
  unfold F32.keptSignificand
  by_cases h1 : u ≤ e - (k : Int)
  · have h2 : u ≤ e := by omega
    rw [if_pos h1, if_pos h2, Nat.mul_assoc, ← Nat.pow_add]
    have : k + (e - (k : Int) - u).toNat = (e - u).toNat := by omega
    rw [this]
  · rw [if_neg h1]
    by_cases h2 : u ≤ e
    · rw [if_pos h2]
      have hsh : (u - (e - (k : Int))).toNat + (e - u).toNat = k := by omega
      have hsplit : m * 2 ^ k = m * 2 ^ (e - u).toNat * 2 ^ (u - (e - (k : Int))).toNat := by
        rw [Nat.mul_assoc, ← Nat.pow_add, Nat.add_comm, hsh]
      have hshpos : 0 < 2 ^ (u - (e - (k : Int))).toNat := Nat.pow_pos (by decide)
      have hrest : m * 2 ^ k % 2 ^ (u - (e - (k : Int))).toNat = 0 := by
        rw [hsplit]
        exact Nat.mul_mod_left _ _
      have hkept : m * 2 ^ k / 2 ^ (u - (e - (k : Int))).toNat = m * 2 ^ (e - u).toNat := by
        rw [hsplit]
        exact Nat.mul_div_cancel _ hshpos
      have hhalf : 0 < 2 ^ ((u - (e - (k : Int))).toNat - 1) := Nat.pow_pos (by decide)
      have hcond : ¬ (m * 2 ^ k % 2 ^ (u - (e - (k : Int))).toNat
            > 2 ^ ((u - (e - (k : Int))).toNat - 1)
          ∨ (m * 2 ^ k % 2 ^ (u - (e - (k : Int))).toNat
              = 2 ^ ((u - (e - (k : Int))).toNat - 1)
            ∧ m * 2 ^ k / 2 ^ (u - (e - (k : Int))).toNat % 2 = 1)) := by
        rw [hrest]
        omega
      rw [if_neg hcond, hkept]
    · rw [if_neg h2]
      have hsh : (u - (e - (k : Int))).toNat = (u - e).toNat + k := by omega
      have hsh1 : (u - e).toNat + k - 1 = ((u - e).toNat - 1) + k := by omega
      have hrest : m * 2 ^ k % 2 ^ ((u - e).toNat + k) = m % 2 ^ (u - e).toNat * 2 ^ k := by
        rw [Nat.pow_add]
        exact Nat.mul_mod_mul_right _ _ _
      have hkept : m * 2 ^ k / 2 ^ ((u - e).toNat + k) = m / 2 ^ (u - e).toNat := by
        rw [Nat.pow_add]
        exact Nat.mul_div_mul_right _ _ hkpos
      rw [hsh, hsh1, hrest, hkept, Nat.pow_add (n := k)]
      have hgt : (m % 2 ^ (u - e).toNat * 2 ^ k > 2 ^ ((u - e).toNat - 1) * 2 ^ k)
          ↔ (m % 2 ^ (u - e).toNat > 2 ^ ((u - e).toNat - 1)) :=
        Nat.mul_lt_mul_right hkpos
      have heq : (m % 2 ^ (u - e).toNat * 2 ^ k = 2 ^ ((u - e).toNat - 1) * 2 ^ k)
          ↔ (m % 2 ^ (u - e).toNat = 2 ^ ((u - e).toNat - 1)) :=
        Nat.mul_left_inj (by omega)
      simp only [hgt, heq]

theorem F32.round_scale (s : Bool) (m k : Nat) (e : Int) :
    F32.round s (m * 2 ^ k) (e - (k : Int)) = F32.round s m e := by
  by_cases hm : m = 0
  · subst hm
    simp only [Nat.zero_mul, F32.round_eq, if_true]
  · have hkpos : 0 < 2 ^ k := Nat.pow_pos (by decide)
    have hmk : m * 2 ^ k ≠ 0 := Nat.mul_ne_zero hm (by omega)
    rw [F32.round_eq, F32.round_eq, F32.bitLength_scale m k hm, if_neg hm, if_neg hmk]
    have htop : e - (k : Int) + ((F32.bitLength m m + k : Nat) : Int) - 1
        = e + (F32.bitLength m m : Int) - 1 := by
      push_cast
      ring
    rw [htop, F32.keptSignificand_scale]

end avx

namespace avx

theorem F32.sign_iff (x : Lane) : F32.sign x = decide (2147483648 ≤ x.val) := by
  have hx := x.isLt
  simp only [F32.sign, Lane.bit, Nat.testBit_to_div_mod]
  congr 1
  apply propext
  constructor <;> intro h <;> omega

theorem F32.exponent_bounds (x : Lane) (hfin : F32.isFinite x = true) :
    -149 ≤ F32.exponent x ∧ F32.exponent x ≤ 104 := by
  have h255 : F32.expField x ≠ 255 := by
    simpa [F32.isFinite] using hfin
  have hlt : F32.expField x < 256 := by
    unfold F32.expField
    omega
  unfold F32.exponent
  split <;> omega

theorem F32.significand_lt (x : Lane) : F32.significand x < 16777216 := by
  have hf : F32.fracField x < 8388608 := by
    unfold F32.fracField
    omega
  unfold F32.significand
  split <;> omega

/-- Rounding the value of a finite encoding gives the encoding back. -/
theorem F32.round_decode (x : Lane) (hfin : F32.isFinite x = true) :
    F32.round (F32.sign x) (F32.significand x) (F32.exponent x) = x := by
  have hx := x.isLt
  have h255 : F32.expField x ≠ 255 := by
    simpa [F32.isFinite] using hfin
  have hef : F32.expField x = x.val / 8388608 % 256 := rfl
  have hfr : F32.fracField x = x.val % 8388608 := rfl
  have hfl : F32.fracField x < 8388608 := by omega
  rw [F32.round_eq, F32.sign_iff]
  apply Fin.ext
  simp only [Lane.ofNat]
  by_cases he0 : F32.expField x = 0
  · -- zero or subnormal
    have hsig : F32.significand x = F32.fracField x := by
      simp only [F32.significand, he0, if_true]
    have hexp : F32.exponent x = -149 := by
      simp only [F32.exponent, he0, if_true]
    rw [hsig, hexp]
    by_cases hz : F32.fracField x = 0
    · rw [if_pos hz]
      by_cases hs : 2147483648 ≤ x.val
      · simp only [hs, decide_True, if_true]
        omega
      · simp only [hs, decide_False, Bool.false_eq_true, if_false]
        omega
    · rw [if_neg hz]
      obtain ⟨s1, s2, s3⟩ := F32.bitLength_spec _ _ (le_refl (F32.fracField x)) hz
      have hL : F32.bitLength (F32.fracField x) (F32.fracField x) ≤ 23 := by
        by_contra hc
        have h24 : 23 ≤ F32.bitLength (F32.fracField x) (F32.fracField x) - 1 := by omega
        have := Nat.pow_le_pow_right (by decide : 0 < 2) h24
        omega
      have hmax : max (-149 + (F32.bitLength (F32.fracField x) (F32.fracField x) : Int) - 1)
          (-126) = -126 := by omega
      rw [hmax]
      have hkept : F32.keptSignificand (F32.fracField x) (-149) (-126 - 23)
          = F32.fracField x := by
        simp [F32.keptSignificand]
      rw [hkept]
      by_cases hs : 2147483648 ≤ x.val
      · simp only [hs, decide_True, if_true]
        omega
      · simp only [hs, decide_False, Bool.false_eq_true, if_false]
        omega
  · -- normal
    have hsig : F32.significand x = 8388608 + F32.fracField x := by
      simp only [F32.significand, he0, if_false]
    have hexp : F32.exponent x = (F32.expField x : Int) - 150 := by
      simp only [F32.exponent, he0, if_false]
    have hnz : 8388608 + F32.fracField x ≠ 0 := by omega
    have hL : F32.bitLength (8388608 + F32.fracField x) (8388608 + F32.fracField x) = 24 := by
      apply F32.bitLength_unique _ _ hnz
      · norm_num
      · norm_num
        omega
      · decide
    rw [hsig, hexp, if_neg hnz, hL]
    have hmax : max ((F32.expField x : Int) - 150 + ((24 : Nat) : Int) - 1) (-126)
        = (F32.expField x : Int) - 127 := by
      have : 1 ≤ F32.expField x := by omega
      omega
    rw [hmax]
    have hu : (F32.expField x : Int) - 127 - 23 = (F32.expField x : Int) - 150 := by ring
    have hkept : F32.keptSignificand (8388608 + F32.fracField x) ((F32.expField x : Int) - 150)
        ((F32.expField x : Int) - 127 - 23) = 8388608 + F32.fracField x := by
      rw [hu]
      simp [F32.keptSignificand]
    rw [hkept]
    have hb : ((F32.expField x : Int) - 127 + 126).toNat = F32.expField x - 1 := by omega
    rw [hb]
    by_cases hs : 2147483648 ≤ x.val
    · simp only [hs, decide_True, if_true]
      omega
    · simp only [hs, decide_False, Bool.false_eq_true, if_false]
      omega

end avx

namespace avx

theorem F32.natAbs_signedSignificand (x : Lane) :
    (F32.signedSignificand x).natAbs = F32.significand x := by
  unfold F32.signedSignificand
  split <;> simp

theorem F32.sign_of_signedSignificand (x : Lane) (h : F32.signedSignificand x ≠ 0) :
    F32.sign x = decide (F32.signedSignificand x < 0) := by
  unfold F32.signedSignificand at h ⊢
  cases hs : F32.sign x
  · simp only [Bool.false_eq_true, if_false]
    have : ¬ ((F32.significand x : Int) < 0) := by omega
    rw [decide_eq_false this]
  · simp only [hs, if_true] at h
    simp only [if_true]
    have : -(F32.significand x : Int) < 0 := by omega
    rw [decide_eq_true this]

theorem F32.scaled_eq_of_zpow (t s : Int) (E : Int) (k : Nat)
    (hv : (t : ℚ) * (2 : ℚ) ^ (E - (k : Int)) = (s : ℚ) * (2 : ℚ) ^ E) : t = s * 2 ^ k := by
  have h2 : (2 : ℚ) ≠ 0 := by norm_num
  have hE : (2 : ℚ) ^ E ≠ 0 := zpow_ne_zero _ h2
  have hK : (2 : ℚ) ^ k ≠ 0 := pow_ne_zero _ h2
  rw [zpow_sub₀ h2, zpow_natCast] at hv
  have hq : (t : ℚ) = (s : ℚ) * (2 : ℚ) ^ k := by
    field_simp at hv
    have h3 : (t : ℚ) * (2 : ℚ) ^ E = ((s : ℚ) * (2 : ℚ) ^ k) * (2 : ℚ) ^ E := by linarith
    exact mul_right_cancel₀ hE h3
  have : (t : ℚ) = ((s * 2 ^ k : Int) : ℚ) := by
    rw [hq]
    push_cast
    rfl
  exact_mod_cast this

/-- Rounding a value that a finite encoding `r` denotes gives `r`. -/
theorem F32.round_of_representable (r : Lane) (hfin : F32.isFinite r = true) (t e : Int)
    (ht : t ≠ 0) (hv : (t : ℚ) * (2 : ℚ) ^ e = F32.toRat r) :
    F32.round (decide (t < 0)) t.natAbs e = r := by
  have hdec := F32.round_decode r hfin
  rw [F32.toRat] at hv
  by_cases hle : e ≤ F32.exponent r
  · -- the value is given on a finer grid than that of `r`
    obtain ⟨k, hk⟩ : ∃ k : Nat, e = F32.exponent r - (k : Int) :=
      ⟨(F32.exponent r - e).toNat, by omega⟩
    subst hk
    have hz := F32.scaled_eq_of_zpow t _ _ k hv
    have hpow : (0 : Int) < 2 ^ k := by positivity
    have hS : F32.signedSignificand r ≠ 0 := by
      intro h0
      rw [h0] at hz
      simp at hz
      exact ht hz
    have habs : t.natAbs = F32.significand r * 2 ^ k := by
      rw [hz, Int.natAbs_mul, F32.natAbs_signedSignificand, Int.natAbs_pow]
      rfl
    have hsign : decide (t < 0) = F32.sign r := by
      rw [F32.sign_of_signedSignificand r hS]
      congr 1
      apply propext
      rw [hz]
      constructor
      · intro h
        by_contra hc
        have := Int.mul_nonneg (by omega : 0 ≤ F32.signedSignificand r) (le_of_lt hpow)
        omega
      · intro h
        exact Int.mul_neg_of_neg_of_pos h hpow
    rw [habs, hsign, F32.round_scale, hdec]
  · -- the grid of `r` is the finer one
    obtain ⟨k, hk⟩ : ∃ k : Nat, F32.exponent r = e - (k : Int) :=
      ⟨(e - F32.exponent r).toNat, by omega⟩
    rw [hk] at hv
    have hz := F32.scaled_eq_of_zpow (F32.signedSignificand r) t e k hv.symm
    have hpow : (0 : Int) < 2 ^ k := by positivity
    have hS : F32.signedSignificand r ≠ 0 := by
      rw [hz]
      exact Int.mul_ne_zero ht (by omega)
    have habs : F32.significand r = t.natAbs * 2 ^ k := by
      rw [← F32.natAbs_signedSignificand, hz, Int.natAbs_mul, Int.natAbs_pow]
      rfl
    have hsign : decide (t < 0) = F32.sign r := by
      rw [F32.sign_of_signedSignificand r hS]
      congr 1
      apply propext
      rw [hz]
      constructor
      · intro h
        exact Int.mul_neg_of_neg_of_pos h hpow
      · intro h
        by_contra hc
        have := Int.mul_nonneg (by omega : 0 ≤ t) (le_of_lt hpow)
        omega
    rw [hsign]
    conv_rhs => rw [← hdec, habs, hk]
    rw [F32.round_scale]

end avx

namespace avx

/-! ## Fused multiply-add -/

theorem F32.two_zpow_toNat (d : Int) (hd : 0 ≤ d) : ((2 : ℚ) ^ d.toNat) = (2 : ℚ) ^ d := by
  have h : ((d.toNat : Nat) : Int) = d := Int.toNat_of_nonneg hd
  rw [← zpow_natCast, h]

theorem F32.not_special_of_finite (x : Lane) (h : F32.isFinite x = true) :
    F32.isNaN x = false ∧ F32.isInf x = false := by
  have h255 : F32.expField x ≠ 255 := by
    simpa [F32.isFinite] using h
  simp [F32.isNaN, F32.isInf, h255]

theorem F32.fma_finite (a b c : Lane) (ha : F32.isFinite a = true) (hb : F32.isFinite b = true)
    (hc : F32.isFinite c = true) :
    F32.fma a b c
      = (if F32.signedSignificand a * F32.signedSignificand b
              * 2 ^ (F32.exponent a + F32.exponent b
                  - min (F32.exponent a + F32.exponent b) (F32.exponent c)).toNat
            + F32.signedSignificand c
              * 2 ^ (F32.exponent c
                  - min (F32.exponent a + F32.exponent b) (F32.exponent c)).toNat = 0
         then (if (F32.sign a != F32.sign b) && F32.sign c then F32.negZero else F32.posZero)
         else F32.round
           (decide (F32.signedSignificand a * F32.signedSignificand b
              * 2 ^ (F32.exponent a + F32.exponent b
                  - min (F32.exponent a + F32.exponent b) (F32.exponent c)).toNat
            + F32.signedSignificand c
              * 2 ^ (F32.exponent c
                  - min (F32.exponent a + F32.exponent b) (F32.exponent c)).toNat < 0))
           (F32.signedSignificand a * F32.signedSignificand b
              * 2 ^ (F32.exponent a + F32.exponent b
                  - min (F32.exponent a + F32.exponent b) (F32.exponent c)).toNat
            + F32.signedSignificand c
              * 2 ^ (F32.exponent c
                  - min (F32.exponent a + F32.exponent b) (F32.exponent c)).toNat).natAbs
           (min (F32.exponent a + F32.exponent b) (F32.exponent c))) := by
  obtain ⟨ha1, ha2⟩ := F32.not_special_of_finite a ha
  obtain ⟨hb1, hb2⟩ := F32.not_special_of_finite b hb
  obtain ⟨hc1, hc2⟩ := F32.not_special_of_finite c hc
  simp only [F32.fma, ha1, ha2, hb1, hb2, hc1, hc2, Bool.false_eq_true, if_false, Bool.or_self]

/-- The integer `total` and the exponent `e` that `fma` rounds denote the exact
value of `a * b + c`. -/
theorem F32.fma_total_exact (a b c : Lane) :
    ((F32.signedSignificand a * F32.signedSignificand b
          * 2 ^ (F32.exponent a + F32.exponent b
              - min (F32.exponent a + F32.exponent b) (F32.exponent c)).toNat
        + F32.signedSignificand c
          * 2 ^ (F32.exponent c
              - min (F32.exponent a + F32.exponent b) (F32.exponent c)).toNat : Int) : ℚ)
        * (2 : ℚ) ^ (min (F32.exponent a + F32.exponent b) (F32.exponent c))
      = F32.toRat a * F32.toRat b + F32.toRat c := by
  have h2 : (2 : ℚ) ≠ 0 := by norm_num
  have h1 : 0 ≤ F32.exponent a + F32.exponent b
      - min (F32.exponent a + F32.exponent b) (F32.exponent c) := by omega
  have h3 : 0 ≤ F32.exponent c - min (F32.exponent a + F32.exponent b) (F32.exponent c) := by
    omega
  generalize min (F32.exponent a + F32.exponent b) (F32.exponent c) = e at h1 h3 ⊢
  push_cast
  rw [F32.two_zpow_toNat _ h1, F32.two_zpow_toNat _ h3]
  have hA : (2 : ℚ) ^ (F32.exponent a + F32.exponent b - e) * (2 : ℚ) ^ e
      = (2 : ℚ) ^ F32.exponent a * (2 : ℚ) ^ F32.exponent b := by
    rw [← zpow_add₀ h2, sub_add_cancel, zpow_add₀ h2]
  have hC : (2 : ℚ) ^ (F32.exponent c - e) * (2 : ℚ) ^ e = (2 : ℚ) ^ F32.exponent c := by
    rw [← zpow_add₀ h2, sub_add_cancel]
  simp only [F32.toRat]
  linear_combination
    ((F32.signedSignificand a : ℚ) * (F32.signedSignificand b : ℚ)) * hA
      + (F32.signedSignificand c : ℚ) * hC

theorem F32.toRat_posZero : F32.toRat F32.posZero = 0 := by
  rw [F32.toRat_of_parts F32.posZero 0 (-149) (by decide) (by decide)]
  norm_num

theorem F32.toRat_negZero : F32.toRat F32.negZero = 0 := by
  rw [F32.toRat_of_parts F32.negZero 0 (-149) (by decide) (by decide)]
  norm_num

/-- Wherever the exact value of `a * b + c` is that of a finite encoding `r`,
`fma` has that value, and it is `r` itself unless the value is zero. -/
theorem F32.fma_exact (a b c r : Lane) (ha : F32.isFinite a = true) (hb : F32.isFinite b = true)
    (hc : F32.isFinite c = true) (hr : F32.isFinite r = true)
    (hv : F32.toRat r = F32.toRat a * F32.toRat b + F32.toRat c) :
    F32.toRat (F32.fma a b c) = F32.toRat a * F32.toRat b + F32.toRat c
    ∧ F32.isFinite (F32.fma a b c) = true
    ∧ (F32.toRat r = 0 ∨ F32.fma a b c = r) := by
  have hex := F32.fma_total_exact a b c
  rw [F32.fma_finite a b c ha hb hc]
  generalize F32.signedSignificand a * F32.signedSignificand b
          * 2 ^ (F32.exponent a + F32.exponent b
              - min (F32.exponent a + F32.exponent b) (F32.exponent c)).toNat
        + F32.signedSignificand c
          * 2 ^ (F32.exponent c
              - min (F32.exponent a + F32.exponent b) (F32.exponent c)).toNat = t at hex ⊢
  by_cases ht : t = 0
  · rw [if_pos ht]
    rw [ht] at hex
    have h0 : F32.toRat a * F32.toRat b + F32.toRat c = 0 := by
      rw [← hex]
      simp
    refine ⟨?_, ?_, Or.inl (by rw [hv, h0])⟩
    · rw [h0]
      split
      · exact F32.toRat_negZero
      · exact F32.toRat_posZero
    · split <;> decide
  · rw [if_neg ht]
    have hround := F32.round_of_representable r hr t _ ht (by rw [hex, hv])
    rw [hround]
    exact ⟨hv, hr, Or.inr rfl⟩

end avx

namespace avx

set_option maxRecDepth 4000 in
/-- C16: in every lane with finite operands `fusedMulAdd(a, b, c)` is the exact
value of `a[i]*b[i] + c[i]`, an integer `t` times a power `2^e` of two,
rounded once. Wherever that exact value is a `float`, `r`, the lane has exactly
that value, and is `r` itself unless the value is zero. For
`a = [10,20,30,40,50,60,70,80]`, `b = [0,1,0,0,0,0,0,0]`,
`c = [1,2,3,4,5,6,7,8]` the result is `[1,22,3,4,5,6,7,8]`. With
`x = 1 + 2^-12` and `c = -(1 + 2^-11)` the single rounding shows:
`fusedMulAdd(x, x, c)` is `2^-24`, where `x*x + c` with two roundings is `0`. -/
theorem fusedMulAdd_rounds_once (a b c : vec8f) (i : Fin 8)
    (ha : F32.isFinite (a.ymm i) = true) (hb : F32.isFinite (b.ymm i) = true)
    (hc : F32.isFinite (c.ymm i) = true) :
    (∃ t e : Int,
      (t : ℚ) * (2 : ℚ) ^ e
          = F32.toRat (a.ymm i) * F32.toRat (b.ymm i) + F32.toRat (c.ymm i)
      ∧ (vec8f.fusedMulAdd a b c).ymm i
          = (if t = 0
             then (if (F32.sign (a.ymm i) != F32.sign (b.ymm i)) && F32.sign (c.ymm i)
                   then F32.negZero else F32.posZero)
             else F32.round (decide (t < 0)) t.natAbs e))
    ∧ (∀ r : Lane, F32.isFinite r = true →
        F32.toRat r = F32.toRat (a.ymm i) * F32.toRat (b.ymm i) + F32.toRat (c.ymm i) →
        F32.toRat ((vec8f.fusedMulAdd a b c).ymm i)
            = F32.toRat (a.ymm i) * F32.toRat (b.ymm i) + F32.toRat (c.ymm i)
        ∧ F32.isFinite ((vec8f.fusedMulAdd a b c).ymm i) = true
        ∧ (F32.toRat r = 0 ∨ (vec8f.fusedMulAdd a b c).ymm i = r))
    ∧ lanes (vec8f.fusedMulAdd (vec8f.vec_literals 10 20 30 40 50 60 70 80)
          (vec8f.vec_literals 0 1 0 0 0 0 0 0) (vec8f.vec_literals 1 2 3 4 5 6 7 8)).ymm
        = [F32.ofInt 1, F32.ofInt 22, F32.ofInt 3, F32.ofInt 4,
           F32.ofInt 5, F32.ofInt 6, F32.ofInt 7, F32.ofInt 8]
    ∧ lanes (vec8f.fusedMulAdd (vec8f.vec_scalar (Lane.ofNat 0x3F800800))
          (vec8f.vec_scalar (Lane.ofNat 0x3F800800))
          (vec8f.vec_scalar (Lane.ofNat 0xBF801000))).ymm
        = List.replicate 8 (Lane.ofNat 0x33800000)
    ∧ lanes (vec8f.operator_plus
          (vec8f.operator_star (vec8f.vec_scalar (Lane.ofNat 0x3F800800))
            (vec8f.vec_scalar (Lane.ofNat 0x3F800800)))
          (vec8f.vec_scalar (Lane.ofNat 0xBF801000))).ymm
        = List.replicate 8 F32.posZero := by
  refine ⟨?_, ?_, by decide, by decide, by decide⟩
  · refine ⟨_, _, F32.fma_total_exact (a.ymm i) (b.ymm i) (c.ymm i), ?_⟩
    simp only [vec8f.fusedMulAdd, _mm256_fmadd_ps]
    exact F32.fma_finite _ _ _ ha hb hc
  · intro r hr hv
    simp only [vec8f.fusedMulAdd, _mm256_fmadd_ps]
    exact F32.fma_exact _ _ _ r ha hb hc hr hv

theorem F32.toRat_small_values :
    F32.toRat (F32.ofInt 20) = 20 ∧ F32.toRat (F32.ofInt 1) = 1
    ∧ F32.toRat (F32.ofInt 2) = 2 ∧ F32.toRat (F32.ofInt 22) = 22 := by
  refine ⟨?_, ?_, F32.toRat_two, ?_⟩
  · rw [F32.toRat_of_parts (F32.ofInt 20) 10485760 (-19) (by decide) (by decide)]
    norm_num
  · rw [F32.toRat_of_parts (F32.ofInt 1) 8388608 (-23) (by decide) (by decide)]
    norm_num
  · rw [F32.toRat_of_parts (F32.ofInt 22) 11534336 (-19) (by decide) (by decide)]
    norm_num

/-- C16 at a concrete input: in lane 1 of the example the operands `20`, `1`
and `2` are finite, the exact value `20*1 + 2` is the float `22`, and the lane
of `fusedMulAdd` is that float. -/
theorem fusedMulAdd_rounds_once_witness :
    F32.isFinite (F32.ofInt 20) = true ∧ F32.isFinite (F32.ofInt 1) = true
    ∧ F32.isFinite (F32.ofInt 2) = true
    ∧ (vec8f.fusedMulAdd (vec8f.vec_literals 10 20 30 40 50 60 70 80)
          (vec8f.vec_literals 0 1 0 0 0 0 0 0) (vec8f.vec_literals 1 2 3 4 5 6 7 8)).ymm 1
        = F32.ofInt 22 := by
  refine ⟨by decide, by decide, by decide, ?_⟩
  have h := (fusedMulAdd_rounds_once (vec8f.vec_literals 10 20 30 40 50 60 70 80)
    (vec8f.vec_literals 0 1 0 0 0 0 0 0) (vec8f.vec_literals 1 2 3 4 5 6 7 8) 1
    (by decide) (by decide) (by decide)).2.1 (F32.ofInt 22) (by decide)
  have hvals := F32.toRat_small_values
  have hv : F32.toRat (F32.ofInt 22)
      = F32.toRat ((vec8f.vec_literals 10 20 30 40 50 60 70 80).ymm 1)
        * F32.toRat ((vec8f.vec_literals 0 1 0 0 0 0 0 0).ymm 1)
        + F32.toRat ((vec8f.vec_literals 1 2 3 4 5 6 7 8).ymm 1) := by
    have e1 : (vec8f.vec_literals 10 20 30 40 50 60 70 80).ymm 1 = F32.ofInt 20 := rfl
    have e2 : (vec8f.vec_literals 0 1 0 0 0 0 0 0).ymm 1 = F32.ofInt 1 := rfl
    have e3 : (vec8f.vec_literals 1 2 3 4 5 6 7 8).ymm 1 = F32.ofInt 2 := rfl
    rw [e1, e2, e3, hvals.1, hvals.2.1, hvals.2.2.1, hvals.2.2.2]
    norm_num
  rcases (h hv).2.2 with h0 | h1
  · rw [hvals.2.2.2] at h0
    norm_num at h0
  · exact h1

end avx

namespace avx

/-! ## Indexed lane access -/

/-- C21: with assertions enabled, `operator[]` of `vec8i` and of `vec8f`
returns a reference exactly for the indices below 8. For `i < 8` the reference
is to lane `i`: reading `v[i]` gives lane `i`, and after `v[i] = value` a read
of `v[i]` gives `value` while every other lane is as before. For an index of 8
or more the assertion fails and no reference is returned. -/
theorem indexed_access_within_eight_lanes (NDEBUG : Bool) (v : vec8i) (fv : vec8f)
    (i j : Fin 8) (value : Lane) (n : Nat) :
    vec8i.operator_index NDEBUG v i.val = some i.val
    ∧ vec8i.read_at NDEBUG v i.val = some (v.ymm i)
    ∧ vec8i.assign_at NDEBUG v i.val value = some ⟨Function.update v.ymm i value⟩
    ∧ vec8i.read_at NDEBUG ⟨Function.update v.ymm i value⟩ i.val = some value
    ∧ (j = i ∨ vec8i.read_at NDEBUG ⟨Function.update v.ymm i value⟩ j.val
        = vec8i.read_at NDEBUG v j.val)
    ∧ ((vec8i.operator_index false v n).isSome = true ↔ n < 8)
    ∧ vec8i.operator_index false v (8 + n) = none
    ∧ vec8i.read_at false v (8 + n) = none
    ∧ vec8i.assign_at false v (8 + n) value = none
    ∧ vec8f.operator_index NDEBUG fv i.val = some i.val
    ∧ vec8f.read_at NDEBUG fv i.val = some (fv.ymm i)
    ∧ vec8f.assign_at NDEBUG fv i.val value = some ⟨Function.update fv.ymm i value⟩
    ∧ vec8f.read_at NDEBUG ⟨Function.update fv.ymm i value⟩ i.val = some value
    ∧ (j = i ∨ vec8f.read_at NDEBUG ⟨Function.update fv.ymm i value⟩ j.val
        = vec8f.read_at NDEBUG fv j.val)
    ∧ ((vec8f.operator_index false fv n).isSome = true ↔ n < 8)
    ∧ vec8f.operator_index false fv (8 + n) = none
    ∧ vec8f.read_at false fv (8 + n) = none
    ∧ vec8f.assign_at false fv (8 + n) value = none
    ∧ (vec8i.assign_at false (vec8i.vec_literals 1 2 3 4 5 6 7 8) 3 (Lane.ofInt 40)).map
          (fun w => intLanes w.ymm)
        = some [1, 2, 3, 40, 5, 6, 7, 8] := by
  have hi := i.isLt
  have hj := j.isLt
  have hidx : ∀ (k : Fin 8) (w : vec8i), vec8i.operator_index NDEBUG w k.val = some k.val := by
    intro k w
    have hk : k.val < vec8i.Size := k.isLt
    simp [vec8i.operator_index, hk]
  have hfidx : ∀ (k : Fin 8) (w : vec8f), vec8f.operator_index NDEBUG w k.val = some k.val := by
    intro k w
    have hk : k.val < vec8f.Size := k.isLt
    simp [vec8f.operator_index, hk]
  have hread : ∀ (k : Fin 8) (w : vec8i), vec8i.read_at NDEBUG w k.val = some (w.ymm k) := by
    intro k w
    simp [vec8i.read_at, hidx, vec8i.read, k.isLt]
  have hfread : ∀ (k : Fin 8) (w : vec8f), vec8f.read_at NDEBUG w k.val = some (w.ymm k) := by
    intro k w
    simp [vec8f.read_at, hfidx, vec8f.read, k.isLt]
  have hout : ¬ (8 + n < vec8i.Size) := by
    simp only [vec8i.Size]
    omega
  have hfout : ¬ (8 + n < vec8f.Size) := by
    simp only [vec8f.Size]
    omega
  refine ⟨hidx i v, hread i v, ?_, ?_, ?_, ?_, ?_, ?_, ?_, hfidx i fv, hfread i fv, ?_, ?_, ?_,
    ?_, ?_, ?_, ?_, by decide⟩
  · simp [vec8i.assign_at, hidx, vec8i.write, hi]
  · rw [hread]
    simp
  · by_cases h : j = i
    · exact Or.inl h
    · right
      rw [hread, hread]
      simp [Function.update_noteq h]
  · by_cases h : n < 8
    · have h2 : n < vec8i.Size := h
      simp [vec8i.operator_index, h2, h]
    · have h2 : ¬ n < vec8i.Size := h
      simp [vec8i.operator_index, h2, h]
  · simp [vec8i.operator_index, hout]
  · simp [vec8i.read_at, vec8i.operator_index, hout]
  · simp [vec8i.assign_at, vec8i.operator_index, hout]
  · simp [vec8f.assign_at, hfidx, vec8f.write, hi]
  · rw [hfread]
    simp
  · by_cases h : j = i
    · exact Or.inl h
    · right
      rw [hfread, hfread]
      simp [Function.update_noteq h]
  · by_cases h : n < 8
    · have h2 : n < vec8f.Size := h
      simp [vec8f.operator_index, h2, h]
    · have h2 : ¬ n < vec8f.Size := h
      simp [vec8f.operator_index, h2, h]
  · simp [vec8f.operator_index, hfout]
  · simp [vec8f.read_at, vec8f.operator_index, hfout]
  · simp [vec8f.assign_at, vec8f.operator_index, hfout]

/-! ## Absolute value as a maximum -/

theorem ABS_eq_max_neg (x : Lane) :
    ABS x = (if x.toInt > (Lane.ofInt (((Lane.ofInt 0).val : Int) - (x.val : Int))).toInt
      then x else Lane.ofInt (((Lane.ofInt 0).val : Int) - (x.val : Int))) := by
  have hx := x.isLt
  have h0 : ((Lane.ofInt 0).val : Int) = 0 := by decide
  rw [h0]
  unfold ABS
  by_cases hneg : x.toInt < 0
  · rw [if_pos hneg]
    have hle : ¬ x.toInt > (Lane.ofInt (0 - (x.val : Int))).toInt := by
      unfold Lane.toInt at hneg ⊢
      simp only [Lane.ofInt]
      split at hneg <;> split <;> omega
    rw [if_neg hle]
    apply Fin.ext
    unfold Lane.toInt at hneg ⊢
    simp only [Lane.ofInt]
    split at hneg <;> omega
  · rw [if_neg hneg]
    by_cases hz : x.val = 0
    · have hle : ¬ x.toInt > (Lane.ofInt (0 - (x.val : Int))).toInt := by
        unfold Lane.toInt
        simp only [Lane.ofInt]
        split <;> split <;> omega
      rw [if_neg hle]
      apply Fin.ext
      simp only [Lane.ofInt]
      omega
    · have hgt : x.toInt > (Lane.ofInt (0 - (x.val : Int))).toInt := by
        unfold Lane.toInt at hneg ⊢
        simp only [Lane.ofInt]
        split at hneg <;> split <;> omega
      rw [if_pos hgt]

/-- C22: `abs(x)` equals `max(x, -x)` lane for lane, `-x` being `0 - x` modulo
`2^32`; a lane that holds `INT32_MIN` holds `INT32_MIN` in `x`, in `-x`, in
`abs(x)` and in `max(x, -x)` alike. -/
theorem vec8i_abs_is_max_of_negation (x : vec8i) (i : Fin 8) :
    vec8i.abs x = vec8i.max x (vec8i.operator_neg x)
    ∧ (vec8i.operator_neg x).ymm i = Lane.ofInt (0 - (x.ymm i).toInt)
    ∧ ((vec8i.abs x).ymm i).toInt
        = (if (x.ymm i).toInt > ((vec8i.operator_neg x).ymm i).toInt
           then (x.ymm i).toInt else ((vec8i.operator_neg x).ymm i).toInt)
    ∧ intLanes (vec8i.vec_scalar (Lane.ofInt (-2147483648))).ymm
        = List.replicate 8 (-2147483648)
    ∧ intLanes (vec8i.operator_neg (vec8i.vec_scalar (Lane.ofInt (-2147483648)))).ymm
        = List.replicate 8 (-2147483648)
    ∧ intLanes (vec8i.abs (vec8i.vec_scalar (Lane.ofInt (-2147483648)))).ymm
        = List.replicate 8 (-2147483648)
    ∧ intLanes (vec8i.max (vec8i.vec_scalar (Lane.ofInt (-2147483648)))
          (vec8i.operator_neg (vec8i.vec_scalar (Lane.ofInt (-2147483648))))).ymm
        = List.replicate 8 (-2147483648)
    ∧ intLanes (vec8i.max (vec8i.vec_literals (-1) 2 (-3) 0 2147483647 (-2147483647)
            (-2147483648) 16777215)
          (vec8i.operator_neg (vec8i.vec_literals (-1) 2 (-3) 0 2147483647 (-2147483647)
            (-2147483648) 16777215))).ymm
        = [1, 2, 3, 0, 2147483647, 2147483647, -2147483648, 16777215] := by
  have hlane : ∀ j : Fin 8, (vec8i.abs x).ymm j
      = (vec8i.max x (vec8i.operator_neg x)).ymm j := by
    intro j
    simp only [vec8i.abs, vec8i.max, vec8i.operator_neg, _mm256_abs_epi32, _mm256_max_epi32,
      _mm256_sub_epi32, _mm256_set1_epi32]
    exact ABS_eq_max_neg (x.ymm j)
  refine ⟨congrArg vec8i.mk (funext hlane), ?_, ?_, by decide, by decide, by decide, by decide,
    by decide⟩
  · have hx := (x.ymm i).isLt
    have h0 : ((Lane.ofInt 0).val : Int) = 0 := by decide
    simp only [vec8i.operator_neg, _mm256_sub_epi32, _mm256_set1_epi32, h0]
    apply Fin.ext
    simp only [Lane.ofInt, Lane.toInt]
    split <;> omega
  · rw [hlane i]
    simp only [vec8i.max, _mm256_max_epi32]
    split <;> rfl

end avx
